import Mathlib

/-!
# The jsnes console orchestrator (`src/nes.js`)

A shallow embedding of the constructor `NES` and of `NES.prototype`
(`reset`, `frame`, `getFPS`, `reloadROM`, `loadROM`, `setFramerate`,
`toJSON`, `fromJSON`) together with theorems about the frame scheduler, the
lifecycle operations and snapshots.

The CPU, PPU, APU, ROM and Mapper objects are collaborators whose code is
not part of `nes.js`.  Their methods are parameters of the development
(`Collab`); the fields of them that `nes.js` itself reads or writes
(`cpu.cyclesToHalt`, `ppu.curX`, `ppu.requestEndFrame`, ...) are explicit
record fields, and everything else they hold is an abstract component.

Cycle counts (what `cpu.emulate()` reports, and the stall budget
`cpu.cyclesToHalt`) are natural numbers; the PPU's dot position, scanline
and NMI delay are integers.  A call that can throw (`rom.load`, and with it
`loadROM` and `fromJSON`) returns an `Outcome` holding the state it leaves
behind.  The frame loop `for (;;)` is unrolled a bounded number of times
(`loopN`).  Frame rates and sample rates are rationals, a quotient is a
`JSNum`: the exact quotient rounded to an IEEE 754 double (`roundDouble`),
or an infinity or NaN.  Timestamps are natural numbers of milliseconds.

Every operation returns, next to the new state, a *ghost* log: the
collaborator calls it made, in order, and one marker per iteration of the
dot loop.  The log is not read by the code.
-/

namespace JSNES

/-- The abstract data of the collaborators. -/
structure Sorts where
  /-- what a CPU object holds besides `cyclesToHalt` -/
  Cpu : Type
  /-- what a PPU object holds besides the fields read by `frame` -/
  Ppu : Type
  /-- the PAPU object -/
  Papu : Type
  /-- a Mapper object -/
  Mapper : Type
  /-- a ROM object -/
  Rom : Type
  /-- the data handed to `loadROM` -/
  Bytes : Type

/-- The CPU as `nes.js` sees it.  The stall budget `cyclesToHalt` is a count
of cycles (the CPU only ever adds to it from 0), hence a natural number. -/
structure CPU (S : Sorts) where
  cyclesToHalt : Nat
  st : S.Cpu

/-- The PPU as `nes.js` sees it. -/
structure PPU (S : Sorts) where
  curX : Int
  scanline : Int
  spr0HitX : Int
  spr0HitY : Int
  f_spVisibility : Int
  requestEndFrame : Bool
  nmiCounter : Int
  st : S.Ppu

/-- The objects reachable from the console through which the collaborators
act on each other (`this.cpu`, `this.ppu`, `this.papu`, `this.mmap`). -/
structure HW (S : Sorts) where
  cpu : CPU S
  ppu : PPU S
  papu : S.Papu
  /-- `none` is `null`: set in `loadROM` -/
  mmap : Option S.Mapper

/-- A JavaScript number, as far as the console computes one: a rational, or
what a division by zero yields. -/
inductive JSNum where
  | num (q : ℚ)
  | posInf
  | negInf
  | nan
deriving DecidableEq

/-- Rounding of a rational to the nearest integer, ties to even. -/
def roundHalfEven (x : ℚ) : Int :=
  if x - ⌊x⌋ < 1 / 2 then ⌊x⌋
  else if 1 / 2 < x - ⌊x⌋ then ⌊x⌋ + 1
  else if ⌊x⌋ % 2 = 0 then ⌊x⌋ else ⌊x⌋ + 1

/-- The exponent of the last place of the double nearest to a positive
rational: 53 significant bits, and no exponent below -1074. -/
def doubleExp (q : ℚ) : Int := max (Int.log 2 q - 52) (-1074)

/-- IEEE 754 binary64 rounding (to nearest, ties to even) of a positive
rational; what reaches `2 ^ 1024` is `Infinity`. -/
def roundPos (q : ℚ) : JSNum :=
  if (2 : ℚ) ^ (1024 : ℤ) ≤ (roundHalfEven (q / (2 : ℚ) ^ doubleExp q) : ℚ) * (2 : ℚ) ^ doubleExp q
  then JSNum.posInf
  else JSNum.num ((roundHalfEven (q / (2 : ℚ) ^ doubleExp q) : ℚ) * (2 : ℚ) ^ doubleExp q)

/-- IEEE 754 binary64 rounding of a rational (the sign of zero is not
kept). -/
def roundDouble (q : ℚ) : JSNum :=
  if q = 0 then JSNum.num 0
  else if 0 < q then roundPos q
  else
    match roundPos (-q) with
    | JSNum.num v => JSNum.num (-v)
    | JSNum.posInf => JSNum.negInf
    | x => x

/-- JavaScript `a / b` on two finite doubles: the exact quotient rounded to
a double, and an infinity or NaN when `b` is 0. -/
def jsDiv (a b : ℚ) : JSNum :=
  if b = 0 then
    if a = 0 then JSNum.nan else if 0 < a then JSNum.posInf else JSNum.negInf
  else roundDouble (a / b)

/-- JavaScript `a / b` for a finite `a` and any double `b`. -/
def jsDivN (a : ℚ) (b : JSNum) : JSNum :=
  match b with
  | JSNum.num y => jsDiv a y
  | JSNum.posInf => JSNum.num 0
  | JSNum.negInf => JSNum.num 0
  | JSNum.nan => JSNum.nan

/-- The value of a callback option: `null`, or a function (told apart by a
number). -/
inductive Callback where
  | null
  | fn (id : Nat)
deriving DecidableEq

/-- The default `onFrame: function() {}`. -/
def noopFrame : Callback := Callback.fn 0

/-- The default `onStatusUpdate: function() {}`. -/
def noopStatus : Callback := Callback.fn 1

/-- The object `this.opts`, with its six keys. -/
structure Opts where
  preferredFrameRate : ℚ
  emulateSound : Bool
  sampleRate : ℚ
  onFrame : Callback := noopFrame
  onAudio : Callback := Callback.null
  onStatusUpdate : Callback := noopStatus

/-- The object `this.ui`. -/
structure UI where
  writeFrame : Callback
  writeAudio : Callback
  updateStatus : Callback

/-- The console object (`this.keyboard`, which no operation below touches,
is left out). -/
structure NES (S : Sorts) where
  opts : Opts
  frameTime : JSNum
  hw : HW S
  ui : UI := { writeFrame := noopFrame, writeAudio := Callback.null, updateStatus := noopStatus }
  /-- `this.rom`, undefined until the first `loadROM` -/
  rom : Option S.Rom
  /-- `none` is `null`, the prototype's value -/
  romData : Option S.Bytes
  /-- `none` is `undefined` or `null` -/
  lastFpsTime : Option Nat
  fpsFrameCount : Nat

/-- Ghost log entries: the collaborator calls, and `dot p` marking that an
iteration of the dot loop starts with the PPU fields as in `p`. -/
inductive Event (S : Sorts) where
  | startFrame
  | emulate (cycles : Nat)
  | clockFrameCounter (cycles : Nat)
  | setStatusFlag (flag : Nat) (value : Bool)
  | startVBlank
  | endScanline
  | dot (p : PPU S)
  | mmapReset
  | cpuReset
  | ppuReset
  | papuReset
  | romLoad (data : S.Bytes)
  | createMapper
  | mmapLoadROM
  | setMirroring (mode : Nat)
  | romLoadNull
  | cpuFromJSON
  | mmapFromJSON
  | ppuFromJSON
  | setSampleRate (rate : ℚ) (regenerate : Bool)
  | updateStatus

/-- How a call that can throw ends: with the state it leaves behind. -/
inductive Outcome (α : Type) where
  | returned (s : α)
  | threw (s : α)

/-- The collaborators' methods.  The methods called while a frame runs and
while a cartridge is wired in act on all of `HW` (the CPU writes PPU
registers through the Mapper, the APU stalls the CPU, ...); a `reset`
method writes its own object only. -/
structure Collab (S : Sorts) where
  /-- `ppu.startFrame()` -/
  startFrame : HW S → HW S
  /-- `cpu.emulate()`: the cycles it reports and its effect -/
  emulate : HW S → Nat × HW S
  /-- `papu.clockFrameCounter(n)` -/
  clockFrameCounter : Nat → HW S → HW S
  /-- `ppu.STATUS_SPRITE0HIT` -/
  STATUS_SPRITE0HIT : Nat
  /-- `ppu.setStatusFlag(flag, value)` -/
  setStatusFlag : Nat → Bool → HW S → HW S
  /-- `ppu.startVBlank()` -/
  startVBlank : HW S → HW S
  /-- `ppu.endScanline()` -/
  endScanline : HW S → HW S
  /-- `cpu.reset()` -/
  cpuReset : CPU S → CPU S
  /-- `ppu.reset()` -/
  ppuReset : PPU S → PPU S
  /-- `papu.reset()` -/
  papuReset : S.Papu → S.Papu
  /-- `mmap.reset()` -/
  mmapReset : S.Mapper → S.Mapper
  /-- `new ROM(nes)` -/
  newROM : S.Rom
  /-- `rom.load(data)`: the ROM object afterwards, `threw` when the image
  is rejected -/
  romLoad : S.Bytes → S.Rom → Outcome S.Rom
  /-- `rom.createMapper()` -/
  createMapper : S.Rom → S.Mapper
  /-- `rom.getMirroringType()` -/
  getMirroringType : S.Rom → Nat
  /-- `mmap.loadROM()` -/
  mmapLoadROM : HW S → HW S
  /-- `ppu.setMirroring(mode)` -/
  setMirroring : Nat → HW S → HW S

variable {S : Sorts}

/-- Assignment to a field of `ppu`. -/
def HW.setPPU (hw : HW S) (p : PPU S) : HW S := { hw with ppu := p }

/-- Assignment to `cpu.cyclesToHalt`. -/
def HW.setCyclesToHalt (hw : HW S) (n : Nat) : HW S :=
  { hw with cpu := { hw.cpu with cyclesToHalt := n } }

/-- A state together with the ghost log of the calls that led to it. -/
structure Step (S : Sorts) where
  hw : HW S
  log : List (Event S)

/-- Lines 93-100: the sprite-zero-hit test of one dot. -/
def spriteZero (c : Collab S) (hw : HW S) : Step S :=
  if hw.ppu.curX = hw.ppu.spr0HitX ∧ hw.ppu.f_spVisibility = 1
      ∧ hw.ppu.scanline - 21 = hw.ppu.spr0HitY then
    { hw := c.setStatusFlag c.STATUS_SPRITE0HIT true hw,
      log := [Event.setStatusFlag c.STATUS_SPRITE0HIT true] }
  else
    { hw := hw, log := [] }

/-- Lines 111-115: `curX++`, and the end of a scanline at 341. -/
def advance (c : Collab S) (hw : HW S) : Step S :=
  let hw1 := hw.setPPU { hw.ppu with curX := hw.ppu.curX + 1 }
  if hw1.ppu.curX = 341 then
    { hw := c.endScanline (hw1.setPPU { hw1.ppu with curX := 0 }),
      log := [Event.endScanline] }
  else
    { hw := hw1, log := [] }

/-- The result of one iteration of the dot loop; `ended` is
`break FRAMELOOP`. -/
structure DotOut (S : Sorts) where
  hw : HW S
  ended : Bool
  log : List (Event S)

/-- Lines 93-115: the body of the dot loop. -/
def dot (c : Collab S) (hw : HW S) : DotOut S :=
  let s1 := spriteZero c hw
  if s1.hw.ppu.requestEndFrame = true then
    let hw2 := s1.hw.setPPU { s1.hw.ppu with nmiCounter := s1.hw.ppu.nmiCounter - 1 }
    if hw2.ppu.nmiCounter = 0 then
      { hw := c.startVBlank (hw2.setPPU { hw2.ppu with requestEndFrame := false }),
        ended := true,
        log := Event.dot hw.ppu :: (s1.log ++ [Event.startVBlank]) }
    else
      let s3 := advance c hw2
      { hw := s3.hw, ended := false, log := Event.dot hw.ppu :: (s1.log ++ s3.log) }
  else
    let s3 := advance c s1.hw
    { hw := s3.hw, ended := false, log := Event.dot hw.ppu :: (s1.log ++ s3.log) }

/-- The result of a dot loop; `ran` counts the iterations it made (ghost). -/
structure DotsOut (S : Sorts) where
  hw : HW S
  ended : Bool
  ran : Nat
  log : List (Event S)

/-- Line 92: `for (; cycles > 0; cycles--)`, by recursion on `cycles`. -/
def dotLoop (c : Collab S) : Nat → HW S → DotsOut S
  | 0, hw => { hw := hw, ended := false, ran := 0, log := [] }
  | cycles + 1, hw =>
    let d := dot c hw
    if d.ended = true then
      { hw := d.hw, ended := true, ran := 1, log := d.log }
    else
      let r := dotLoop c cycles d.hw
      { hw := r.hw, ended := r.ended, ran := r.ran + 1, log := d.log ++ r.log }

/-- The result of lines 69-90: `cycles` is the local variable `cycles` when
the dot loop is entered, `cost` the CPU cycles of the step before scaling
(ghost). -/
structure CpuOut (S : Sorts) where
  hw : HW S
  cycles : Nat
  cost : Nat
  log : List (Event S)

/-- `if (emulateSound) papu.clockFrameCounter(n)`. -/
def clockIf (c : Collab S) (emulateSound : Bool) (n : Nat) (hw : HW S) : Step S :=
  if emulateSound = true then
    { hw := c.clockFrameCounter n hw, log := [Event.clockFrameCounter n] }
  else
    { hw := hw, log := [] }

/-- Lines 69-90: one CPU instruction, or one chunk of a stall. -/
def cpuStep (c : Collab S) (emulateSound : Bool) (hw : HW S) : CpuOut S :=
  if hw.cpu.cyclesToHalt = 0 then
    let e := c.emulate hw
    let s := clockIf c emulateSound e.1 e.2
    { hw := s.hw, cycles := e.1 * 3, cost := e.1, log := Event.emulate e.1 :: s.log }
  else if hw.cpu.cyclesToHalt > 8 then
    let s := clockIf c emulateSound 8 hw
    { hw := s.hw.setCyclesToHalt (s.hw.cpu.cyclesToHalt - 8),
      cycles := 24, cost := 8, log := s.log }
  else
    let s := clockIf c emulateSound hw.cpu.cyclesToHalt hw
    { hw := s.hw.setCyclesToHalt 0,
      cycles := hw.cpu.cyclesToHalt * 3, cost := hw.cpu.cyclesToHalt, log := s.log }

/-- Ghost record of one iteration of the frame loop: the CPU cycles of the
step and the number of dot-loop iterations that ran. -/
structure StepRec where
  cost : Nat
  dots : Nat
deriving DecidableEq, Repr

/-- The result of running the frame loop. -/
structure LoopOut (S : Sorts) where
  hw : HW S
  ended : Bool
  log : List (Event S)
  steps : List StepRec

/-- Lines 68-117 unrolled at most `n` times: the loop `FRAMELOOP: for (;;)`
stops at `break FRAMELOOP`, and `ended` tells whether it has. -/
def loopN (c : Collab S) (emulateSound : Bool) : Nat → HW S → LoopOut S
  | 0, hw => { hw := hw, ended := false, log := [], steps := [] }
  | n + 1, hw =>
    let s := cpuStep c emulateSound hw
    let d := dotLoop c s.cycles s.hw
    if d.ended = true then
      { hw := d.hw, ended := true, log := s.log ++ d.log,
        steps := [{ cost := s.cost, dots := d.ran }] }
    else
      let o := loopN c emulateSound n d.hw
      { hw := o.hw, ended := o.ended, log := s.log ++ (d.log ++ o.log),
        steps := { cost := s.cost, dots := d.ran } :: o.steps }

/-- What a call of `frame()` returns with. -/
structure FrameOut (S : Sorts) where
  nes : NES S
  log : List (Event S)
  steps : List StepRec

/-- Lines 61-119, `frame()`, with `fuel` bounding the iterations of the
frame loop: `none` when the loop has not ended within `fuel` iterations. -/
def frame (c : Collab S) (fuel : Nat) (s : NES S) : Option (FrameOut S) :=
  let hw0 := c.startFrame s.hw
  let o := loopN c s.opts.emulateSound fuel hw0
  if o.ended = true then
    some { nes := { s with hw := o.hw, fpsFrameCount := s.fpsFrameCount + 1 },
           log := Event.startFrame :: o.log,
           steps := o.steps }
  else
    none

/-- A console state with the ghost log of the calls made. -/
structure Sys (S : Sorts) where
  nes : NES S
  log : List (Event S)

/-- Lines 48-59, `reset()`. -/
def reset (c : Collab S) (s : NES S) : Sys S :=
  let m : Option S.Mapper × List (Event S) :=
    match s.hw.mmap with
    | some mm => (some (c.mmapReset mm), [Event.mmapReset])
    | none => (none, [])
  { nes := { s with
      hw := { cpu := c.cpuReset s.hw.cpu, ppu := c.ppuReset s.hw.ppu,
              papu := c.papuReset s.hw.papu, mmap := m.1 },
      lastFpsTime := none,
      fpsFrameCount := 0 },
    log := m.2 ++ [Event.cpuReset, Event.ppuReset, Event.papuReset] }

/-- Lines 140-150, `loadROM(data)`. -/
def loadROM (c : Collab S) (data : S.Bytes) (s : NES S) : Outcome (Sys S) :=
  match c.romLoad data c.newROM with
  | Outcome.threw r =>
    Outcome.threw { nes := { s with rom := some r }, log := [Event.romLoad data] }
  | Outcome.returned r =>
    let s1 : NES S := { s with rom := some r }
    let s2 := reset c s1
    let hw3 : HW S := { s2.nes.hw with mmap := some (c.createMapper r) }
    let hw4 := c.mmapLoadROM hw3
    let hw5 := c.setMirroring (c.getMirroringType r) hw4
    Outcome.returned
      { nes := { s2.nes with hw := hw5, romData := some data },
        log := Event.romLoad data :: (s2.log ++
          [Event.createMapper, Event.mmapLoadROM,
           Event.setMirroring (c.getMirroringType r)]) }

/-- Lines 132-136, `reloadROM()`. -/
def reloadROM (c : Collab S) (s : NES S) : Outcome (Sys S) :=
  match s.romData with
  | some data => loadROM c data s
  | none => Outcome.returned { nes := s, log := [] }


/-- Whether a log entry marks an iteration of the dot loop. -/
def Event.isDot : Event S → Bool
  | Event.dot _ => true
  | _ => false

/-- Number of dot-loop iterations recorded in a log. -/
def dotCount (log : List (Event S)) : Nat := log.countP Event.isDot

/-- The sprite-zero-hit condition of lines 93-97, on the PPU fields. -/
def PPU.hit (p : PPU S) : Prop :=
  p.curX = p.spr0HitX ∧ p.f_spVisibility = 1 ∧ p.scanline - 21 = p.spr0HitY

/-- The vblank-pending signal is raised with a positive NMI delay. -/
def PPU.pending (p : PPU S) : Prop :=
  p.requestEndFrame = true ∧ 1 ≤ p.nmiCounter

/-- The frame loop was left at `break FRAMELOOP`: the state is the one
`ppu.startVBlank()` returned, called with `requestEndFrame` cleared and
`nmiCounter` at 0, and that call is the last entry of the log and the only
`startVBlank` in it. -/
def EndsAt (c : Collab S) (hw : HW S) (log : List (Event S)) : Prop :=
  ∃ hw0 : HW S, hw = c.startVBlank hw0 ∧ hw0.ppu.requestEndFrame = false
    ∧ hw0.ppu.nmiCounter = 0
    ∧ ∃ pre : List (Event S), log = pre ++ [Event.startVBlank] ∧ Event.startVBlank ∉ pre

instance (p : PPU S) : Decidable p.hit := by
  unfold PPU.hit
  infer_instance

/-- Whether a log entry is a call of `ppu.setStatusFlag`. -/
def Event.isFlag : Event S → Bool
  | Event.setStatusFlag _ _ => true
  | _ => false

/-- Whether a log entry marks a dot at whose start the sprite-zero-hit
condition holds. -/
def Event.isHitDot : Event S → Bool
  | Event.dot p => decide p.hit
  | _ => false

/-- In a log, every `setStatusFlag` call sets `STATUS_SPRITE0HIT` to true,
and there are as many of them as dots at which the sprite-zero-hit
condition holds. -/
def FlagsMatch (c : Collab S) (log : List (Event S)) : Prop :=
  (∀ e ∈ log, e.isFlag = true → e = Event.setStatusFlag c.STATUS_SPRITE0HIT true)
    ∧ log.countP Event.isFlag = log.countP Event.isHitDot

/-- A collaborator call leaves a pending vblank signal and its NMI delay
as they are. -/
def KeepsPending (f : HW S → HW S) : Prop :=
  ∀ hw : HW S, hw.ppu.pending →
    (f hw).ppu.requestEndFrame = true ∧ (f hw).ppu.nmiCounter = hw.ppu.nmiCounter

/-- Well-behaved collaborators: `cpu.emulate()` reports at least one cycle,
no call made inside the frame loop disturbs a vblank signal that is pending
(raised, with `nmiCounter` at least 1), and `ppu.startVBlank()` does not
raise the signal again. -/
structure WellBehaved (c : Collab S) : Prop where
  emulate_pos : ∀ hw : HW S, 1 ≤ (c.emulate hw).1
  emulate_keeps : KeepsPending (fun hw => (c.emulate hw).2)
  clock_keeps : ∀ n : Nat, KeepsPending (c.clockFrameCounter n)
  flag_keeps : ∀ (f : Nat) (v : Bool), KeepsPending (c.setStatusFlag f v)
  endScanline_keeps : KeepsPending c.endScanline
  startVBlank_clear : ∀ hw : HW S,
    hw.ppu.requestEndFrame = false → (c.startVBlank hw).ppu.requestEndFrame = false

/-! ## Snapshots, frame rate, FPS measurement and construction -/

/-- The collaborators' remaining methods.  `J` is the type of the JSON
values they serialise to.  `toJSON` reads, and `fromJSON` and
`setSampleRate` write, the object they are called on; the constructors and
`papu.setSampleRate` see the options of the console they belong to. -/
structure CollabAll (S : Sorts) (J : Type) extends Collab S where
  /-- `cpu.toJSON()` -/
  cpuToJSON : CPU S → J
  /-- `mmap.toJSON()` -/
  mmapToJSON : S.Mapper → J
  /-- `ppu.toJSON()` -/
  ppuToJSON : PPU S → J
  /-- `cpu.fromJSON(j)` -/
  cpuFromJSON : J → CPU S → CPU S
  /-- `mmap.fromJSON(j)` -/
  mmapFromJSON : J → S.Mapper → S.Mapper
  /-- `ppu.fromJSON(j)` -/
  ppuFromJSON : J → PPU S → PPU S
  /-- `rom.load(null)` -/
  romLoadNull : S.Rom → Outcome S.Rom
  /-- `papu.setSampleRate(rate, regenerate)` -/
  setSampleRate : ℚ → Bool → Opts → S.Papu → S.Papu
  /-- `new CPU(nes)` -/
  newCPU : Opts → CPU S
  /-- `new PPU(nes)` -/
  newPPU : Opts → PPU S
  /-- `new PAPU(nes)` -/
  newPAPU : Opts → S.Papu

/-- The record `toJSON()` returns and `fromJSON(s)` reads; `romData` is
`none` when it is `null`. -/
structure Snapshot (S : Sorts) (J : Type) where
  romData : Option S.Bytes
  cpu : J
  mmap : J
  ppu : J

/-- The state an outcome carries, however the call ended. -/
def Outcome.val {α : Type} : Outcome α → α
  | Outcome.returned s => s
  | Outcome.threw s => s

/-- Lines 158-165, `toJSON()`.  `none`: `this.mmap.toJSON()` throws a
TypeError because `this.mmap` is `null`.  No field is assigned. -/
def toJSON {J : Type} (c : CollabAll S J) (s : NES S) : Option (Snapshot S J) :=
  match s.hw.mmap with
  | none => none
  | some m =>
    some { romData := s.romData,
           cpu := c.cpuToJSON s.hw.cpu,
           mmap := c.mmapToJSON m,
           ppu := c.ppuToJSON s.hw.ppu }

/-- Lines 140-150, `loadROM(data)`, for any `data`, `null` included. -/
def loadROMAny {J : Type} (c : CollabAll S J) (data : Option S.Bytes) (s : NES S) :
    Outcome (Sys S) :=
  match data with
  | some d => loadROM c.toCollab d s
  | none =>
    match c.romLoadNull c.newROM with
    | Outcome.threw r =>
      Outcome.threw { nes := { s with rom := some r }, log := [Event.romLoadNull] }
    | Outcome.returned r =>
      let s1 : NES S := { s with rom := some r }
      let s2 := reset c.toCollab s1
      let hw3 : HW S := { s2.nes.hw with mmap := some (c.createMapper r) }
      let hw4 := c.mmapLoadROM hw3
      let hw5 := c.setMirroring (c.getMirroringType r) hw4
      Outcome.returned
        { nes := { s2.nes with hw := hw5, romData := none },
          log := Event.romLoadNull :: (s2.log ++
            [Event.createMapper, Event.mmapLoadROM,
             Event.setMirroring (c.getMirroringType r)]) }

/-- Lines 169-171: the three overlays, on the console `loadROM` left.
`this.mmap.fromJSON` throws a TypeError if `this.mmap` is `null`. -/
def overlay {J : Type} (c : CollabAll S J) (j : Snapshot S J) (o : Sys S) :
    Outcome (Sys S) :=
  let hw1 : HW S := { o.nes.hw with cpu := c.cpuFromJSON j.cpu o.nes.hw.cpu }
  match hw1.mmap with
  | none =>
    Outcome.threw { nes := { o.nes with hw := hw1 }, log := o.log ++ [Event.cpuFromJSON] }
  | some m =>
    let hw2 : HW S := { hw1 with mmap := some (c.mmapFromJSON j.mmap m) }
    let hw3 : HW S := { hw2 with ppu := c.ppuFromJSON j.ppu hw2.ppu }
    Outcome.returned
      { nes := { o.nes with hw := hw3 },
        log := o.log ++ [Event.cpuFromJSON, Event.mmapFromJSON, Event.ppuFromJSON] }

/-- Lines 167-172, `fromJSON(s)`. -/
def fromJSON {J : Type} (c : CollabAll S J) (j : Snapshot S J) (s : NES S) :
    Outcome (Sys S) :=
  match loadROMAny c j.romData s with
  | Outcome.threw o => Outcome.threw o
  | Outcome.returned o => overlay c j o

/-- Lines 152-156, `setFramerate(rate)`. -/
def setFramerate {J : Type} (c : CollabAll S J) (rate : ℚ) (s : NES S) : Sys S :=
  let s1 : NES S := { s with opts := { s.opts with preferredFrameRate := rate } }
  let s2 : NES S := { s1 with frameTime := jsDiv 1000 rate }
  { nes := { s2 with
      hw := { s2.hw with
        papu := c.setSampleRate s2.opts.sampleRate false s2.opts s2.hw.papu } },
    log := [Event.setSampleRate s2.opts.sampleRate false] }

/-- What `getFPS()` returns with: `fps` is `none` for `null`. -/
structure FpsOut (S : Sorts) where
  nes : NES S
  fps : Option JSNum

/-- Lines 121-130, `getFPS()`, with `now` the value of `+new Date()` in
milliseconds.  `if (this.lastFpsTime)` is false for `undefined`, `null`
and 0. -/
def getFPS (now : Nat) (s : NES S) : FpsOut S :=
  let fps : Option JSNum :=
    match s.lastFpsTime with
    | some t =>
      if t ≠ 0 then
        some (jsDivN (s.fpsFrameCount : ℚ) (jsDiv ((now : ℚ) - (t : ℚ)) 1000))
      else none
    | none => none
  { nes := { s with fpsFrameCount := 0, lastFpsTime := some now }, fps := fps }

/-- A number of successive calls `frame()`, each with the given fuel. -/
def frames (c : Collab S) (fuel : Nat) : Nat → NES S → Option (NES S)
  | 0, s => some s
  | n + 1, s =>
    match frame c fuel s with
    | none => none
    | some o => frames c fuel n o.nes

/-- The argument `opts` of the constructor: a key that is absent or
`undefined` is `none`; `extra` lists the keys that `this.opts` does not
have. -/
structure OptsArg where
  onFrame : Option Callback
  onAudio : Option Callback
  onStatusUpdate : Option Callback
  preferredFrameRate : Option ℚ
  emulateSound : Option Bool
  sampleRate : Option ℚ
  extra : List (String × Nat)

/-- Lines 8-17: the initial `this.opts`. -/
def defaultOpts : Opts :=
  { onFrame := noopFrame, onAudio := Callback.null, onStatusUpdate := noopStatus,
    preferredFrameRate := 60, emulateSound := true, sampleRate := 44100 }

/-- Lines 21-23: `if (typeof opts[key] !== "undefined") this.opts[key] = opts[key]`. -/
def mergeKey {α : Type} (current : α) (given : Option α) : α :=
  match given with
  | some v => v
  | none => current

/-- Lines 18-25: the loop `for (key in this.opts)` over the six keys. -/
def mergeOpts (arg : Option OptsArg) : Opts :=
  match arg with
  | none => defaultOpts
  | some a =>
    { onFrame := mergeKey defaultOpts.onFrame a.onFrame,
      onAudio := mergeKey defaultOpts.onAudio a.onAudio,
      onStatusUpdate := mergeKey defaultOpts.onStatusUpdate a.onStatusUpdate,
      preferredFrameRate := mergeKey defaultOpts.preferredFrameRate a.preferredFrameRate,
      emulateSound := mergeKey defaultOpts.emulateSound a.emulateSound,
      sampleRate := mergeKey defaultOpts.sampleRate a.sampleRate }

/-- The argument of the constructor: absent (`undefined`), `null`, or an
object. -/
inductive OptsParam where
  | undefined
  | null
  | object (a : OptsArg)

/-- The object the loop of lines 18-25 reads, if it reads one. -/
def OptsParam.given : OptsParam → Option OptsArg
  | OptsParam.object a => some a
  | _ => none

/-- Lines 7-41, the constructor `NES(opts)`, with the prototype's
`fpsFrameCount: 0` and `romData: null`.  `none`: the constructor throws a
TypeError and no console exists, at line 21 when `opts` is `null`
(`opts[key]`), and at line 40 when the merged `onStatusUpdate` is `null`
(`this.ui.updateStatus(...)`). -/
def construct {J : Type} (c : CollabAll S J) (arg : OptsParam) : Option (Sys S) :=
  match arg with
  | OptsParam.null => none
  | _ =>
    let opts := mergeOpts arg.given
    if opts.onStatusUpdate = Callback.null then none
    else
      some
        { nes :=
            { opts := opts,
              frameTime := jsDiv 1000 opts.preferredFrameRate,
              ui := { writeFrame := opts.onFrame, writeAudio := opts.onAudio,
                      updateStatus := opts.onStatusUpdate },
              hw := { cpu := c.newCPU opts, ppu := c.newPPU opts, papu := c.newPAPU opts,
                      mmap := none },
              rom := none,
              romData := none,
              lastFpsTime := none,
              fpsFrameCount := 0 },
          log := [Event.updateStatus] }

/-- A collaborator call made while `ppu.requestEndFrame` is raised leaves
it and `ppu.nmiCounter` as they are. -/
def KeepsSignal (f : HW S → HW S) : Prop :=
  ∀ hw : HW S, hw.ppu.requestEndFrame = true →
    (f hw).ppu.requestEndFrame = hw.ppu.requestEndFrame
      ∧ (f hw).ppu.nmiCounter = hw.ppu.nmiCounter

/-- Whether a log entry is a call of `ppu.endScanline`. -/
def Event.isEndScanline : Event S → Bool
  | Event.endScanline => true
  | _ => false

/-- The argument of a call of `papu.clockFrameCounter`. -/
def Event.clockArg : Event S → Option Nat
  | Event.clockFrameCounter n => some n
  | _ => none

/-- The next `m` iterations of the frame loop are stalled iterations in
which no collaborator changes the stall budget and the frame does not end:
in each, the call `papu.clockFrameCounter` (made with the chunk as its
argument) returns with `cpu.cyclesToHalt` as it found it, the dot loop does
not end the frame, and the batch of dots returns with `cpu.cyclesToHalt` as
the CPU step left it. -/
def StallQuiet (c : Collab S) (es : Bool) : Nat → HW S → Prop
  | 0, _ => True
  | m + 1, hw =>
    (clockIf c es (min hw.cpu.cyclesToHalt 8) hw).hw.cpu.cyclesToHalt = hw.cpu.cyclesToHalt
      ∧ (dotLoop c (cpuStep c es hw).cycles (cpuStep c es hw).hw).ended = false
      ∧ (dotLoop c (cpuStep c es hw).cycles (cpuStep c es hw).hw).hw.cpu.cyclesToHalt
          = (cpuStep c es hw).hw.cpu.cyclesToHalt
      ∧ StallQuiet c es m (dotLoop c (cpuStep c es hw).cycles (cpuStep c es hw).hw).hw

/-! ## A small concrete console, used to run the definitions -/

/-- Collaborator data of the example console: every object is a number. -/
@[reducible] def toySorts : Sorts :=
  { Cpu := Nat, Ppu := Nat, Papu := Nat, Mapper := Nat, Rom := Nat, Bytes := Nat }

/-- Example collaborators.  `startFrame` puts the dot position at 338,
`emulate` reports 2 cycles, `endScanline` raises the vblank-pending signal
with an NMI delay of 4 unless it is raised already, and `rom.load` rejects the image `0`. -/
def toy : Collab toySorts where
  startFrame hw := hw.setPPU { hw.ppu with curX := 338, requestEndFrame := false }
  emulate hw := (2, { hw with cpu := { hw.cpu with st := hw.cpu.st + (1 : Nat) } })
  clockFrameCounter n hw := { hw with papu := hw.papu + n }
  STATUS_SPRITE0HIT := 6
  setStatusFlag flag _ hw := hw.setPPU { hw.ppu with st := flag }
  startVBlank hw := hw.setPPU { hw.ppu with st := hw.ppu.st + (100 : Nat) }
  endScanline hw :=
    if hw.ppu.requestEndFrame = true then
      hw.setPPU { hw.ppu with scanline := hw.ppu.scanline + 1 }
    else
      hw.setPPU { hw.ppu with
        scanline := hw.ppu.scanline + 1, requestEndFrame := true, nmiCounter := 4 }
  cpuReset _ := { cyclesToHalt := 0, st := (0 : Nat) }
  ppuReset _ :=
    { curX := 0, scanline := 0, spr0HitX := -1, spr0HitY := -1, f_spVisibility := 0,
      requestEndFrame := false, nmiCounter := 0, st := (0 : Nat) }
  papuReset _ := (0 : Nat)
  mmapReset _ := (0 : Nat)
  newROM := (0 : Nat)
  romLoad data _ :=
    if data = (0 : Nat) then Outcome.threw (1 : Nat) else Outcome.returned (data + 1 : Nat)
  createMapper r := (r + 10 : Nat)
  getMirroringType r := r
  mmapLoadROM hw := { hw with cpu := { hw.cpu with st := (7 : Nat) } }
  setMirroring m hw := hw.setPPU { hw.ppu with st := m }

/-- An example console on which no cartridge has been loaded; sprite zero
is recorded at x = 340, y = 0 and sprites are visible. -/
def nes0 : NES toySorts where
  opts := { preferredFrameRate := 60, emulateSound := true, sampleRate := 44100 }
  frameTime := jsDiv 1000 60
  hw :=
    { cpu := { cyclesToHalt := 0, st := (0 : Nat) },
      ppu :=
        { curX := 0, scanline := 21, spr0HitX := 340, spr0HitY := 0, f_spVisibility := 1,
          requestEndFrame := false, nmiCounter := 0, st := (0 : Nat) },
      papu := (0 : Nat),
      mmap := none }
  rom := none
  romData := none
  lastFpsTime := none
  fpsFrameCount := 0

/-- Example collaborators whose APU stalls the CPU: as `toy`, but
`papu.clockFrameCounter` adds 4 cycles to `cpu.cyclesToHalt` (a sample fetch
by the DMC channel). -/
def toyDmc : Collab toySorts :=
  { toy with
    clockFrameCounter := fun n hw =>
      { hw with cpu := { hw.cpu with cyclesToHalt := hw.cpu.cyclesToHalt + 4 },
                papu := hw.papu + n } }

/-- The hardware of `nes0` with a stall budget of 10 cycles. -/
def hwStalled : HW toySorts := nes0.hw.setCyclesToHalt 10

/-- The example console after `loadROM(5)`: a cartridge is loaded. -/
def nesLoaded : NES toySorts :=
  match loadROM toy (5 : Nat) nes0 with
  | Outcome.returned o => o.nes
  | Outcome.threw o => o.nes

/-- JSON values of the example console: a serialised CPU, PPU or Mapper. -/
inductive ToyJSON where
  | cpu (x : CPU toySorts)
  | ppu (x : PPU toySorts)
  | mapper (x : Nat)

/-- The example collaborators with their remaining methods.  `toJSON`
serialises the whole object and `fromJSON` restores it; `rom.load(null)`
throws; `papu.setSampleRate` stores the integer part of the rate. -/
def toyAll : CollabAll toySorts ToyJSON :=
  { toy with
    cpuToJSON := fun x => ToyJSON.cpu x
    mmapToJSON := fun m => ToyJSON.mapper m
    ppuToJSON := fun p => ToyJSON.ppu p
    cpuFromJSON := fun j y =>
      match j with
      | ToyJSON.cpu x => x
      | _ => y
    mmapFromJSON := fun j y =>
      match j with
      | ToyJSON.mapper x => x
      | _ => y
    ppuFromJSON := fun j y =>
      match j with
      | ToyJSON.ppu x => x
      | _ => y
    romLoadNull := fun r => Outcome.threw r
    setSampleRate := fun rate _ _ _ => rate.floor.toNat
    newCPU := fun _ => { cyclesToHalt := 0, st := (0 : Nat) }
    newPPU := fun _ =>
      { curX := 0, scanline := 0, spr0HitX := -1, spr0HitY := -1, f_spVisibility := 0,
        requestEndFrame := false, nmiCounter := 0, st := (0 : Nat) }
    newPAPU := fun _ => (0 : Nat) }

/-- Example collaborators whose PPU raises the signal again at the start
of vblank: as `toy`, but `ppu.startVBlank` sets `requestEndFrame`. -/
def toyRaise : Collab toySorts :=
  { toy with
    startVBlank := fun hw => hw.setPPU { hw.ppu with requestEndFrame := true } }

/-- The hardware of `nes0` at dot position `x` with the vblank signal
raised and an NMI delay of `k`. -/
def hwSignal (x k : Int) : HW toySorts :=
  nes0.hw.setPPU { nes0.hw.ppu with curX := x, requestEndFrame := true, nmiCounter := k }

/-- The same hardware with `ppu.requestEndFrame` false. -/
def HW.clearSignal (hw : HW S) : HW S :=
  hw.setPPU { hw.ppu with requestEndFrame := false }

/-- The snapshot of the example console `nesLoaded`. -/
def snapLoaded : Snapshot toySorts ToyJSON :=
  { romData := some (5 : Nat), cpu := ToyJSON.cpu nesLoaded.hw.cpu,
    mmap := ToyJSON.mapper 16, ppu := ToyJSON.ppu nesLoaded.hw.ppu }

/-- The example console `nesLoaded` after one `frame()`, with the Mapper's
state moved on to 99 (as a bank switch would): CPU, PPU and Mapper all
differ from what `loadROM(5)` leaves. -/
def nesPlayed : NES toySorts :=
  match frame toy 2 nesLoaded with
  | some o => { o.nes with hw := { o.nes.hw with mmap := some (99 : Nat) } }
  | none => nesLoaded

/-- The console `new NES()` of the example collaborators. -/
def nesNew : NES toySorts :=
  match construct toyAll OptsParam.undefined with
  | some o => o.nes
  | none => nes0

/-- An options object for the example console. -/
def optsExample : OptsArg :=
  { onFrame := none, onAudio := some (Callback.fn 7), onStatusUpdate := none,
    preferredFrameRate := some 50, emulateSound := some false, sampleRate := none,
    extra := [("zoom", 2)] }

/-! ## Basic facts about the dot loop -/

theorem spriteZero_dotCount (c : Collab S) (hw : HW S) :
    dotCount (spriteZero c hw).log = 0 := by
  unfold spriteZero dotCount
  split_ifs <;> simp [Event.isDot]

theorem advance_dotCount (c : Collab S) (hw : HW S) :
    dotCount (advance c hw).log = 0 := by
  unfold advance dotCount
  simp only
  split_ifs <;> simp [Event.isDot]

theorem dotCount_append (l₁ l₂ : List (Event S)) :
    dotCount (l₁ ++ l₂) = dotCount l₁ + dotCount l₂ := by
  simp [dotCount]

theorem dotCount_dot_cons (p : PPU S) (l : List (Event S)) :
    dotCount (Event.dot p :: l) = dotCount l + 1 := by
  simp [dotCount, Event.isDot]

theorem dot_dotCount (c : Collab S) (hw : HW S) :
    dotCount (dot c hw).log = 1 := by
  unfold dot
  simp only
  have hv : dotCount ([Event.startVBlank] : List (Event S)) = 0 := rfl
  split_ifs <;>
    simp [dotCount_dot_cons, dotCount_append, spriteZero_dotCount, advance_dotCount, hv]

theorem dotLoop_ran (c : Collab S) (n : Nat) (hw : HW S) :
    dotCount (dotLoop c n hw).log = (dotLoop c n hw).ran
      ∧ (dotLoop c n hw).ran ≤ n
      ∧ ((dotLoop c n hw).ended = false → (dotLoop c n hw).ran = n)
      ∧ ((dotLoop c n hw).ended = true → 1 ≤ (dotLoop c n hw).ran) := by
  induction n generalizing hw with
  | zero => simp [dotLoop, dotCount]
  | succ n ih =>
    unfold dotLoop
    simp only
    split_ifs with h
    · simp [dot_dotCount]
    · obtain ⟨h1, h2, h3, h4⟩ := ih (dot c hw).hw
      refine ⟨?_, ?_, ?_, ?_⟩
      · simp [dotCount_append, dot_dotCount, h1]; omega
      · simpa using h2
      · intro he; simpa using h3 he
      · intro _; simp

theorem cpuStep_cycles (c : Collab S) (es : Bool) (hw : HW S) :
    (cpuStep c es hw).cycles = 3 * (cpuStep c es hw).cost := by
  unfold cpuStep
  split_ifs <;> simp [Nat.mul_comm]

theorem cpuStep_cost (c : Collab S) (es : Bool) (hw : HW S) :
    (cpuStep c es hw).cost =
      if hw.cpu.cyclesToHalt = 0 then (c.emulate hw).1 else min hw.cpu.cyclesToHalt 8 := by
  unfold cpuStep
  split_ifs with h1 h2
  · rfl
  · simp; omega
  · simp; omega

theorem clockIf_dotCount (c : Collab S) (es : Bool) (n : Nat) (hw : HW S) :
    dotCount (clockIf c es n hw).log = 0 := by
  unfold clockIf dotCount
  split_ifs <;> simp [Event.isDot]

theorem cpuStep_dotCount (c : Collab S) (es : Bool) (hw : HW S) :
    dotCount (cpuStep c es hw).log = 0 := by
  unfold cpuStep
  split_ifs <;> simp [dotCount_append, clockIf_dotCount]
  simpa [dotCount, Event.isDot] using clockIf_dotCount c es (c.emulate hw).1 (c.emulate hw).2

theorem spriteZero_no_startVBlank (c : Collab S) (hw : HW S) :
    Event.startVBlank ∉ (spriteZero c hw).log := by
  unfold spriteZero
  split_ifs <;> simp

theorem advance_no_startVBlank (c : Collab S) (hw : HW S) :
    Event.startVBlank ∉ (advance c hw).log := by
  unfold advance
  simp only
  split_ifs <;> simp

/-- The state in which one iteration of the dot loop tests
`nmiCounter === 0`: after the sprite-zero test and `nmiCounter--`. -/
theorem dot_of_end (c : Collab S) (hw : HW S)
    (h1 : (spriteZero c hw).hw.ppu.requestEndFrame = true)
    (h2 : (spriteZero c hw).hw.ppu.nmiCounter - 1 = 0) :
    dot c hw =
      { hw := c.startVBlank ((spriteZero c hw).hw.setPPU
          { (spriteZero c hw).hw.ppu with
            nmiCounter := (spriteZero c hw).hw.ppu.nmiCounter - 1,
            requestEndFrame := false }),
        ended := true,
        log := Event.dot hw.ppu :: ((spriteZero c hw).log ++ [Event.startVBlank]) } := by
  unfold dot
  simp only [HW.setPPU]
  rw [if_pos h1, if_pos h2]

theorem dot_of_pending (c : Collab S) (hw : HW S)
    (h1 : (spriteZero c hw).hw.ppu.requestEndFrame = true)
    (h2 : (spriteZero c hw).hw.ppu.nmiCounter - 1 ≠ 0) :
    dot c hw =
      { hw := (advance c ((spriteZero c hw).hw.setPPU
          { (spriteZero c hw).hw.ppu with
            nmiCounter := (spriteZero c hw).hw.ppu.nmiCounter - 1 })).hw,
        ended := false,
        log := Event.dot hw.ppu :: ((spriteZero c hw).log ++
          (advance c ((spriteZero c hw).hw.setPPU
            { (spriteZero c hw).hw.ppu with
              nmiCounter := (spriteZero c hw).hw.ppu.nmiCounter - 1 })).log) } := by
  unfold dot
  simp only [HW.setPPU]
  rw [if_pos h1, if_neg h2]

theorem dot_of_idle (c : Collab S) (hw : HW S)
    (h1 : (spriteZero c hw).hw.ppu.requestEndFrame = false) :
    dot c hw =
      { hw := (advance c (spriteZero c hw).hw).hw,
        ended := false,
        log := Event.dot hw.ppu :: ((spriteZero c hw).log ++
          (advance c (spriteZero c hw).hw).log) } := by
  unfold dot
  simp only
  rw [if_neg (by simp [h1])]

theorem dot_ended (c : Collab S) (hw : HW S) (h : (dot c hw).ended = true) :
    EndsAt c (dot c hw).hw (dot c hw).log := by
  by_cases h1 : (spriteZero c hw).hw.ppu.requestEndFrame = true
  · by_cases h2 : (spriteZero c hw).hw.ppu.nmiCounter - 1 = 0
    · rw [dot_of_end c hw h1 h2]
      refine ⟨_, rfl, rfl, h2, Event.dot hw.ppu :: (spriteZero c hw).log, by simp, ?_⟩
      simpa using spriteZero_no_startVBlank c hw
    · rw [dot_of_pending c hw h1 h2] at h
      simp at h
  · rw [dot_of_idle c hw (by simpa using h1)] at h
    simp at h

theorem dot_not_ended (c : Collab S) (hw : HW S) (h : (dot c hw).ended = false) :
    Event.startVBlank ∉ (dot c hw).log := by
  by_cases h1 : (spriteZero c hw).hw.ppu.requestEndFrame = true
  · by_cases h2 : (spriteZero c hw).hw.ppu.nmiCounter - 1 = 0
    · rw [dot_of_end c hw h1 h2] at h
      simp at h
    · rw [dot_of_pending c hw h1 h2]
      simpa using ⟨spriteZero_no_startVBlank c hw, advance_no_startVBlank c _⟩
  · rw [dot_of_idle c hw (by simpa using h1)]
    simpa using ⟨spriteZero_no_startVBlank c hw, advance_no_startVBlank c _⟩

theorem EndsAt.prepend {c : Collab S} {hw : HW S} {log : List (Event S)}
    (h : EndsAt c hw log) (l : List (Event S)) (hl : Event.startVBlank ∉ l) :
    EndsAt c hw (l ++ log) := by
  obtain ⟨hw0, e1, e2, e3, pre, e4, e5⟩ := h
  refine ⟨hw0, e1, e2, e3, l ++ pre, by simp [e4], ?_⟩
  simp [hl, e5]

theorem dotLoop_ends (c : Collab S) (n : Nat) (hw : HW S) :
    ((dotLoop c n hw).ended = true → EndsAt c (dotLoop c n hw).hw (dotLoop c n hw).log)
      ∧ ((dotLoop c n hw).ended = false → Event.startVBlank ∉ (dotLoop c n hw).log) := by
  induction n generalizing hw with
  | zero => simp [dotLoop]
  | succ n ih =>
    unfold dotLoop
    simp only
    split_ifs with h
    · exact ⟨fun _ => dot_ended c hw h, fun h2 => by simp at h2⟩
    · have hd : (dot c hw).ended = false := by simpa using h
      have hn := dot_not_ended c hw hd
      obtain ⟨i1, i2⟩ := ih (dot c hw).hw
      exact ⟨fun h2 => (i1 h2).prepend _ hn, fun h2 => by simpa using ⟨hn, i2 h2⟩⟩

theorem clockIf_no_startVBlank (c : Collab S) (es : Bool) (n : Nat) (hw : HW S) :
    Event.startVBlank ∉ (clockIf c es n hw).log := by
  unfold clockIf
  split_ifs <;> simp

theorem cpuStep_no_startVBlank (c : Collab S) (es : Bool) (hw : HW S) :
    Event.startVBlank ∉ (cpuStep c es hw).log := by
  unfold cpuStep
  split_ifs
  · simpa using clockIf_no_startVBlank c es _ _
  · simpa using clockIf_no_startVBlank c es _ _
  · simpa using clockIf_no_startVBlank c es _ _

theorem loopN_ends (c : Collab S) (es : Bool) (n : Nat) (hw : HW S) :
    ((loopN c es n hw).ended = true →
        EndsAt c (loopN c es n hw).hw (loopN c es n hw).log)
      ∧ ((loopN c es n hw).ended = false → Event.startVBlank ∉ (loopN c es n hw).log) := by
  induction n generalizing hw with
  | zero => simp [loopN]
  | succ n ih =>
    unfold loopN
    simp only
    have hs := cpuStep_no_startVBlank c es hw
    obtain ⟨d1, d2⟩ := dotLoop_ends c (cpuStep c es hw).cycles (cpuStep c es hw).hw
    split_ifs with h
    · exact ⟨fun _ => (d1 h).prepend _ hs, fun h2 => by simp at h2⟩
    · have hd : (dotLoop c (cpuStep c es hw).cycles (cpuStep c es hw).hw).ended = false := by
        simpa using h
      obtain ⟨i1, i2⟩ := ih (dotLoop c (cpuStep c es hw).cycles (cpuStep c es hw).hw).hw
      refine ⟨fun h2 => ?_, fun h2 => ?_⟩
      · have := ((i1 h2).prepend _ (d2 hd)).prepend _ hs
        simpa using this
      · simpa using ⟨hs, d2 hd, i2 h2⟩

/-- The ghost step records of a run of the frame loop: every completed batch
ran `3 * cost` dots, and the batch in which the loop ended ran between 1 and
`3 * cost` dots. -/
theorem loopN_steps (c : Collab S) (es : Bool) (n : Nat) (hw : HW S) :
    dotCount (loopN c es n hw).log = ((loopN c es n hw).steps.map StepRec.dots).sum
      ∧ ((loopN c es n hw).ended = false →
          ∀ r ∈ (loopN c es n hw).steps, r.dots = 3 * r.cost)
      ∧ ((loopN c es n hw).ended = true →
          ∃ (init : List StepRec) (last : StepRec),
            (loopN c es n hw).steps = init ++ [last]
              ∧ (∀ r ∈ init, r.dots = 3 * r.cost)
              ∧ 1 ≤ last.dots ∧ last.dots ≤ 3 * last.cost) := by
  induction n generalizing hw with
  | zero => simp [loopN, dotCount]
  | succ n ih =>
    unfold loopN
    simp only
    obtain ⟨r1, r2, r3, r4⟩ := dotLoop_ran c (cpuStep c es hw).cycles (cpuStep c es hw).hw
    have hc := cpuStep_cycles c es hw
    have hz := cpuStep_dotCount c es hw
    split_ifs with h
    · refine ⟨by simp [dotCount_append, hz, r1], fun h2 => by simp at h2, fun _ => ?_⟩
      refine ⟨[], _, rfl, by simp, r4 h, ?_⟩
      simpa [hc] using r2
    · have hd : (dotLoop c (cpuStep c es hw).cycles (cpuStep c es hw).hw).ended = false := by
        simpa using h
      obtain ⟨i1, i2, i3⟩ := ih (dotLoop c (cpuStep c es hw).cycles (cpuStep c es hw).hw).hw
      refine ⟨by simp [dotCount_append, hz, r1, i1], fun h2 => ?_, fun h2 => ?_⟩
      · intro r hr
        simp only [List.mem_cons] at hr
        rcases hr with hr | hr
        · subst hr
          show (dotLoop c (cpuStep c es hw).cycles (cpuStep c es hw).hw).ran
            = 3 * (cpuStep c es hw).cost
          rw [r3 hd, hc]
        · exact i2 h2 r hr
      · obtain ⟨init, last, e1, e2, e3, e4⟩ := i3 h2
        refine ⟨{ cost := (cpuStep c es hw).cost,
                  dots := (dotLoop c (cpuStep c es hw).cycles (cpuStep c es hw).hw).ran } :: init,
          last, by simp [e1], ?_, e3, e4⟩
        intro r hr
        simp only [List.mem_cons] at hr
        rcases hr with hr | hr
        · subst hr
          show (dotLoop c (cpuStep c es hw).cycles (cpuStep c es hw).hw).ran
            = 3 * (cpuStep c es hw).cost
          rw [r3 hd, hc]
        · exact e2 r hr

theorem dotLoop_succ_end (c : Collab S) (n : Nat) (hw : HW S)
    (h : (dot c hw).ended = true) :
    dotLoop c (n + 1) hw =
      { hw := (dot c hw).hw, ended := true, ran := 1, log := (dot c hw).log } := by
  rw [dotLoop]
  simp only
  rw [if_pos h]

theorem dotLoop_succ_cont (c : Collab S) (n : Nat) (hw : HW S)
    (h : (dot c hw).ended = false) :
    dotLoop c (n + 1) hw =
      { hw := (dotLoop c n (dot c hw).hw).hw,
        ended := (dotLoop c n (dot c hw).hw).ended,
        ran := (dotLoop c n (dot c hw).hw).ran + 1,
        log := (dot c hw).log ++ (dotLoop c n (dot c hw).hw).log } := by
  rw [dotLoop]
  simp only
  rw [if_neg (by simp [h])]

theorem loopN_succ_end (c : Collab S) (es : Bool) (n : Nat) (hw : HW S)
    (h : (dotLoop c (cpuStep c es hw).cycles (cpuStep c es hw).hw).ended = true) :
    loopN c es (n + 1) hw =
      { hw := (dotLoop c (cpuStep c es hw).cycles (cpuStep c es hw).hw).hw,
        ended := true,
        log := (cpuStep c es hw).log
          ++ (dotLoop c (cpuStep c es hw).cycles (cpuStep c es hw).hw).log,
        steps := [{ cost := (cpuStep c es hw).cost,
                    dots := (dotLoop c (cpuStep c es hw).cycles (cpuStep c es hw).hw).ran }] } := by
  rw [loopN]
  simp only
  rw [if_pos h]

theorem loopN_succ_cont (c : Collab S) (es : Bool) (n : Nat) (hw : HW S)
    (h : (dotLoop c (cpuStep c es hw).cycles (cpuStep c es hw).hw).ended = false) :
    loopN c es (n + 1) hw =
      { hw := (loopN c es n (dotLoop c (cpuStep c es hw).cycles (cpuStep c es hw).hw).hw).hw,
        ended :=
          (loopN c es n (dotLoop c (cpuStep c es hw).cycles (cpuStep c es hw).hw).hw).ended,
        log := (cpuStep c es hw).log
          ++ ((dotLoop c (cpuStep c es hw).cycles (cpuStep c es hw).hw).log
            ++ (loopN c es n (dotLoop c (cpuStep c es hw).cycles (cpuStep c es hw).hw).hw).log),
        steps :=
          { cost := (cpuStep c es hw).cost,
            dots := (dotLoop c (cpuStep c es hw).cycles (cpuStep c es hw).hw).ran }
          :: (loopN c es n (dotLoop c (cpuStep c es hw).cycles (cpuStep c es hw).hw).hw).steps } := by
  rw [loopN]
  simp only
  rw [if_neg (by simp [h])]

theorem dotLoop_add (c : Collab S) (k m : Nat) (hw : HW S) :
    dotLoop c (k + m) hw =
      if (dotLoop c k hw).ended = true then dotLoop c k hw
      else
        { hw := (dotLoop c m (dotLoop c k hw).hw).hw,
          ended := (dotLoop c m (dotLoop c k hw).hw).ended,
          ran := (dotLoop c k hw).ran + (dotLoop c m (dotLoop c k hw).hw).ran,
          log := (dotLoop c k hw).log ++ (dotLoop c m (dotLoop c k hw).hw).log } := by
  induction k generalizing hw with
  | zero => simp [dotLoop]
  | succ k ih =>
    rw [Nat.succ_add]
    by_cases h : (dot c hw).ended = true
    · rw [dotLoop_succ_end c _ hw h, dotLoop_succ_end c _ hw h]
      simp
    · have h0 : (dot c hw).ended = false := by simpa using h
      rw [dotLoop_succ_cont c _ hw h0, dotLoop_succ_cont c _ hw h0, ih]
      by_cases h2 : (dotLoop c k (dot c hw).hw).ended = true
      · simp [h2]
      · simp [h2, Nat.add_right_comm]

theorem loopN_add (c : Collab S) (es : Bool) (k m : Nat) (hw : HW S) :
    loopN c es (k + m) hw =
      if (loopN c es k hw).ended = true then loopN c es k hw
      else
        { hw := (loopN c es m (loopN c es k hw).hw).hw,
          ended := (loopN c es m (loopN c es k hw).hw).ended,
          log := (loopN c es k hw).log ++ (loopN c es m (loopN c es k hw).hw).log,
          steps := (loopN c es k hw).steps ++ (loopN c es m (loopN c es k hw).hw).steps } := by
  induction k generalizing hw with
  | zero => simp [loopN]
  | succ k ih =>
    rw [Nat.succ_add]
    by_cases h : (dotLoop c (cpuStep c es hw).cycles (cpuStep c es hw).hw).ended = true
    · rw [loopN_succ_end c es _ hw h, loopN_succ_end c es _ hw h]
      simp
    · have h0 : (dotLoop c (cpuStep c es hw).cycles (cpuStep c es hw).hw).ended = false := by
        simpa using h
      rw [loopN_succ_cont c es _ hw h0, loopN_succ_cont c es _ hw h0, ih]
      by_cases h2 :
          (loopN c es k (dotLoop c (cpuStep c es hw).cycles (cpuStep c es hw).hw).hw).ended = true
      · simp [h2]
      · simp [h2]

theorem sum_dots_of_full (l : List StepRec) (h : ∀ r ∈ l, r.dots = 3 * r.cost) :
    (l.map StepRec.dots).sum = 3 * (l.map StepRec.cost).sum := by
  induction l with
  | nil => simp
  | cons a l ih =>
    have ha := h a (by simp)
    have hl := ih (fun r hr => h r (by simp [hr]))
    simp only [List.map_cons, List.sum_cons, ha, hl]
    ring

theorem frame_eq_some (c : Collab S) (fuel : Nat) (s : NES S) (o : FrameOut S)
    (h : frame c fuel s = some o) :
    (loopN c s.opts.emulateSound fuel (c.startFrame s.hw)).ended = true
      ∧ o.nes = { s with
          hw := (loopN c s.opts.emulateSound fuel (c.startFrame s.hw)).hw,
          fpsFrameCount := s.fpsFrameCount + 1 }
      ∧ o.log = Event.startFrame :: (loopN c s.opts.emulateSound fuel (c.startFrame s.hw)).log
      ∧ o.steps = (loopN c s.opts.emulateSound fuel (c.startFrame s.hw)).steps := by
  unfold frame at h
  simp only at h
  split_ifs at h with he
  have := Option.some.inj h
  subst this
  exact ⟨he, rfl, rfl, rfl⟩

theorem frame_endsAt (c : Collab S) (fuel : Nat) (s : NES S) (o : FrameOut S)
    (h : frame c fuel s = some o) : EndsAt c o.nes.hw o.log := by
  obtain ⟨he, hn, hl, -⟩ := frame_eq_some c fuel s o h
  rw [hl, hn]
  have := ((loopN_ends c s.opts.emulateSound fuel (c.startFrame s.hw)).1 he).prepend
    [Event.startFrame] (by simp)
  simpa using this

theorem frame_dotCount_pos (c : Collab S) (fuel : Nat) (s : NES S) (o : FrameOut S)
    (h : frame c fuel s = some o) : 1 ≤ dotCount o.log := by
  obtain ⟨he, -, hl, -⟩ := frame_eq_some c fuel s o h
  obtain ⟨k1, -, k3⟩ := loopN_steps c s.opts.emulateSound fuel (c.startFrame s.hw)
  obtain ⟨init, last, e1, -, e3, -⟩ := k3 he
  have : dotCount o.log = dotCount (loopN c s.opts.emulateSound fuel (c.startFrame s.hw)).log := by
    rw [hl]
    simp [dotCount, Event.isDot]
  rw [this, k1, e1]
  simp only [List.map_append, List.sum_append, List.map_cons, List.map_nil,
    List.sum_cons, List.sum_nil]
  omega

/-! ## The frame scheduler -/

/-- C1: in one call of `frame()`, every CPU step but the last is followed by
exactly `3 * C_i` iterations of the dot loop, the last by at least one and at
most `3 * C_n`, the loop stopping in the iteration in which `nmiCounter`
reaches 0; so the dots processed are 3 times the CPU cycles consumed, less
the dots dropped from the final batch.  `C_i` is what `cpu.emulate()`
returned when `cyclesToHalt` was 0, and the stall chunk otherwise. -/
theorem frame_dots_three_per_cycle (c : Collab S) (fuel : Nat) (s : NES S)
    (o : FrameOut S) (h : frame c fuel s = some o) :
    (∀ (es : Bool) (hw : HW S),
        (cpuStep c es hw).cost =
          (if hw.cpu.cyclesToHalt = 0 then (c.emulate hw).1 else min hw.cpu.cyclesToHalt 8)
        ∧ (cpuStep c es hw).cycles = 3 * (cpuStep c es hw).cost)
      ∧ ∃ (init : List StepRec) (last : StepRec),
        o.steps = init ++ [last]
          ∧ (∀ r ∈ init, r.dots = 3 * r.cost)
          ∧ 1 ≤ last.dots ∧ last.dots ≤ 3 * last.cost
          ∧ dotCount o.log = (o.steps.map StepRec.dots).sum
          ∧ (o.steps.map StepRec.dots).sum + (3 * last.cost - last.dots)
              = 3 * (o.steps.map StepRec.cost).sum
          ∧ EndsAt c o.nes.hw o.log := by
  obtain ⟨he, hn, hl, hs⟩ := frame_eq_some c fuel s o h
  obtain ⟨k1, -, k3⟩ := loopN_steps c s.opts.emulateSound fuel (c.startFrame s.hw)
  obtain ⟨init, last, e1, e2, e3, e4⟩ := k3 he
  refine ⟨fun es hw => ⟨cpuStep_cost c es hw, cpuStep_cycles c es hw⟩,
    init, last, by rw [hs, e1], e2, e3, e4, ?_, ?_, ?_⟩
  · rw [hl, hs, ← k1]
    simp [dotCount, Event.isDot]
  · rw [hs, e1]
    simp only [List.map_append, List.sum_append, List.map_cons, List.map_nil, List.sum_cons,
      List.sum_nil, sum_dots_of_full init e2]
    omega
  · rw [hl, hn]
    have := ((loopN_ends c s.opts.emulateSound fuel (c.startFrame s.hw)).1 he).prepend
      [Event.startFrame] (by simp)
    simpa using this

theorem frame_dots_three_per_cycle_witness :
    ∃ o : FrameOut toySorts, frame toy 2 nes0 = some o
      ∧ o.steps = [{ cost := 2, dots := 6 }, { cost := 2, dots := 1 }]
      ∧ ((∀ (es : Bool) (hw : HW toySorts),
          (cpuStep toy es hw).cost =
            (if hw.cpu.cyclesToHalt = 0 then (toy.emulate hw).1 else min hw.cpu.cyclesToHalt 8)
          ∧ (cpuStep toy es hw).cycles = 3 * (cpuStep toy es hw).cost)
        ∧ ∃ (init : List StepRec) (last : StepRec),
          o.steps = init ++ [last]
            ∧ (∀ r ∈ init, r.dots = 3 * r.cost)
            ∧ 1 ≤ last.dots ∧ last.dots ≤ 3 * last.cost
            ∧ dotCount o.log = (o.steps.map StepRec.dots).sum
            ∧ (o.steps.map StepRec.dots).sum + (3 * last.cost - last.dots)
                = 3 * (o.steps.map StepRec.cost).sum
            ∧ EndsAt toy o.nes.hw o.log) :=
  ⟨_, rfl, rfl, frame_dots_three_per_cycle toy 2 nes0 _ rfl⟩

theorem spriteZero_no_endScanline (c : Collab S) (hw : HW S) :
    Event.endScanline ∉ (spriteZero c hw).log := by
  unfold spriteZero
  split_ifs <;> simp

/-- C3: at a dot at which `requestEndFrame` is true when it is tested (after
the sprite-zero test), `nmiCounter` is decremented by exactly 1.  If the
result is 0, `requestEndFrame` is cleared, `ppu.startVBlank()` is called on
a PPU whose `curX` and `scanline` the scheduler has not advanced (no
`endScanline` call either), the dot loop stops there with the rest of the
batch unprocessed, whatever part `k` of the batch ran before, and the frame
loop ends in that iteration.  If the result is not 0, the dot goes on to
advance with the decremented counter. -/
theorem dot_end_frame_check (c : Collab S) (hw : HW S)
    (h : (spriteZero c hw).hw.ppu.requestEndFrame = true) :
    ((spriteZero c hw).hw.ppu.nmiCounter - 1 = 0 →
        dot c hw =
          { hw := c.startVBlank ((spriteZero c hw).hw.setPPU
              { (spriteZero c hw).hw.ppu with
                nmiCounter := (spriteZero c hw).hw.ppu.nmiCounter - 1,
                requestEndFrame := false }),
            ended := true,
            log := Event.dot hw.ppu :: ((spriteZero c hw).log ++ [Event.startVBlank]) }
          ∧ Event.endScanline ∉ (dot c hw).log
          ∧ (∀ (k rest : Nat) (hw0 : HW S),
              (dotLoop c k hw0).ended = false → (dotLoop c k hw0).hw = hw →
              dotLoop c (k + (rest + 1)) hw0 =
                { hw := (dot c hw).hw, ended := true, ran := (dotLoop c k hw0).ran + 1,
                  log := (dotLoop c k hw0).log ++ (dot c hw).log }
                ∧ (dotLoop c k hw0).ran = k)
          ∧ (∀ (es : Bool) (n k rest : Nat) (hw0 : HW S),
              (cpuStep c es hw0).cycles = k + (rest + 1) →
              (dotLoop c k (cpuStep c es hw0).hw).ended = false →
              (dotLoop c k (cpuStep c es hw0).hw).hw = hw →
              (loopN c es (n + 1) hw0).ended = true
                ∧ (loopN c es (n + 1) hw0).hw = (dot c hw).hw
                ∧ (loopN c es (n + 1) hw0).steps
                    = [{ cost := (cpuStep c es hw0).cost, dots := k + 1 }]))
      ∧ ((spriteZero c hw).hw.ppu.nmiCounter - 1 ≠ 0 →
        dot c hw =
          { hw := (advance c ((spriteZero c hw).hw.setPPU
              { (spriteZero c hw).hw.ppu with
                nmiCounter := (spriteZero c hw).hw.ppu.nmiCounter - 1 })).hw,
            ended := false,
            log := Event.dot hw.ppu :: ((spriteZero c hw).log ++
              (advance c ((spriteZero c hw).hw.setPPU
                { (spriteZero c hw).hw.ppu with
                  nmiCounter := (spriteZero c hw).hw.ppu.nmiCounter - 1 })).log) }) := by
  refine ⟨fun h2 => ?_, fun h2 => dot_of_pending c hw h h2⟩
  have hd := dot_of_end c hw h h2
  have he : (dot c hw).ended = true := by rw [hd]
  have key : ∀ (k rest : Nat) (hw0 : HW S),
      (dotLoop c k hw0).ended = false → (dotLoop c k hw0).hw = hw →
      dotLoop c (k + (rest + 1)) hw0 =
        { hw := (dot c hw).hw, ended := true, ran := (dotLoop c k hw0).ran + 1,
          log := (dotLoop c k hw0).log ++ (dot c hw).log }
        ∧ (dotLoop c k hw0).ran = k := by
    intro k rest hw0 e1 e2
    refine ⟨?_, (dotLoop_ran c k hw0).2.2.1 e1⟩
    rw [dotLoop_add, if_neg (by simp [e1]), e2, dotLoop_succ_end c rest hw he]
  refine ⟨hd, ?_, key, ?_⟩
  · rw [hd]
    simpa using spriteZero_no_endScanline c hw
  · intro es n k rest hw0 e0 e1 e2
    obtain ⟨k1, k2⟩ := key k rest (cpuStep c es hw0).hw e1 e2
    rw [← e0] at k1
    have hend : (dotLoop c (cpuStep c es hw0).cycles (cpuStep c es hw0).hw).ended = true := by
      rw [k1]
    rw [loopN_succ_end c es n hw0 hend]
    refine ⟨rfl, ?_, ?_⟩
    · show (dotLoop c (cpuStep c es hw0).cycles (cpuStep c es hw0).hw).hw = _
      rw [k1]
    · show [_] = [_]
      rw [k1, k2]

theorem dot_end_frame_check_witness :
    (spriteZero toy
        (nes0.hw.setPPU { nes0.hw.ppu with requestEndFrame := true, nmiCounter := 1 })).hw.ppu.nmiCounter
        - 1 = 0
      ∧ (dot toy
          (nes0.hw.setPPU { nes0.hw.ppu with requestEndFrame := true, nmiCounter := 1 })).ended
          = true
      ∧ (dot toy
          (nes0.hw.setPPU { nes0.hw.ppu with requestEndFrame := true, nmiCounter := 1 })).hw.ppu.curX
          = 0 :=
  ⟨by decide,
   by rw [((dot_end_frame_check toy
      (nes0.hw.setPPU { nes0.hw.ppu with requestEndFrame := true, nmiCounter := 1 })
      (by decide)).1 (by decide)).1],
   by rw [((dot_end_frame_check toy
      (nes0.hw.setPPU { nes0.hw.ppu with requestEndFrame := true, nmiCounter := 1 })
      (by decide)).1 (by decide)).1]; rfl⟩

/-! ### Termination of the frame loop -/

theorem spriteZero_keeps (c : Collab S) (hwb : WellBehaved c) (hw : HW S)
    (hp : hw.ppu.pending) :
    (spriteZero c hw).hw.ppu.requestEndFrame = true
      ∧ (spriteZero c hw).hw.ppu.nmiCounter = hw.ppu.nmiCounter := by
  unfold spriteZero
  split_ifs
  · exact hwb.flag_keeps _ _ hw hp
  · exact ⟨hp.1, rfl⟩

theorem advance_keeps (c : Collab S) (hwb : WellBehaved c) (hw : HW S)
    (hp : hw.ppu.pending) :
    (advance c hw).hw.ppu.requestEndFrame = true
      ∧ (advance c hw).hw.ppu.nmiCounter = hw.ppu.nmiCounter := by
  unfold advance
  simp only
  split_ifs
  · exact hwb.endScanline_keeps _ hp
  · exact ⟨hp.1, rfl⟩

theorem dot_pending (c : Collab S) (hwb : WellBehaved c) (hw : HW S)
    (hp : hw.ppu.pending) :
    (dot c hw).ended = true
      ∨ ((dot c hw).ended = false ∧ (dot c hw).hw.ppu.requestEndFrame = true
          ∧ (dot c hw).hw.ppu.nmiCounter = hw.ppu.nmiCounter - 1
          ∧ 1 ≤ hw.ppu.nmiCounter - 1) := by
  obtain ⟨s1, s2⟩ := spriteZero_keeps c hwb hw hp
  by_cases h2 : (spriteZero c hw).hw.ppu.nmiCounter - 1 = 0
  · left
    rw [dot_of_end c hw s1 h2]
  · right
    have h1 : (1 : Int) ≤ hw.ppu.nmiCounter := hp.2
    have h3 : (1 : Int) ≤ hw.ppu.nmiCounter - 1 := by
      rw [s2] at h2
      omega
    rw [dot_of_pending c hw s1 h2]
    have hp2 : ((spriteZero c hw).hw.setPPU
        { (spriteZero c hw).hw.ppu with
          nmiCounter := (spriteZero c hw).hw.ppu.nmiCounter - 1 }).ppu.pending := by
      refine ⟨s1, ?_⟩
      show (1 : Int) ≤ (spriteZero c hw).hw.ppu.nmiCounter - 1
      rw [s2]
      exact h3
    obtain ⟨a1, a2⟩ := advance_keeps c hwb _ hp2
    refine ⟨rfl, a1, ?_, h3⟩
    show (advance c _).hw.ppu.nmiCounter = _
    rw [a2]
    show (spriteZero c hw).hw.ppu.nmiCounter - 1 = _
    rw [s2]

theorem dotLoop_pending (c : Collab S) (hwb : WellBehaved c) (n : Nat) (hw : HW S)
    (hp : hw.ppu.pending) :
    (dotLoop c n hw).ended = true
      ∨ ((dotLoop c n hw).ended = false ∧ (dotLoop c n hw).hw.ppu.requestEndFrame = true
          ∧ (dotLoop c n hw).hw.ppu.nmiCounter = hw.ppu.nmiCounter - n
          ∧ 1 ≤ hw.ppu.nmiCounter - n) := by
  induction n generalizing hw with
  | zero =>
    right
    have h1 : (1 : Int) ≤ hw.ppu.nmiCounter := hp.2
    simp [dotLoop, hp.1, h1]
  | succ n ih =>
    rcases dot_pending c hwb hw hp with h | ⟨h0, h1, h2, h3⟩
    · left
      rw [dotLoop_succ_end c n hw h]
    · rw [dotLoop_succ_cont c n hw h0]
      have hp2 : (dot c hw).hw.ppu.pending := ⟨h1, by rw [h2]; exact h3⟩
      rcases ih (dot c hw).hw hp2 with i | ⟨i0, i1, i2, i3⟩
      · left
        exact i
      · right
        refine ⟨i0, i1, ?_, ?_⟩
        · show (dotLoop c n (dot c hw).hw).hw.ppu.nmiCounter = _
          rw [i2, h2]
          push_cast
          ring
        · rw [h2] at i3
          push_cast
          omega

theorem clockIf_keeps (c : Collab S) (hwb : WellBehaved c) (es : Bool) (n : Nat)
    (hw : HW S) (hp : hw.ppu.pending) :
    (clockIf c es n hw).hw.ppu.requestEndFrame = true
      ∧ (clockIf c es n hw).hw.ppu.nmiCounter = hw.ppu.nmiCounter := by
  unfold clockIf
  split_ifs
  · exact hwb.clock_keeps n hw hp
  · exact ⟨hp.1, rfl⟩

theorem cpuStep_keeps (c : Collab S) (hwb : WellBehaved c) (es : Bool) (hw : HW S)
    (hp : hw.ppu.pending) :
    (cpuStep c es hw).hw.ppu.requestEndFrame = true
      ∧ (cpuStep c es hw).hw.ppu.nmiCounter = hw.ppu.nmiCounter
      ∧ 1 ≤ (cpuStep c es hw).cycles := by
  unfold cpuStep
  split_ifs with h1 h2
  · obtain ⟨e1, e2⟩ := hwb.emulate_keeps hw hp
    have hp2 : (c.emulate hw).2.ppu.pending := ⟨e1, by rw [e2]; exact hp.2⟩
    obtain ⟨k1, k2⟩ := clockIf_keeps c hwb es (c.emulate hw).1 _ hp2
    have := hwb.emulate_pos hw
    exact ⟨k1, by rw [← e2]; exact k2, by show 1 ≤ (c.emulate hw).1 * 3; omega⟩
  · obtain ⟨k1, k2⟩ := clockIf_keeps c hwb es 8 hw hp
    exact ⟨k1, k2, by show 1 ≤ 24; omega⟩
  · obtain ⟨k1, k2⟩ := clockIf_keeps c hwb es hw.cpu.cyclesToHalt hw hp
    exact ⟨k1, k2, by show 1 ≤ hw.cpu.cyclesToHalt * 3; omega⟩

/-- Once the signal is pending with delay at most `k`, the frame loop ends
within `k` iterations. -/
theorem loopN_ends_of_pending (c : Collab S) (hwb : WellBehaved c) (es : Bool) (k : Nat)
    (hw : HW S) (hp : hw.ppu.pending) (hk : hw.ppu.nmiCounter ≤ k) :
    (loopN c es k hw).ended = true := by
  induction k generalizing hw with
  | zero =>
    have h1 : (1 : Int) ≤ hw.ppu.nmiCounter := hp.2
    simp at hk
    omega
  | succ k ih =>
    obtain ⟨s1, s2, s3⟩ := cpuStep_keeps c hwb es hw hp
    have hp1 : (cpuStep c es hw).hw.ppu.pending := ⟨s1, by rw [s2]; exact hp.2⟩
    rcases dotLoop_pending c hwb (cpuStep c es hw).cycles _ hp1 with h | ⟨h0, h1, h2, h3⟩
    · rw [loopN_succ_end c es k hw h]
    · rw [loopN_succ_cont c es k hw h0]
      have hp2 : (dotLoop c (cpuStep c es hw).cycles (cpuStep c es hw).hw).hw.ppu.pending :=
        ⟨h1, by rw [h2]; exact h3⟩
      refine ih _ hp2 ?_
      rw [h2, s2]
      push_cast at hk
      have : (1 : Int) ≤ ((cpuStep c es hw).cycles : Int) := by exact_mod_cast s3
      omega

theorem loopN_pending (c : Collab S) (hwb : WellBehaved c) (es : Bool) (n : Nat)
    (hw : HW S) (hp : hw.ppu.pending) :
    (loopN c es n hw).ended = true ∨ (loopN c es n hw).hw.ppu.pending := by
  induction n generalizing hw with
  | zero => right; simpa [loopN] using hp
  | succ n ih =>
    obtain ⟨s1, s2, -⟩ := cpuStep_keeps c hwb es hw hp
    have hp1 : (cpuStep c es hw).hw.ppu.pending := ⟨s1, by rw [s2]; exact hp.2⟩
    rcases dotLoop_pending c hwb (cpuStep c es hw).cycles _ hp1 with h | ⟨h0, h1, h2, h3⟩
    · left
      rw [loopN_succ_end c es n hw h]
    · rw [loopN_succ_cont c es n hw h0]
      exact ih _ ⟨h1, by rw [h2]; exact h3⟩

theorem dot_marker (c : Collab S) (hw : HW S) (p : PPU S)
    (h : Event.dot p ∈ (dot c hw).log) : p = hw.ppu := by
  have hs : Event.dot p ∉ (spriteZero c hw).log := by
    unfold spriteZero
    split_ifs <;> simp
  have ha : ∀ hw0 : HW S, Event.dot p ∉ (advance c hw0).log := by
    intro hw0
    unfold advance
    simp only
    split_ifs <;> simp
  by_cases h1 : (spriteZero c hw).hw.ppu.requestEndFrame = true
  · by_cases h2 : (spriteZero c hw).hw.ppu.nmiCounter - 1 = 0
    · rw [dot_of_end c hw h1 h2] at h
      simpa [hs] using h
    · rw [dot_of_pending c hw h1 h2] at h
      simpa [hs, ha] using h
  · rw [dot_of_idle c hw (by simpa using h1)] at h
    simpa [hs, ha] using h

theorem cpuStep_no_dot (c : Collab S) (es : Bool) (hw : HW S) (p : PPU S) :
    Event.dot p ∉ (cpuStep c es hw).log := by
  have hk : ∀ (n : Nat) (hw0 : HW S), Event.dot p ∉ (clockIf c es n hw0).log := by
    intro n hw0
    unfold clockIf
    split_ifs <;> simp
  unfold cpuStep
  split_ifs
  · simpa using hk _ _
  · simpa using hk _ _
  · simpa using hk _ _

theorem dotLoop_marker_pending (c : Collab S) (hwb : WellBehaved c) (n : Nat) (hw : HW S)
    (p : PPU S) (hm : Event.dot p ∈ (dotLoop c n hw).log) (hp : p.pending) :
    (dotLoop c n hw).ended = true ∨ (dotLoop c n hw).hw.ppu.pending := by
  induction n generalizing hw with
  | zero => simp [dotLoop] at hm
  | succ n ih =>
    by_cases h : (dot c hw).ended = true
    · left
      rw [dotLoop_succ_end c n hw h]
    · have h0 : (dot c hw).ended = false := by simpa using h
      rw [dotLoop_succ_cont c n hw h0] at hm
      simp only [List.mem_append] at hm
      rcases hm with hm | hm
      · have := dot_marker c hw p hm
        subst this
        rcases dotLoop_pending c hwb (n + 1) hw hp with e | ⟨-, e1, e2, e3⟩
        · exact Or.inl e
        · exact Or.inr ⟨e1, by rw [e2]; exact e3⟩
      · rw [dotLoop_succ_cont c n hw h0]
        exact ih (dot c hw).hw hm

theorem loopN_marker_pending (c : Collab S) (hwb : WellBehaved c) (es : Bool) (n : Nat)
    (hw : HW S) (p : PPU S) (hm : Event.dot p ∈ (loopN c es n hw).log) (hp : p.pending) :
    (loopN c es n hw).ended = true ∨ (loopN c es n hw).hw.ppu.pending := by
  induction n generalizing hw with
  | zero => simp [loopN] at hm
  | succ n ih =>
    by_cases h : (dotLoop c (cpuStep c es hw).cycles (cpuStep c es hw).hw).ended = true
    · left
      rw [loopN_succ_end c es n hw h]
    · have h0 : (dotLoop c (cpuStep c es hw).cycles (cpuStep c es hw).hw).ended = false := by
        simpa using h
      rw [loopN_succ_cont c es n hw h0] at hm
      simp only [List.mem_append] at hm
      rw [loopN_succ_cont c es n hw h0]
      rcases hm with hm | hm | hm
      · exact absurd hm (cpuStep_no_dot c es hw p)
      · rcases dotLoop_marker_pending c hwb _ _ p hm hp with e | e
        · exact absurd e h
        · exact loopN_pending c hwb es n _ e
      · exact ih _ hm

/-- Under well-behaved collaborators the frame loop ends: if some processed
dot sees the signal pending, some number of iterations suffices. -/
theorem loopN_terminates (c : Collab S) (hwb : WellBehaved c) (es : Bool) (hw : HW S)
    (hraise : ∃ (n : Nat) (p : PPU S), Event.dot p ∈ (loopN c es n hw).log ∧ p.pending) :
    ∃ fuel : Nat, (loopN c es fuel hw).ended = true := by
  obtain ⟨n, p, hm, hp⟩ := hraise
  rcases loopN_marker_pending c hwb es n hw p hm hp with e | e
  · exact ⟨n, e⟩
  · refine ⟨n + (loopN c es n hw).hw.ppu.nmiCounter.toNat, ?_⟩
    rw [loopN_add]
    split_ifs with h
    · exact h
    · exact loopN_ends_of_pending c hwb es _ _ e (Int.self_le_toNat _)

/-- C2 as stated fails: with collaborators for which `cpu.emulate()`
reports 2 cycles, the stall budget is a natural number and the PPU raises
`requestEndFrame` with `nmiCounter = 4` in the third dot after
`startFrame()`, `frame()` returns with `requestEndFrame` true, because
`ppu.startVBlank()`, called after the flag is cleared, raises it again. -/
theorem frame_returns_with_signal_raised :
    (∀ hw : HW toySorts, 1 ≤ (toyRaise.emulate hw).1)
      ∧ (∃ (n : Nat) (p : PPU toySorts),
          Event.dot p
              ∈ (loopN toyRaise nes0.opts.emulateSound n (toyRaise.startFrame nes0.hw)).log
            ∧ p.pending)
      ∧ ∃ o : FrameOut toySorts,
          (∀ k : Nat, 2 ≤ k → frame toyRaise k nes0 = some o)
            ∧ o.nes.hw.ppu.requestEndFrame = true := by
  refine ⟨fun _ => by show 1 ≤ 2; omega,
    ⟨1, { curX := 0, scanline := 22, spr0HitX := 340, spr0HitY := 0, f_spVisibility := 1,
          requestEndFrame := true, nmiCounter := 4, st := (6 : Nat) },
      List.get?_mem (n := 7) rfl, rfl, by decide⟩, ?_⟩
  obtain ⟨o, ho⟩ : ∃ o, frame toyRaise 2 nes0 = some o := ⟨_, rfl⟩
  have he := (frame_eq_some toyRaise 2 nes0 o ho).1
  refine ⟨o, fun k hk => ?_, ?_⟩
  · obtain ⟨m, rfl⟩ := Nat.exists_eq_add_of_le hk
    rw [← ho]
    unfold frame
    simp only
    rw [loopN_add, if_pos he]
  · rw [(frame_eq_some toyRaise 2 nes0 o ho).2.1]
    rfl

/-- C2, amended: let `cpu.emulate()` report at least one cycle, let no call
made inside the frame loop (`cpu.emulate`, `papu.clockFrameCounter`,
`ppu.setStatusFlag`, `ppu.endScanline`) change `requestEndFrame` or
`nmiCounter` while the signal is raised with `nmiCounter` at least 1, let
`ppu.startVBlank()` not raise the signal again, and let some processed dot
find `requestEndFrame` raised with `nmiCounter` at least 1.  Then `frame()`
terminates: from some fuel on it returns one and the same result, on which
`requestEndFrame` is false and `ppu.startVBlank()` is the last entry of the
log and occurs nowhere before. -/
theorem frame_terminates (c : Collab S) (s : NES S) (hwb : WellBehaved c)
    (hraise : ∃ (n : Nat) (p : PPU S),
      Event.dot p ∈ (loopN c s.opts.emulateSound n (c.startFrame s.hw)).log ∧ p.pending) :
    ∃ (fuel : Nat) (o : FrameOut S),
      (∀ k : Nat, fuel ≤ k → frame c k s = some o)
        ∧ o.nes.hw.ppu.requestEndFrame = false
        ∧ ∃ pre : List (Event S),
            o.log = pre ++ [Event.startVBlank] ∧ Event.startVBlank ∉ pre := by
  obtain ⟨fuel, he⟩ := loopN_terminates c hwb s.opts.emulateSound (c.startFrame s.hw) hraise
  have hk : ∀ k : Nat, fuel ≤ k →
      loopN c s.opts.emulateSound k (c.startFrame s.hw)
        = loopN c s.opts.emulateSound fuel (c.startFrame s.hw) := by
    intro k hk
    obtain ⟨m, rfl⟩ := Nat.exists_eq_add_of_le hk
    rw [loopN_add, if_pos he]
  obtain ⟨hw0, e1, e2, -, pre, e4, e5⟩ :=
    (loopN_ends c s.opts.emulateSound fuel (c.startFrame s.hw)).1 he
  refine ⟨fuel,
    { nes := { s with
        hw := (loopN c s.opts.emulateSound fuel (c.startFrame s.hw)).hw,
        fpsFrameCount := s.fpsFrameCount + 1 },
      log := Event.startFrame :: (loopN c s.opts.emulateSound fuel (c.startFrame s.hw)).log,
      steps := (loopN c s.opts.emulateSound fuel (c.startFrame s.hw)).steps }, ?_, ?_, ?_⟩
  · intro k hle
    unfold frame
    simp only
    rw [hk k hle, if_pos he]
  · show (loopN c s.opts.emulateSound fuel (c.startFrame s.hw)).hw.ppu.requestEndFrame = false
    rw [e1]
    exact hwb.startVBlank_clear hw0 e2
  · refine ⟨Event.startFrame :: pre, ?_, by simp [e5]⟩
    show Event.startFrame :: (loopN c s.opts.emulateSound fuel (c.startFrame s.hw)).log = _
    rw [e4]
    rfl

theorem toy_wellBehaved : WellBehaved toy where
  emulate_pos := fun _ => by show 1 ≤ 2; omega
  emulate_keeps := fun _ hp => ⟨hp.1, rfl⟩
  clock_keeps := fun _ _ hp => ⟨hp.1, rfl⟩
  flag_keeps := fun _ _ _ hp => ⟨hp.1, rfl⟩
  endScanline_keeps := fun hw hp => by
    have h : hw.ppu.requestEndFrame = true := hp.1
    simp only [toy, h, if_true]
    exact ⟨rfl, rfl⟩
  startVBlank_clear := fun _ h => h

theorem frame_terminates_witness :
    WellBehaved toy
      ∧ (∃ (n : Nat) (p : PPU toySorts),
          Event.dot p ∈ (loopN toy nes0.opts.emulateSound n (toy.startFrame nes0.hw)).log
            ∧ p.pending)
      ∧ ∃ (fuel : Nat) (o : FrameOut toySorts),
          (∀ k : Nat, fuel ≤ k → frame toy k nes0 = some o)
            ∧ o.nes.hw.ppu.requestEndFrame = false
            ∧ ∃ pre : List (Event toySorts),
                o.log = pre ++ [Event.startVBlank] ∧ Event.startVBlank ∉ pre :=
  have hraise : ∃ (n : Nat) (p : PPU toySorts),
      Event.dot p ∈ (loopN toy nes0.opts.emulateSound n (toy.startFrame nes0.hw)).log
        ∧ p.pending :=
    ⟨1, { curX := 0, scanline := 22, spr0HitX := 340, spr0HitY := 0, f_spVisibility := 1,
          requestEndFrame := true, nmiCounter := 4, st := (6 : Nat) },
      List.get?_mem (n := 7) rfl, rfl, by decide⟩
  ⟨toy_wellBehaved, hraise, frame_terminates toy nes0 toy_wellBehaved hraise⟩

/-! ### The sprite-zero-hit flag -/

theorem FlagsMatch.nil (c : Collab S) : FlagsMatch c [] := by
  simp [FlagsMatch]

theorem FlagsMatch.append {c : Collab S} {l₁ l₂ : List (Event S)}
    (h₁ : FlagsMatch c l₁) (h₂ : FlagsMatch c l₂) : FlagsMatch c (l₁ ++ l₂) := by
  refine ⟨fun e he hf => ?_, ?_⟩
  · rcases List.mem_append.1 he with h | h
    · exact h₁.1 e h hf
    · exact h₂.1 e h hf
  · simp [List.countP_append, h₁.2, h₂.2]

theorem FlagsMatch.of_plain (c : Collab S) (l : List (Event S))
    (h : ∀ e ∈ l, e.isFlag = false ∧ e.isHitDot = false) : FlagsMatch c l := by
  refine ⟨fun e he hf => ?_, ?_⟩
  · rw [(h e he).1] at hf
    exact absurd hf (by simp)
  · rw [List.countP_eq_zero.2 (fun e he => by simp [(h e he).1]),
      List.countP_eq_zero.2 (fun e he => by simp [(h e he).2])]

theorem spriteZero_log (c : Collab S) (hw : HW S) :
    (spriteZero c hw).log =
      if hw.ppu.hit then [Event.setStatusFlag c.STATUS_SPRITE0HIT true] else [] := by
  unfold spriteZero PPU.hit
  split_ifs <;> rfl

theorem advance_plain (c : Collab S) (hw : HW S) :
    ∀ e ∈ (advance c hw).log, e.isFlag = false ∧ e.isHitDot = false := by
  unfold advance
  simp only
  split_ifs <;> simp [Event.isFlag, Event.isHitDot]

/-- One dot calls `setStatusFlag(STATUS_SPRITE0HIT, true)` exactly when the
condition holds at its start, whether or not the dot ends the frame. -/
theorem dot_flag_iff (c : Collab S) (hw : HW S) :
    Event.setStatusFlag c.STATUS_SPRITE0HIT true ∈ (dot c hw).log ↔ hw.ppu.hit := by
  have ha : ∀ hw0 : HW S,
      Event.setStatusFlag c.STATUS_SPRITE0HIT true ∉ (advance c hw0).log := by
    intro hw0 hm
    have := (advance_plain c hw0 _ hm).1
    simp [Event.isFlag] at this
  by_cases h1 : (spriteZero c hw).hw.ppu.requestEndFrame = true
  · by_cases h2 : (spriteZero c hw).hw.ppu.nmiCounter - 1 = 0
    · rw [dot_of_end c hw h1 h2, spriteZero_log]
      split_ifs with hh <;> simp [hh]
    · rw [dot_of_pending c hw h1 h2, spriteZero_log]
      split_ifs with hh <;> simp [hh, ha]
  · rw [dot_of_idle c hw (by simpa using h1), spriteZero_log]
    split_ifs with hh <;> simp [hh, ha]

theorem dot_flagsMatch (c : Collab S) (hw : HW S) : FlagsMatch c (dot c hw).log := by
  have hs : FlagsMatch c (Event.dot hw.ppu :: (spriteZero c hw).log) := by
    rw [spriteZero_log]
    by_cases hh : hw.ppu.hit
    · simp [FlagsMatch, hh, Event.isFlag, Event.isHitDot]
    · simp [FlagsMatch, hh, Event.isFlag, Event.isHitDot]
  have hv : FlagsMatch c [Event.startVBlank] :=
    FlagsMatch.of_plain c _ (by simp [Event.isFlag, Event.isHitDot])
  by_cases h1 : (spriteZero c hw).hw.ppu.requestEndFrame = true
  · by_cases h2 : (spriteZero c hw).hw.ppu.nmiCounter - 1 = 0
    · rw [dot_of_end c hw h1 h2]
      exact hs.append hv
    · rw [dot_of_pending c hw h1 h2]
      exact hs.append (FlagsMatch.of_plain c _ (advance_plain c _))
  · rw [dot_of_idle c hw (by simpa using h1)]
    exact hs.append (FlagsMatch.of_plain c _ (advance_plain c _))

theorem dotLoop_flagsMatch (c : Collab S) (n : Nat) (hw : HW S) :
    FlagsMatch c (dotLoop c n hw).log := by
  induction n generalizing hw with
  | zero => exact FlagsMatch.nil c
  | succ n ih =>
    by_cases h : (dot c hw).ended = true
    · rw [dotLoop_succ_end c n hw h]
      exact dot_flagsMatch c hw
    · rw [dotLoop_succ_cont c n hw (by simpa using h)]
      exact (dot_flagsMatch c hw).append (ih _)

theorem cpuStep_plain (c : Collab S) (es : Bool) (hw : HW S) :
    ∀ e ∈ (cpuStep c es hw).log, e.isFlag = false ∧ e.isHitDot = false := by
  have hk : ∀ (n : Nat) (hw0 : HW S),
      ∀ e ∈ (clockIf c es n hw0).log, e.isFlag = false ∧ e.isHitDot = false := by
    intro n hw0
    unfold clockIf
    split_ifs <;> simp [Event.isFlag, Event.isHitDot]
  unfold cpuStep
  split_ifs
  · intro e he
    simp only [List.mem_cons] at he
    rcases he with rfl | he
    · simp [Event.isFlag, Event.isHitDot]
    · exact hk _ _ e he
  · exact hk _ _
  · exact hk _ _

theorem loopN_flagsMatch (c : Collab S) (es : Bool) (n : Nat) (hw : HW S) :
    FlagsMatch c (loopN c es n hw).log := by
  induction n generalizing hw with
  | zero => exact FlagsMatch.nil c
  | succ n ih =>
    have hs := FlagsMatch.of_plain c _ (cpuStep_plain c es hw)
    have hd := dotLoop_flagsMatch c (cpuStep c es hw).cycles (cpuStep c es hw).hw
    by_cases h : (dotLoop c (cpuStep c es hw).cycles (cpuStep c es hw).hw).ended = true
    · rw [loopN_succ_end c es n hw h]
      exact hs.append hd
    · rw [loopN_succ_cont c es n hw (by simpa using h)]
      exact hs.append (hd.append (ih _))

/-- C4: during `frame()` the scheduler calls
`ppu.setStatusFlag(STATUS_SPRITE0HIT, true)` if and only if at some processed
dot `curX` equals `spr0HitX`, `f_spVisibility` equals 1 and `scanline - 21`
equals `spr0HitY` (whatever `spr0HitX` is, 0 and 340 included).  The test is
made on every processed dot, the one that ends the frame included: each dot
makes the call exactly when the condition holds at its start, and the calls
are as many as the dots at which it holds.  No other `setStatusFlag` call is
made, in particular none with `false`. -/
theorem frame_sprite_zero_hit (c : Collab S) (fuel : Nat) (s : NES S) (o : FrameOut S)
    (h : frame c fuel s = some o) :
    (Event.setStatusFlag c.STATUS_SPRITE0HIT true ∈ o.log
        ↔ ∃ p : PPU S, Event.dot p ∈ o.log ∧ p.hit)
      ∧ (∀ (f : Nat) (v : Bool), Event.setStatusFlag f v ∈ o.log →
          f = c.STATUS_SPRITE0HIT ∧ v = true)
      ∧ o.log.countP Event.isFlag = o.log.countP Event.isHitDot
      ∧ dotCount o.log = (o.steps.map StepRec.dots).sum
      ∧ (∀ hw : HW S,
          (Event.setStatusFlag c.STATUS_SPRITE0HIT true ∈ (dot c hw).log ↔ hw.ppu.hit)
            ∧ Event.dot hw.ppu ∈ (dot c hw).log) := by
  obtain ⟨-, -, hl, hs⟩ := frame_eq_some c fuel s o h
  have hm : FlagsMatch c o.log := by
    rw [hl]
    exact (FlagsMatch.of_plain c [Event.startFrame]
      (by simp [Event.isFlag, Event.isHitDot])).append (loopN_flagsMatch c _ _ _)
  have hcount : dotCount o.log = (o.steps.map StepRec.dots).sum := by
    rw [hl, hs, ← (loopN_steps c s.opts.emulateSound fuel (c.startFrame s.hw)).1]
    simp [dotCount, Event.isDot]
  refine ⟨⟨fun hin => ?_, fun ⟨p, hp, hh⟩ => ?_⟩, fun f v hin => ?_, hm.2, hcount,
    fun hw => ⟨dot_flag_iff c hw, ?_⟩⟩
  · have h1 : 0 < o.log.countP Event.isFlag :=
      List.countP_pos_iff.2 ⟨_, hin, by simp [Event.isFlag]⟩
    rw [hm.2] at h1
    obtain ⟨e, he, hd⟩ := List.countP_pos_iff.1 h1
    cases e with
    | dot p => exact ⟨p, he, by simpa [Event.isHitDot] using hd⟩
    | _ => simp [Event.isHitDot] at hd
  · have h1 : 0 < o.log.countP Event.isHitDot :=
      List.countP_pos_iff.2 ⟨_, hp, by simp [Event.isHitDot, hh]⟩
    rw [← hm.2] at h1
    obtain ⟨e, he, hd⟩ := List.countP_pos_iff.1 h1
    have := hm.1 e he hd
    rw [← this]
    exact he
  · have := hm.1 _ hin (by simp [Event.isFlag])
    simpa using this
  · by_cases h1 : (spriteZero c hw).hw.ppu.requestEndFrame = true
    · by_cases h2 : (spriteZero c hw).hw.ppu.nmiCounter - 1 = 0
      · rw [dot_of_end c hw h1 h2]
        simp
      · rw [dot_of_pending c hw h1 h2]
        simp
    · rw [dot_of_idle c hw (by simpa using h1)]
      simp

theorem frame_sprite_zero_hit_witness :
    ∃ o : FrameOut toySorts, frame toy 2 nes0 = some o
      ∧ o.log.countP Event.isHitDot = 1
      ∧ ((Event.setStatusFlag toy.STATUS_SPRITE0HIT true ∈ o.log
          ↔ ∃ p : PPU toySorts, Event.dot p ∈ o.log ∧ p.hit)
        ∧ (∀ (f : Nat) (v : Bool), Event.setStatusFlag f v ∈ o.log →
            f = toy.STATUS_SPRITE0HIT ∧ v = true)
        ∧ o.log.countP Event.isFlag = o.log.countP Event.isHitDot
        ∧ dotCount o.log = (o.steps.map StepRec.dots).sum
        ∧ (∀ hw : HW toySorts,
            (Event.setStatusFlag toy.STATUS_SPRITE0HIT true ∈ (dot toy hw).log ↔ hw.ppu.hit)
              ∧ Event.dot hw.ppu ∈ (dot toy hw).log)) :=
  ⟨_, rfl, by decide, frame_sprite_zero_hit toy 2 nes0 _ rfl⟩

/-! ### Stall cycles -/

theorem dot_budget (c : Collab S)
    (hf : ∀ (f : Nat) (v : Bool) (hw0 : HW S),
      (c.setStatusFlag f v hw0).cpu.cyclesToHalt = hw0.cpu.cyclesToHalt)
    (hs : ∀ hw0 : HW S, (c.endScanline hw0).cpu.cyclesToHalt = hw0.cpu.cyclesToHalt)
    (hw : HW S) (h : (dot c hw).ended = false) :
    (dot c hw).hw.cpu.cyclesToHalt = hw.cpu.cyclesToHalt := by
  have h1 : (spriteZero c hw).hw.cpu.cyclesToHalt = hw.cpu.cyclesToHalt := by
    unfold spriteZero
    split_ifs
    · exact hf _ _ hw
    · rfl
  have h2 : ∀ hw0 : HW S, (advance c hw0).hw.cpu.cyclesToHalt = hw0.cpu.cyclesToHalt := by
    intro hw0
    unfold advance
    simp only
    split_ifs
    · rw [hs]
      rfl
    · rfl
  by_cases e1 : (spriteZero c hw).hw.ppu.requestEndFrame = true
  · by_cases e2 : (spriteZero c hw).hw.ppu.nmiCounter - 1 = 0
    · rw [dot_of_end c hw e1 e2] at h
      simp at h
    · rw [dot_of_pending c hw e1 e2]
      show (advance c _).hw.cpu.cyclesToHalt = _
      rw [h2]
      exact h1
  · rw [dot_of_idle c hw (by simpa using e1)]
    show (advance c _).hw.cpu.cyclesToHalt = _
    rw [h2]
    exact h1

theorem dotLoop_budget (c : Collab S)
    (hf : ∀ (f : Nat) (v : Bool) (hw0 : HW S),
      (c.setStatusFlag f v hw0).cpu.cyclesToHalt = hw0.cpu.cyclesToHalt)
    (hs : ∀ hw0 : HW S, (c.endScanline hw0).cpu.cyclesToHalt = hw0.cpu.cyclesToHalt)
    (n : Nat) (hw : HW S) (h : (dotLoop c n hw).ended = false) :
    (dotLoop c n hw).hw.cpu.cyclesToHalt = hw.cpu.cyclesToHalt := by
  induction n generalizing hw with
  | zero => rfl
  | succ n ih =>
    by_cases hd : (dot c hw).ended = true
    · rw [dotLoop_succ_end c n hw hd] at h
      simp at h
    · have hd0 : (dot c hw).ended = false := by simpa using hd
      rw [dotLoop_succ_cont c n hw hd0] at h ⊢
      show (dotLoop c n (dot c hw).hw).hw.cpu.cyclesToHalt = _
      rw [ih _ h, dot_budget c hf hs hw hd0]

theorem dotLoop_no_emulate (c : Collab S) (n : Nat) (hw : HW S) (k : Nat) :
    Event.emulate k ∉ (dotLoop c n hw).log := by
  have hz : ∀ hw0 : HW S, Event.emulate k ∉ (spriteZero c hw0).log := by
    intro hw0
    unfold spriteZero
    split_ifs <;> simp
  have ha : ∀ hw0 : HW S, Event.emulate k ∉ (advance c hw0).log := by
    intro hw0
    unfold advance
    simp only
    split_ifs <;> simp
  have hd : ∀ hw0 : HW S, Event.emulate k ∉ (dot c hw0).log := by
    intro hw0
    by_cases e1 : (spriteZero c hw0).hw.ppu.requestEndFrame = true
    · by_cases e2 : (spriteZero c hw0).hw.ppu.nmiCounter - 1 = 0
      · rw [dot_of_end c hw0 e1 e2]
        simpa using hz hw0
      · rw [dot_of_pending c hw0 e1 e2]
        simpa using ⟨hz hw0, ha _⟩
    · rw [dot_of_idle c hw0 (by simpa using e1)]
      simpa using ⟨hz hw0, ha _⟩
  induction n generalizing hw with
  | zero => simp [dotLoop]
  | succ n ih =>
    by_cases h : (dot c hw).ended = true
    · rw [dotLoop_succ_end c n hw h]
      exact hd hw
    · rw [dotLoop_succ_cont c n hw (by simpa using h)]
      simpa using ⟨hd hw, ih _⟩

theorem clockIf_no_emulate (c : Collab S) (es : Bool) (n : Nat) (hw : HW S) (k : Nat) :
    Event.emulate k ∉ (clockIf c es n hw).log := by
  unfold clockIf
  split_ifs <;> simp

/-- One stalled iteration: no CPU instruction and `min n 8` cycles; a
budget of at most 8 is set to 0 after the APU call, a larger one is
decremented by 8 after it. -/
theorem cpuStep_stalled (c : Collab S) (es : Bool) (hw : HW S)
    (h1 : 1 ≤ hw.cpu.cyclesToHalt) :
    (cpuStep c es hw).cost = min hw.cpu.cyclesToHalt 8
      ∧ (cpuStep c es hw).cycles = 3 * min hw.cpu.cyclesToHalt 8
      ∧ (∀ k : Nat, Event.emulate k ∉ (cpuStep c es hw).log)
      ∧ (hw.cpu.cyclesToHalt ≤ 8 → (cpuStep c es hw).hw.cpu.cyclesToHalt = 0)
      ∧ (8 < hw.cpu.cyclesToHalt →
          (cpuStep c es hw).hw.cpu.cyclesToHalt
            = (clockIf c es 8 hw).hw.cpu.cyclesToHalt - 8) := by
  have hcost := cpuStep_cost c es hw
  rw [if_neg (by omega)] at hcost
  refine ⟨hcost, by rw [cpuStep_cycles, hcost], ?_, fun h => ?_, fun h => ?_⟩
  · unfold cpuStep
    rw [if_neg (by omega)]
    split_ifs
    · exact clockIf_no_emulate c es _ _
    · exact clockIf_no_emulate c es _ _
  · unfold cpuStep
    rw [if_neg (by omega), if_neg (by omega)]
    rfl
  · unfold cpuStep
    rw [if_neg (by omega), if_pos h]
    rfl

/-- One stalled iteration whose APU call leaves the budget alone: the
budget drops by the chunk. -/
theorem cpuStep_stalled_quiet (c : Collab S) (es : Bool) (hw : HW S)
    (h1 : 1 ≤ hw.cpu.cyclesToHalt)
    (hclk : (clockIf c es (min hw.cpu.cyclesToHalt 8) hw).hw.cpu.cyclesToHalt
      = hw.cpu.cyclesToHalt) :
    (cpuStep c es hw).hw.cpu.cyclesToHalt + min hw.cpu.cyclesToHalt 8
      = hw.cpu.cyclesToHalt := by
  obtain ⟨-, -, -, s4, s5⟩ := cpuStep_stalled c es hw h1
  by_cases h : hw.cpu.cyclesToHalt ≤ 8
  · rw [s4 h]
    omega
  · have h8 : min hw.cpu.cyclesToHalt 8 = 8 := by omega
    rw [h8] at hclk
    rw [s5 (by omega), hclk]
    omega

theorem loopN_stalled (c : Collab S) (es : Bool)
    (m : Nat) (hw : HW S) (hm : m = (hw.cpu.cyclesToHalt + 7) / 8)
    (hq : StallQuiet c es m hw) :
    (loopN c es m hw).ended = false
      ∧ (loopN c es m hw).steps.length = m
      ∧ ((loopN c es m hw).steps.map StepRec.cost).sum = hw.cpu.cyclesToHalt
      ∧ (∀ r ∈ (loopN c es m hw).steps, 1 ≤ r.cost ∧ r.cost ≤ 8)
      ∧ (loopN c es m hw).hw.cpu.cyclesToHalt = 0
      ∧ (∀ k : Nat, Event.emulate k ∉ (loopN c es m hw).log) := by
  induction m generalizing hw with
  | zero =>
    have : hw.cpu.cyclesToHalt = 0 := by omega
    simp [loopN, this]
  | succ m ih =>
    have h1 : 1 ≤ hw.cpu.cyclesToHalt := by omega
    obtain ⟨q1, hd0, hb, q4⟩ := hq
    obtain ⟨s1, -, s3, -, -⟩ := cpuStep_stalled c es hw h1
    have s4 := cpuStep_stalled_quiet c es hw h1 q1
    rw [loopN_succ_cont c es m hw hd0]
    obtain ⟨i0, i1, i2, i3, i4, i5⟩ := ih
      (dotLoop c (cpuStep c es hw).cycles (cpuStep c es hw).hw).hw (by rw [hb]; omega) q4
    refine ⟨i0, by simp [i1], ?_, ?_, i4, ?_⟩
    · simp only [List.map_cons, List.sum_cons, i2, hb, s1]
      omega
    · intro r hr
      simp only [List.mem_cons] at hr
      rcases hr with hr | hr
      · subst hr
        show 1 ≤ (cpuStep c es hw).cost ∧ (cpuStep c es hw).cost ≤ 8
        rw [s1]
        omega
      · exact i3 r hr
    · intro k
      simpa using ⟨s3 k, dotLoop_no_emulate c _ _ k, i5 k⟩

theorem stallQuiet_of_calls (c : Collab S) (es : Bool)
    (hclk : ∀ (k : Nat) (hw0 : HW S),
      (c.clockFrameCounter k hw0).cpu.cyclesToHalt = hw0.cpu.cyclesToHalt)
    (hf : ∀ (f : Nat) (v : Bool) (hw0 : HW S),
      (c.setStatusFlag f v hw0).cpu.cyclesToHalt = hw0.cpu.cyclesToHalt)
    (hs : ∀ hw0 : HW S, (c.endScanline hw0).cpu.cyclesToHalt = hw0.cpu.cyclesToHalt)
    (m : Nat) (hw : HW S) (hne : (loopN c es m hw).ended = false) :
    StallQuiet c es m hw := by
  induction m generalizing hw with
  | zero => trivial
  | succ m ih =>
    by_cases hd : (dotLoop c (cpuStep c es hw).cycles (cpuStep c es hw).hw).ended = true
    · rw [loopN_succ_end c es m hw hd] at hne
      simp at hne
    · have hd0 : (dotLoop c (cpuStep c es hw).cycles (cpuStep c es hw).hw).ended = false := by
        simpa using hd
      rw [loopN_succ_cont c es m hw hd0] at hne
      refine ⟨?_, hd0, dotLoop_budget c hf hs _ _ hd0, ih _ hne⟩
      unfold clockIf
      split_ifs
      · exact hclk _ _
      · rfl

/-- C5 as stated fails: with an APU whose `clockFrameCounter` stalls the CPU
for 4 more cycles, an iteration entered with a budget of 10 takes the chunk
`min 10 8` but leaves a budget of 6, not `10 - 8`. -/
theorem stall_budget_counterexample :
    hwStalled.cpu.cyclesToHalt = 10
      ∧ (cpuStep toyDmc true hwStalled).cost = min 10 8
      ∧ (cpuStep toyDmc true hwStalled).hw.cpu.cyclesToHalt = 6
      ∧ (cpuStep toyDmc true hwStalled).hw.cpu.cyclesToHalt
          ≠ hwStalled.cpu.cyclesToHalt - (cpuStep toyDmc true hwStalled).cost := by
  decide

/-- C5, amended: for every stall budget `n >= 1` at the top of a frame-loop
iteration, the iteration executes no CPU instruction, takes `C = min n 8`
and produces a batch of `3 * C` dots.  For `n <= 8` it leaves
`cyclesToHalt = 0 = n - C`: the budget is set to 0 after the call
`papu.clockFrameCounter(n)`, so a stall the APU added in that call is
discarded.  For `n > 8` it leaves the budget found after the call
`papu.clockFrameCounter(8)`, minus 8, so a stall the APU added is kept; this
is `n - C` when that call left the budget at `n`.  Over `ceil(n / 8)`
consecutive iterations in each of which the call of `clockFrameCounter` and
the batch of dots leave the budget as they found it and the frame does not
end, the chunks are between 1 and 8 and sum to exactly `n`, no CPU
instruction is executed, `3 * n` dots are processed and the budget ends at
0; collaborators none of whose calls ever changes the budget satisfy that
condition whenever the frame does not end in those iterations. -/
theorem stall_chunks (c : Collab S) (es : Bool) (hw : HW S) (n : Nat)
    (hn : hw.cpu.cyclesToHalt = n) (h1 : 1 ≤ n) :
    ((cpuStep c es hw).cost = min n 8
        ∧ (cpuStep c es hw).cycles = 3 * min n 8
        ∧ (∀ k : Nat, Event.emulate k ∉ (cpuStep c es hw).log)
        ∧ (n ≤ 8 → (cpuStep c es hw).hw.cpu.cyclesToHalt = 0)
        ∧ (8 < n → 8 ≤ (clockIf c es 8 hw).hw.cpu.cyclesToHalt →
            (cpuStep c es hw).hw.cpu.cyclesToHalt + 8
              = (clockIf c es 8 hw).hw.cpu.cyclesToHalt)
        ∧ ((clockIf c es (min n 8) hw).hw.cpu.cyclesToHalt = n →
            (cpuStep c es hw).hw.cpu.cyclesToHalt + min n 8 = n))
      ∧ (StallQuiet c es ((n + 7) / 8) hw →
          (loopN c es ((n + 7) / 8) hw).ended = false
            ∧ (loopN c es ((n + 7) / 8) hw).steps.length = (n + 7) / 8
            ∧ ((loopN c es ((n + 7) / 8) hw).steps.map StepRec.cost).sum = n
            ∧ (∀ r ∈ (loopN c es ((n + 7) / 8) hw).steps, 1 ≤ r.cost ∧ r.cost ≤ 8)
            ∧ (loopN c es ((n + 7) / 8) hw).hw.cpu.cyclesToHalt = 0
            ∧ (∀ k : Nat, Event.emulate k ∉ (loopN c es ((n + 7) / 8) hw).log)
            ∧ dotCount (loopN c es ((n + 7) / 8) hw).log = 3 * n)
      ∧ ((∀ (k : Nat) (hw0 : HW S),
            (c.clockFrameCounter k hw0).cpu.cyclesToHalt = hw0.cpu.cyclesToHalt) →
          (∀ (f : Nat) (v : Bool) (hw0 : HW S),
            (c.setStatusFlag f v hw0).cpu.cyclesToHalt = hw0.cpu.cyclesToHalt) →
          (∀ hw0 : HW S, (c.endScanline hw0).cpu.cyclesToHalt = hw0.cpu.cyclesToHalt) →
          (loopN c es ((n + 7) / 8) hw).ended = false →
          StallQuiet c es ((n + 7) / 8) hw) := by
  subst hn
  obtain ⟨s1, s2, s3, s4, s5⟩ := cpuStep_stalled c es hw h1
  refine ⟨⟨s1, s2, s3, s4, fun h8 hge => ?_,
      fun hclk => cpuStep_stalled_quiet c es hw h1 hclk⟩,
    fun hq => ?_,
    fun hclk hf hs hne => stallQuiet_of_calls c es hclk hf hs _ hw hne⟩
  · rw [s5 h8]
    omega
  · obtain ⟨a0, a1, a2, a3, a4, a5⟩ := loopN_stalled c es _ hw rfl hq
    obtain ⟨k1, k2, -⟩ := loopN_steps c es ((hw.cpu.cyclesToHalt + 7) / 8) hw
    refine ⟨a0, a1, a2, a3, a4, a5, ?_⟩
    rw [k1, sum_dots_of_full _ (k2 a0), a2]

theorem stall_chunks_witness :
    hwStalled.cpu.cyclesToHalt = 10
      ∧ StallQuiet toy true ((10 + 7) / 8) hwStalled
      ∧ (cpuStep toy true hwStalled).hw.cpu.cyclesToHalt + min 10 8 = 10
      ∧ ((loopN toy true ((10 + 7) / 8) hwStalled).steps.map StepRec.cost).sum = 10
      ∧ dotCount (loopN toy true ((10 + 7) / 8) hwStalled).log = 3 * 10
      ∧ (cpuStep toyDmc true hwStalled).hw.cpu.cyclesToHalt + 8 = 14
      ∧ (clockIf toyDmc true 5 (nes0.hw.setCyclesToHalt 5)).hw.cpu.cyclesToHalt = 9
      ∧ (cpuStep toyDmc true (nes0.hw.setCyclesToHalt 5)).hw.cpu.cyclesToHalt = 0 :=
  have h := stall_chunks toy true hwStalled 10 rfl (by decide)
  have hq : StallQuiet toy true ((10 + 7) / 8) hwStalled :=
    ⟨rfl, rfl, rfl, rfl, rfl, rfl, trivial⟩
  have h2 := h.2.1 hq
  have hd := stall_chunks toyDmc true hwStalled 10 rfl (by decide)
  have h5 := stall_chunks toyDmc true (nes0.hw.setCyclesToHalt 5) 5 rfl (by decide)
  ⟨rfl, hq, h.1.2.2.2.2.2 rfl, h2.2.2.1, h2.2.2.2.2.2.2,
   hd.1.2.2.2.2.1 (by decide) (by decide), rfl, h5.1.2.2.2.1 (by decide)⟩

/-! ### `frame()` without a cartridge -/

/-- C6 as stated fails: on a console with `mmap` null, `frame()` returns
normally and the CPU, PPU and APU have all been advanced. -/
theorem frame_runs_with_null_mapper :
    nes0.hw.mmap = none
      ∧ ∃ o : FrameOut toySorts, frame toy 2 nes0 = some o
          ∧ o.nes.hw.ppu.curX ≠ nes0.hw.ppu.curX
          ∧ o.nes.hw.cpu.st ≠ nes0.hw.cpu.st
          ∧ o.nes.hw.papu ≠ nes0.hw.papu :=
  ⟨rfl, _, rfl, by decide, by decide, by decide⟩

/-- C6, amended: `frame()` makes no test of `mmap` and has no failure of its
own.  On a console with `mmap` null it calls `ppu.startFrame()` first and
then runs the first CPU step on the state that call left; and whenever the
frame loop ends, `frame()` returns normally, with at least one dot
processed, `ppu.startVBlank()` called last, `fpsFrameCount` incremented and
the console's other fields outside the collaborators as they were. -/
theorem frame_without_mapper (c : Collab S) (fuel : Nat) (s : NES S)
    (_hm : s.hw.mmap = none) :
    (frame c fuel s = none
        ↔ (loopN c s.opts.emulateSound fuel (c.startFrame s.hw)).ended = false)
      ∧ ∀ o : FrameOut S, frame c fuel s = some o →
          (∃ rest : List (Event S),
              o.log = Event.startFrame
                :: ((cpuStep c s.opts.emulateSound (c.startFrame s.hw)).log ++ rest))
            ∧ 1 ≤ dotCount o.log
            ∧ EndsAt c o.nes.hw o.log
            ∧ o.nes = { s with hw := o.nes.hw, fpsFrameCount := s.fpsFrameCount + 1 } := by
  refine ⟨?_, fun o h => ?_⟩
  · unfold frame
    simp only
    split_ifs with he
    · simp [he]
    · simpa using he
  · obtain ⟨he, hn, hl, -⟩ := frame_eq_some c fuel s o h
    refine ⟨?_, frame_dotCount_pos c fuel s o h, frame_endsAt c fuel s o h, ?_⟩
    · rw [hl]
      cases fuel with
      | zero => simp [loopN] at he
      | succ n =>
        by_cases hd : (dotLoop c (cpuStep c s.opts.emulateSound (c.startFrame s.hw)).cycles
            (cpuStep c s.opts.emulateSound (c.startFrame s.hw)).hw).ended = true
        · rw [loopN_succ_end c _ n _ hd]
          exact ⟨_, rfl⟩
        · rw [loopN_succ_cont c _ n _ (by simpa using hd)]
          exact ⟨_, rfl⟩
    · rw [hn]

theorem frame_without_mapper_witness :
    nes0.hw.mmap = none
      ∧ ∃ o : FrameOut toySorts, frame toy 2 nes0 = some o
          ∧ 1 ≤ dotCount o.log
          ∧ o.nes.fpsFrameCount = nes0.fpsFrameCount + 1 :=
  ⟨rfl, _, rfl, ((frame_without_mapper toy 2 nes0 rfl).2 _ rfl).2.1, rfl⟩

/-! ### Lifecycle: `reset`, `loadROM`, `reloadROM` -/

/-- What one `reset()` does: the Mapper is reset only if there is one, the
CPU, PPU and APU always, and the FPS state is cleared. -/
theorem reset_eq (c : Collab S) (s : NES S) :
    (reset c s).nes =
        { s with
          hw := { cpu := c.cpuReset s.hw.cpu, ppu := c.ppuReset s.hw.ppu,
                  papu := c.papuReset s.hw.papu, mmap := s.hw.mmap.map c.mmapReset },
          lastFpsTime := none,
          fpsFrameCount := 0 }
      ∧ (reset c s).log =
          (if s.hw.mmap.isSome = true then [Event.mmapReset] else [])
            ++ [Event.cpuReset, Event.ppuReset, Event.papuReset] := by
  unfold reset
  cases h : s.hw.mmap <;> simp

/-- A rejected image: `loadROM` throws, having replaced `this.rom` by the
ROM object it created, and nothing else. -/
theorem loadROM_rejected (c : Collab S) (data : S.Bytes) (s : NES S) (r : S.Rom)
    (h : c.romLoad data c.newROM = Outcome.threw r) :
    loadROM c data s =
      Outcome.threw { nes := { s with rom := some r }, log := [Event.romLoad data] } := by
  unfold loadROM
  rw [h]

/-- C7, evaluated: on the example console with a cartridge loaded,
`loadROM(0)` is rejected by `rom.load`, and the console it leaves behind has
the rejected ROM object in `rom` where the loaded cartridge's was; the
Mapper, the retained bytes, the FPS state and the CPU, PPU and APU are as
before. -/
theorem loadROM_rejected_replaces_rom :
    toy.romLoad (0 : Nat) toy.newROM = Outcome.threw (1 : Nat)
      ∧ nesLoaded.rom = some (6 : Nat)
      ∧ nesLoaded.hw.mmap = some (16 : Nat)
      ∧ ∃ o : Sys toySorts, loadROM toy (0 : Nat) nesLoaded = Outcome.threw o
          ∧ o.nes.rom = some (1 : Nat)
          ∧ o.nes.rom ≠ nesLoaded.rom
          ∧ o.nes = { nesLoaded with rom := some (1 : Nat) } :=
  ⟨rfl, rfl, rfl, _, rfl, rfl, by decide, rfl⟩

/-- C8: for an image that `rom.load` accepts, `loadROM(data)` returns
normally; the collaborators are left as `ppu.setMirroring(mirroring of the
new ROM)` and `mmap.loadROM()` leave them when called on the reset CPU, PPU
and APU with `mmap` the Mapper freshly created from the new ROM; `rom` is
the new ROM, `romData` is `data`, the FPS state is cleared; the calls are
made in the order of the log.  The resulting console does not depend on the
Mapper present before the call, if any. -/
theorem loadROM_valid (c : Collab S) (data : S.Bytes) (s : NES S) (r : S.Rom)
    (h : c.romLoad data c.newROM = Outcome.returned r) :
    ∃ o : Sys S, loadROM c data s = Outcome.returned o
      ∧ o.nes.hw = c.setMirroring (c.getMirroringType r)
          (c.mmapLoadROM
            { cpu := c.cpuReset s.hw.cpu, ppu := c.ppuReset s.hw.ppu,
              papu := c.papuReset s.hw.papu, mmap := some (c.createMapper r) })
      ∧ o.nes.rom = some r
      ∧ o.nes.romData = some data
      ∧ o.nes.lastFpsTime = none ∧ o.nes.fpsFrameCount = 0
      ∧ o.nes.opts = s.opts ∧ o.nes.frameTime = s.frameTime
      ∧ o.log = Event.romLoad data
          :: ((if s.hw.mmap.isSome = true then [Event.mmapReset] else [])
            ++ [Event.cpuReset, Event.ppuReset, Event.papuReset, Event.createMapper,
                Event.mmapLoadROM, Event.setMirroring (c.getMirroringType r)])
      ∧ ∀ m : Option S.Mapper, ∃ o2 : Sys S,
          loadROM c data { s with hw := { s.hw with mmap := m } } = Outcome.returned o2
            ∧ o2.nes = o.nes := by
  have key : ∀ s0 : NES S, ∃ o : Sys S, loadROM c data s0 = Outcome.returned o
      ∧ o.nes =
          { s0 with
            hw := c.setMirroring (c.getMirroringType r)
              (c.mmapLoadROM
                { cpu := c.cpuReset s0.hw.cpu, ppu := c.ppuReset s0.hw.ppu,
                  papu := c.papuReset s0.hw.papu, mmap := some (c.createMapper r) }),
            rom := some r, romData := some data, lastFpsTime := none, fpsFrameCount := 0 }
      ∧ o.log = Event.romLoad data
          :: ((if s0.hw.mmap.isSome = true then [Event.mmapReset] else [])
            ++ [Event.cpuReset, Event.ppuReset, Event.papuReset, Event.createMapper,
                Event.mmapLoadROM, Event.setMirroring (c.getMirroringType r)]) := by
    intro s0
    unfold loadROM
    rw [h]
    refine ⟨_, rfl, ?_, ?_⟩
    · simp only [(reset_eq c _).1]
    · simp only [(reset_eq c _).2, List.append_assoc]
      rfl
  obtain ⟨o, e1, e2, e3⟩ := key s
  refine ⟨o, e1, by rw [e2], by rw [e2], by rw [e2], by rw [e2], by rw [e2], by rw [e2],
    by rw [e2], e3, fun m => ?_⟩
  obtain ⟨o2, f1, f2, -⟩ := key { s with hw := { s.hw with mmap := m } }
  exact ⟨o2, f1, by rw [f2, e2]⟩

theorem loadROM_valid_witness :
    toy.romLoad (5 : Nat) toy.newROM = Outcome.returned (6 : Nat)
      ∧ ∃ o : Sys toySorts, loadROM toy (5 : Nat) nes0 = Outcome.returned o
          ∧ o.nes.hw.mmap = some (16 : Nat)
          ∧ o.nes.romData = some (5 : Nat)
          ∧ ∀ m : Option Nat, ∃ o2 : Sys toySorts,
              loadROM toy (5 : Nat) { nes0 with hw := { nes0.hw with mmap := m } }
                = Outcome.returned o2 ∧ o2.nes = o.nes :=
  have h := loadROM_valid toy (5 : Nat) nes0 (6 : Nat) rfl
  ⟨rfl, _, rfl, rfl, rfl,
    fun m => by
      obtain ⟨o, e, -, -, -, -, -, -, -, -, hm⟩ := h
      have e0 : o = _ := Outcome.returned.inj (e.symm.trans rfl)
      subst e0
      exact hm m⟩

/-- C9: `reloadROM()` on a console whose `romData` is null returns without
error, makes no call and leaves the console as it is; when `romData` is
not null it is `loadROM(romData)`.  `romData` is written only by a
`loadROM` that completes, to the bytes it was called with; a rejected
`loadROM` leaves it as it was. -/
theorem reloadROM_spec (c : Collab S) (s : NES S) :
    (s.romData = none → reloadROM c s = Outcome.returned { nes := s, log := [] })
      ∧ (∀ d : S.Bytes, s.romData = some d → reloadROM c s = loadROM c d s)
      ∧ (∀ (d : S.Bytes) (o : Sys S),
          loadROM c d s = Outcome.returned o → o.nes.romData = some d)
      ∧ (∀ (d : S.Bytes) (o : Sys S),
          loadROM c d s = Outcome.threw o → o.nes.romData = s.romData) := by
  refine ⟨fun h => ?_, fun d h => ?_, fun d o h => ?_, fun d o h => ?_⟩
  · unfold reloadROM
    rw [h]
  · unfold reloadROM
    rw [h]
  · cases hr : c.romLoad d c.newROM with
    | returned r =>
      obtain ⟨o2, e1, -, -, e2, -⟩ := loadROM_valid c d s r hr
      rw [e1] at h
      have := Outcome.returned.inj h
      rw [← this]
      exact e2
    | threw r =>
      rw [loadROM_rejected c d s r hr] at h
      exact absurd h (by simp)
  · cases hr : c.romLoad d c.newROM with
    | returned r =>
      obtain ⟨o2, e1, -⟩ := loadROM_valid c d s r hr
      rw [e1] at h
      exact absurd h (by simp)
    | threw r =>
      rw [loadROM_rejected c d s r hr] at h
      have := Outcome.threw.inj h
      rw [← this]

theorem reloadROM_spec_witness :
    nes0.romData = none
      ∧ reloadROM toy nes0 = Outcome.returned { nes := nes0, log := [] }
      ∧ nesLoaded.romData = some (5 : Nat)
      ∧ reloadROM toy nesLoaded = loadROM toy (5 : Nat) nesLoaded :=
  ⟨rfl, (reloadROM_spec toy nes0).1 rfl, rfl, (reloadROM_spec toy nesLoaded).2.1 5 rfl⟩

/-- C10: `reset()` is idempotent when each collaborator's own reset is: a
second `reset()` leaves the console as the first left it, with or without
a cartridge.  One `reset()` resets CPU, PPU and APU, resets the Mapper if
and only if `mmap` is not null, sets `lastFpsTime` to null and
`fpsFrameCount` to 0; it is a total function, so it does not fail when
`mmap` is null, where it makes no Mapper call and leaves `mmap` null. -/
theorem reset_idempotent (c : Collab S) (s : NES S)
    (hcpu : ∀ x : CPU S, c.cpuReset (c.cpuReset x) = c.cpuReset x)
    (hppu : ∀ x : PPU S, c.ppuReset (c.ppuReset x) = c.ppuReset x)
    (hpapu : ∀ x : S.Papu, c.papuReset (c.papuReset x) = c.papuReset x)
    (hmmap : ∀ x : S.Mapper, c.mmapReset (c.mmapReset x) = c.mmapReset x) :
    (reset c (reset c s).nes).nes = (reset c s).nes
      ∧ (reset c s).nes =
          { s with
            hw := { cpu := c.cpuReset s.hw.cpu, ppu := c.ppuReset s.hw.ppu,
                    papu := c.papuReset s.hw.papu, mmap := s.hw.mmap.map c.mmapReset },
            lastFpsTime := none,
            fpsFrameCount := 0 }
      ∧ (reset c s).log =
          (if s.hw.mmap.isSome = true then [Event.mmapReset] else [])
            ++ [Event.cpuReset, Event.ppuReset, Event.papuReset]
      ∧ (Event.mmapReset ∈ (reset c s).log ↔ s.hw.mmap ≠ none)
      ∧ (s.hw.mmap = none → (reset c s).nes.hw.mmap = none) := by
  obtain ⟨e1, e2⟩ := reset_eq c s
  refine ⟨?_, e1, e2, ?_, fun h => ?_⟩
  · rw [(reset_eq c (reset c s).nes).1, e1]
    cases hm : s.hw.mmap <;> simp [hcpu, hppu, hpapu, hmmap]
  · rw [e2]
    cases hm : s.hw.mmap <;> simp
  · rw [e1]
    simp [h]

theorem reset_idempotent_witness :
    (reset toy (reset toy nesLoaded).nes).nes = (reset toy nesLoaded).nes
      ∧ (reset toy (reset toy nes0).nes).nes = (reset toy nes0).nes
      ∧ (reset toy nes0).log = [Event.cpuReset, Event.ppuReset, Event.papuReset]
      ∧ (reset toy nesLoaded).log
          = [Event.mmapReset, Event.cpuReset, Event.ppuReset, Event.papuReset] :=
  ⟨(reset_idempotent toy nesLoaded (fun _ => rfl) (fun _ => rfl) (fun _ => rfl)
      (fun _ => rfl)).1,
   (reset_idempotent toy nes0 (fun _ => rfl) (fun _ => rfl) (fun _ => rfl)
      (fun _ => rfl)).1,
   rfl, rfl⟩

/-! ### The dot position -/

/-- C17: at a dot that does not end the frame, with `curX` in [0, 340]
before it and `setStatusFlag` and `endScanline` not writing `curX`, `curX`
afterwards is `(curX + 1) mod 341`, again in [0, 340], and
`ppu.endScanline()` is called once if `curX` was 340 and not at all
otherwise. -/
theorem dot_position (c : Collab S) (hw : HW S)
    (hflag : ∀ (f : Nat) (v : Bool) (hw0 : HW S),
      (c.setStatusFlag f v hw0).ppu.curX = hw0.ppu.curX)
    (hend : ∀ hw0 : HW S, (c.endScanline hw0).ppu.curX = hw0.ppu.curX)
    (hne : (dot c hw).ended = false)
    (h0 : 0 ≤ hw.ppu.curX) (h1 : hw.ppu.curX ≤ 340) :
    (dot c hw).hw.ppu.curX = (hw.ppu.curX + 1) % 341
      ∧ 0 ≤ (dot c hw).hw.ppu.curX ∧ (dot c hw).hw.ppu.curX ≤ 340
      ∧ (dot c hw).log.countP Event.isEndScanline = (if hw.ppu.curX = 340 then 1 else 0) := by
  have hs : (spriteZero c hw).hw.ppu.curX = hw.ppu.curX
      ∧ (spriteZero c hw).log.countP Event.isEndScanline = 0 := by
    unfold spriteZero
    split_ifs
    · exact ⟨hflag _ _ hw, by simp [Event.isEndScanline]⟩
    · exact ⟨rfl, by simp⟩
  have ha : ∀ hw0 : HW S, 0 ≤ hw0.ppu.curX → hw0.ppu.curX ≤ 340 →
      (advance c hw0).hw.ppu.curX = (hw0.ppu.curX + 1) % 341
        ∧ (advance c hw0).log.countP Event.isEndScanline
            = (if hw0.ppu.curX = 340 then 1 else 0) := by
    intro hw0 g0 g1
    unfold advance
    simp only
    by_cases hx : hw0.ppu.curX + 1 = 341
    · have hx2 : hw0.ppu.curX = 340 := by omega
      rw [if_pos (by simpa [HW.setPPU] using hx), if_pos hx2]
      refine ⟨?_, by simp [Event.isEndScanline]⟩
      rw [hend, hx]
      simp [HW.setPPU]
    · have hx2 : hw0.ppu.curX ≠ 340 := by omega
      rw [if_neg (by simpa [HW.setPPU] using hx), if_neg hx2]
      refine ⟨?_, by simp⟩
      show hw0.ppu.curX + 1 = _
      rw [Int.emod_eq_of_lt (by omega) (by omega)]
  have key : ∀ hw1 : HW S, hw1.ppu.curX = hw.ppu.curX →
      (advance c hw1).hw.ppu.curX = (hw.ppu.curX + 1) % 341
        ∧ (Event.dot hw.ppu :: ((spriteZero c hw).log ++ (advance c hw1).log)).countP
            Event.isEndScanline = (if hw.ppu.curX = 340 then 1 else 0) := by
    intro hw1 e
    obtain ⟨a1, a2⟩ := ha hw1 (by rw [e]; exact h0) (by rw [e]; exact h1)
    rw [e] at a1 a2
    refine ⟨a1, ?_⟩
    rw [List.countP_cons, List.countP_append, hs.2, a2]
    simp [Event.isEndScanline]
  have hmod : 0 ≤ (hw.ppu.curX + 1) % 341 ∧ (hw.ppu.curX + 1) % 341 ≤ 340 := by
    constructor
    · exact Int.emod_nonneg _ (by decide)
    · have := Int.emod_lt_of_pos (hw.ppu.curX + 1) (show (0 : Int) < 341 by decide)
      omega
  by_cases e1 : (spriteZero c hw).hw.ppu.requestEndFrame = true
  · by_cases e2 : (spriteZero c hw).hw.ppu.nmiCounter - 1 = 0
    · rw [dot_of_end c hw e1 e2] at hne
      simp at hne
    · rw [dot_of_pending c hw e1 e2]
      obtain ⟨k1, k2⟩ := key ((spriteZero c hw).hw.setPPU
        { (spriteZero c hw).hw.ppu with
          nmiCounter := (spriteZero c hw).hw.ppu.nmiCounter - 1 }) hs.1
      exact ⟨k1, by rw [k1]; exact hmod.1, by rw [k1]; exact hmod.2, k2⟩
  · rw [dot_of_idle c hw (by simpa using e1)]
    obtain ⟨k1, k2⟩ := key (spriteZero c hw).hw hs.1
    exact ⟨k1, by rw [k1]; exact hmod.1, by rw [k1]; exact hmod.2, k2⟩

theorem dot_position_witness :
    (dot toy (toy.startFrame nes0.hw)).hw.ppu.curX = (338 + 1) % 341
      ∧ (dot toy (nes0.hw.setPPU { nes0.hw.ppu with curX := 340 })).hw.ppu.curX = 0
      ∧ (dot toy (nes0.hw.setPPU { nes0.hw.ppu with curX := 340 })).log.countP
          Event.isEndScanline = 1 :=
  have h := fun (hw : HW toySorts) => dot_position toy hw (fun _ _ _ => rfl)
    (fun hw0 => by simp only [toy]; split_ifs <;> rfl)
  ⟨(h (toy.startFrame nes0.hw) (by decide) (by decide) (by decide)).1,
   (h (nes0.hw.setPPU { nes0.hw.ppu with curX := 340 }) (by decide) (by decide)
      (by decide)).1,
   (h (nes0.hw.setPPU { nes0.hw.ppu with curX := 340 }) (by decide) (by decide)
      (by decide)).2.2.2⟩

/-! ### Clocking the APU frame counter -/

theorem clockIf_clockArgs (c : Collab S) (es : Bool) (n : Nat) (hw : HW S) :
    (clockIf c es n hw).log.filterMap Event.clockArg = (if es = true then [n] else []) := by
  unfold clockIf
  split_ifs <;> simp [Event.clockArg]

theorem cpuStep_clockArgs (c : Collab S) (es : Bool) (hw : HW S) :
    (cpuStep c es hw).log.filterMap Event.clockArg
      = (if es = true then [(cpuStep c es hw).cost] else []) := by
  unfold cpuStep
  split_ifs with h1 h2 h3 h4 h5
  all_goals simp [clockIf_clockArgs, Event.clockArg, List.filterMap_cons, *]

theorem dotLoop_clockArgs (c : Collab S) (n : Nat) (hw : HW S) :
    (dotLoop c n hw).log.filterMap Event.clockArg = [] := by
  have hz : ∀ hw0 : HW S, (spriteZero c hw0).log.filterMap Event.clockArg = [] := by
    intro hw0
    unfold spriteZero
    split_ifs <;> simp [Event.clockArg]
  have ha : ∀ hw0 : HW S, (advance c hw0).log.filterMap Event.clockArg = [] := by
    intro hw0
    unfold advance
    simp only
    split_ifs <;> simp [Event.clockArg]
  have hd : ∀ hw0 : HW S, (dot c hw0).log.filterMap Event.clockArg = [] := by
    intro hw0
    by_cases e1 : (spriteZero c hw0).hw.ppu.requestEndFrame = true
    · by_cases e2 : (spriteZero c hw0).hw.ppu.nmiCounter - 1 = 0
      · rw [dot_of_end c hw0 e1 e2]
        simp [List.filterMap_cons, List.filterMap_append, hz, Event.clockArg]
      · rw [dot_of_pending c hw0 e1 e2]
        simp [List.filterMap_cons, List.filterMap_append, hz, ha, Event.clockArg]
    · rw [dot_of_idle c hw0 (by simpa using e1)]
      simp [List.filterMap_cons, List.filterMap_append, hz, ha, Event.clockArg]
  induction n generalizing hw with
  | zero => simp [dotLoop]
  | succ n ih =>
    by_cases h : (dot c hw).ended = true
    · rw [dotLoop_succ_end c n hw h]
      exact hd hw
    · rw [dotLoop_succ_cont c n hw (by simpa using h)]
      simp [List.filterMap_append, hd, ih]

theorem loopN_clockArgs (c : Collab S) (es : Bool) (n : Nat) (hw : HW S) :
    (loopN c es n hw).log.filterMap Event.clockArg
      = (if es = true then (loopN c es n hw).steps.map StepRec.cost else []) := by
  induction n generalizing hw with
  | zero => simp [loopN]
  | succ n ih =>
    by_cases h : (dotLoop c (cpuStep c es hw).cycles (cpuStep c es hw).hw).ended = true
    · rw [loopN_succ_end c es n hw h]
      simp only [List.filterMap_append, cpuStep_clockArgs, dotLoop_clockArgs]
      split_ifs <;> simp
    · rw [loopN_succ_cont c es n hw (by simpa using h)]
      simp only [List.filterMap_append, cpuStep_clockArgs, dotLoop_clockArgs, ih]
      split_ifs <;> simp

/-- C18: in every iteration of the frame loop `papu.clockFrameCounter` is
called exactly once if `opts.emulateSound` is true and not at all
otherwise, with the unscaled cycle count `C` of the step (what
`cpu.emulate()` returned, or the stall chunk `min(cyclesToHalt, 8)`), of
which the dot batch is `3 * C`.  The call is made by the CPU step, whose
log holds no dot, and the dot loop that follows makes no such call; over a
whole `frame()`, the arguments of the calls are the costs of the steps, in
order. -/
theorem clock_once_per_step (c : Collab S) (es : Bool) (hw : HW S) :
    (cpuStep c es hw).log.filterMap Event.clockArg
        = (if es = true then [(cpuStep c es hw).cost] else [])
      ∧ (cpuStep c es hw).cost
          = (if hw.cpu.cyclesToHalt = 0 then (c.emulate hw).1 else min hw.cpu.cyclesToHalt 8)
      ∧ (cpuStep c es hw).cycles = 3 * (cpuStep c es hw).cost
      ∧ dotCount (cpuStep c es hw).log = 0
      ∧ (∀ (n : Nat) (hw0 : HW S), (dotLoop c n hw0).log.filterMap Event.clockArg = [])
      ∧ (∀ n : Nat, ∃ rest : List (Event S),
          (loopN c es (n + 1) hw).log
            = (cpuStep c es hw).log
              ++ ((dotLoop c (cpuStep c es hw).cycles (cpuStep c es hw).hw).log ++ rest))
      ∧ (∀ n : Nat, (loopN c es n hw).log.filterMap Event.clockArg
          = (if es = true then (loopN c es n hw).steps.map StepRec.cost else []))
      ∧ (∀ (fuel : Nat) (s : NES S) (o : FrameOut S), frame c fuel s = some o →
          o.log.filterMap Event.clockArg
            = (if s.opts.emulateSound = true then o.steps.map StepRec.cost else [])) := by
  refine ⟨cpuStep_clockArgs c es hw, cpuStep_cost c es hw, cpuStep_cycles c es hw,
    cpuStep_dotCount c es hw, dotLoop_clockArgs c, fun n => ?_, fun n => loopN_clockArgs c es n hw,
    fun fuel s o h => ?_⟩
  · by_cases h : (dotLoop c (cpuStep c es hw).cycles (cpuStep c es hw).hw).ended = true
    · rw [loopN_succ_end c es n hw h]
      exact ⟨[], by simp⟩
    · rw [loopN_succ_cont c es n hw (by simpa using h)]
      exact ⟨_, rfl⟩
  · obtain ⟨-, -, hl, hs⟩ := frame_eq_some c fuel s o h
    rw [hl, hs, List.filterMap_cons]
    simpa [Event.clockArg] using loopN_clockArgs c s.opts.emulateSound fuel (c.startFrame s.hw)

theorem clock_once_per_step_witness :
    ∃ o : FrameOut toySorts, frame toy 2 nes0 = some o
      ∧ o.steps.map StepRec.cost = [2, 2]
      ∧ o.log.filterMap Event.clockArg = [2, 2] :=
  ⟨_, rfl, rfl,
    ((clock_once_per_step toy true nes0.hw).2.2.2.2.2.2.2 2 nes0 _ rfl).trans rfl⟩

/-! ### The exact end of the frame -/

theorem spriteZero_signal (c : Collab S) (hflag : ∀ (f : Nat) (v : Bool), KeepsSignal (c.setStatusFlag f v))
    (hw : HW S) (hreq : hw.ppu.requestEndFrame = true) :
    (spriteZero c hw).hw.ppu.requestEndFrame = hw.ppu.requestEndFrame
      ∧ (spriteZero c hw).hw.ppu.nmiCounter = hw.ppu.nmiCounter := by
  unfold spriteZero
  split_ifs
  · exact hflag _ _ hw hreq
  · exact ⟨rfl, rfl⟩

theorem advance_signal (c : Collab S) (hend : KeepsSignal c.endScanline) (hw : HW S)
    (hreq : hw.ppu.requestEndFrame = true) :
    (advance c hw).hw.ppu.requestEndFrame = hw.ppu.requestEndFrame
      ∧ (advance c hw).hw.ppu.nmiCounter = hw.ppu.nmiCounter := by
  unfold advance
  simp only
  split_ifs
  · exact hend _ hreq
  · exact ⟨rfl, rfl⟩

/-- One dot with the signal raised and no collaborator touching it: the dot
ends the frame exactly when the counter stands at 1, and otherwise leaves
the signal raised with the counter one lower. -/
theorem dot_signal (c : Collab S)
    (hflag : ∀ (f : Nat) (v : Bool), KeepsSignal (c.setStatusFlag f v))
    (hend : KeepsSignal c.endScanline) (hw : HW S)
    (hreq : hw.ppu.requestEndFrame = true) :
    (hw.ppu.nmiCounter = 1 → (dot c hw).ended = true)
      ∧ (hw.ppu.nmiCounter ≠ 1 →
          (dot c hw).ended = false ∧ (dot c hw).hw.ppu.requestEndFrame = true
            ∧ (dot c hw).hw.ppu.nmiCounter = hw.ppu.nmiCounter - 1) := by
  obtain ⟨s1, s2⟩ := spriteZero_signal c hflag hw hreq
  rw [hreq] at s1
  refine ⟨fun h1 => ?_, fun h1 => ?_⟩
  · rw [dot_of_end c hw s1 (by rw [s2, h1]; rfl)]
  · have e2 : (spriteZero c hw).hw.ppu.nmiCounter - 1 ≠ 0 := by
      rw [s2]
      omega
    rw [dot_of_pending c hw s1 e2]
    obtain ⟨a1, a2⟩ := advance_signal c hend ((spriteZero c hw).hw.setPPU
      { (spriteZero c hw).hw.ppu with
        nmiCounter := (spriteZero c hw).hw.ppu.nmiCounter - 1 }) s1
    refine ⟨rfl, ?_, ?_⟩
    · show (advance c _).hw.ppu.requestEndFrame = true
      rw [a1]
      exact s1
    · show (advance c _).hw.ppu.nmiCounter = _
      rw [a2]
      show (spriteZero c hw).hw.ppu.nmiCounter - 1 = _
      rw [s2]

theorem dotLoop_signal (c : Collab S)
    (hflag : ∀ (f : Nat) (v : Bool), KeepsSignal (c.setStatusFlag f v))
    (hend : KeepsSignal c.endScanline) (n : Nat) (hw : HW S)
    (hreq : hw.ppu.requestEndFrame = true) :
    ((1 ≤ hw.ppu.nmiCounter ∧ hw.ppu.nmiCounter ≤ n) →
        (dotLoop c n hw).ended = true ∧ ((dotLoop c n hw).ran : Int) = hw.ppu.nmiCounter)
      ∧ (¬ (1 ≤ hw.ppu.nmiCounter ∧ hw.ppu.nmiCounter ≤ n) →
        (dotLoop c n hw).ended = false ∧ (dotLoop c n hw).ran = n
          ∧ (dotLoop c n hw).hw.ppu.requestEndFrame = true
          ∧ (dotLoop c n hw).hw.ppu.nmiCounter = hw.ppu.nmiCounter - n) := by
  induction n generalizing hw with
  | zero =>
    refine ⟨fun h => ?_, fun _ => ?_⟩
    · have := h.1
      have := h.2
      simp at *
      omega
    · simp [dotLoop, hreq]
  | succ n ih =>
    obtain ⟨d1, d2⟩ := dot_signal c hflag hend hw hreq
    by_cases hk : hw.ppu.nmiCounter = 1
    · have he := d1 hk
      rw [dotLoop_succ_end c n hw he]
      refine ⟨fun _ => ⟨rfl, by simp [hk]⟩, fun h => ?_⟩
      exact absurd ⟨by omega, by rw [hk]; push_cast; omega⟩ h
    · obtain ⟨e0, e1, e2⟩ := d2 hk
      rw [dotLoop_succ_cont c n hw e0]
      obtain ⟨i1, i2⟩ := ih (dot c hw).hw e1
      rw [e2] at i1 i2
      refine ⟨fun h => ?_, fun h => ?_⟩
      · have hh : 1 ≤ hw.ppu.nmiCounter - 1 ∧ hw.ppu.nmiCounter - 1 ≤ (n : Int) := by
          have := h.1
          have := h.2
          push_cast at *
          omega
        obtain ⟨j1, j2⟩ := i1 hh
        refine ⟨j1, ?_⟩
        show (((dotLoop c n (dot c hw).hw).ran + 1 : Nat) : Int) = _
        push_cast
        omega
      · have hh : ¬ (1 ≤ hw.ppu.nmiCounter - 1 ∧ hw.ppu.nmiCounter - 1 ≤ (n : Int)) := by
          intro hc
          apply h
          have := hc.1
          have := hc.2
          push_cast
          omega
        obtain ⟨j1, j2, j3, j4⟩ := i2 hh
        refine ⟨j1, by show _ + 1 = _; rw [j2], j3, ?_⟩
        show (dotLoop c n (dot c hw).hw).hw.ppu.nmiCounter = _
        rw [j4]
        push_cast
        ring

theorem cpuStep_signal (c : Collab S) (es : Bool)
    (hemu : KeepsSignal (fun hw => (c.emulate hw).2))
    (hclk : ∀ n : Nat, KeepsSignal (c.clockFrameCounter n)) (hw : HW S)
    (hreq : hw.ppu.requestEndFrame = true) :
    (cpuStep c es hw).hw.ppu.requestEndFrame = hw.ppu.requestEndFrame
      ∧ (cpuStep c es hw).hw.ppu.nmiCounter = hw.ppu.nmiCounter := by
  have hk : ∀ (n : Nat) (hw0 : HW S), hw0.ppu.requestEndFrame = true →
      (clockIf c es n hw0).hw.ppu.requestEndFrame = hw0.ppu.requestEndFrame
        ∧ (clockIf c es n hw0).hw.ppu.nmiCounter = hw0.ppu.nmiCounter := by
    intro n hw0 h0
    unfold clockIf
    split_ifs
    · exact hclk n hw0 h0
    · exact ⟨rfl, rfl⟩
  unfold cpuStep
  split_ifs
  · obtain ⟨b1, b2⟩ := hemu hw hreq
    obtain ⟨a1, a2⟩ := hk (c.emulate hw).1 (c.emulate hw).2 (b1.trans hreq)
    exact ⟨a1.trans b1, a2.trans b2⟩
  · exact hk _ _ hreq
  · exact hk _ _ hreq

/-- The frame loop from a state with the signal raised, the counter at `k`
and no collaborator touching either: if it has ended, `k` is at least 1 and
exactly `k` dots were processed; if not, the signal is still raised, the
counter has dropped by the dots processed, and fewer than `k` dots were
processed when `k` is at least 1. -/
theorem loopN_signal (c : Collab S) (es : Bool)
    (hemu : KeepsSignal (fun hw => (c.emulate hw).2))
    (hclk : ∀ n : Nat, KeepsSignal (c.clockFrameCounter n))
    (hflag : ∀ (f : Nat) (v : Bool), KeepsSignal (c.setStatusFlag f v))
    (hend : KeepsSignal c.endScanline) (fuel : Nat) (hw : HW S)
    (hreq : hw.ppu.requestEndFrame = true) :
    ((loopN c es fuel hw).ended = true →
        1 ≤ hw.ppu.nmiCounter
          ∧ (dotCount (loopN c es fuel hw).log : Int) = hw.ppu.nmiCounter)
      ∧ ((loopN c es fuel hw).ended = false →
        (loopN c es fuel hw).hw.ppu.requestEndFrame = true
          ∧ (loopN c es fuel hw).hw.ppu.nmiCounter
              = hw.ppu.nmiCounter - dotCount (loopN c es fuel hw).log
          ∧ (1 ≤ hw.ppu.nmiCounter →
              (dotCount (loopN c es fuel hw).log : Int) < hw.ppu.nmiCounter)) := by
  induction fuel generalizing hw with
  | zero =>
    refine ⟨fun h => by simp [loopN] at h, fun _ => ?_⟩
    simp only [loopN, dotCount, List.countP_nil]
    exact ⟨hreq, by simp, fun h => by simpa using h⟩
  | succ fuel ih =>
    obtain ⟨s1, s2⟩ := cpuStep_signal c es hemu hclk hw hreq
    rw [hreq] at s1
    obtain ⟨d1, d2⟩ := dotLoop_signal c hflag hend (cpuStep c es hw).cycles _ s1
    rw [s2] at d1 d2
    have hz := cpuStep_dotCount c es hw
    have hr := (dotLoop_ran c (cpuStep c es hw).cycles (cpuStep c es hw).hw).1
    by_cases hk : 1 ≤ hw.ppu.nmiCounter ∧ hw.ppu.nmiCounter ≤ ((cpuStep c es hw).cycles : Int)
    · obtain ⟨e1, e2⟩ := d1 hk
      rw [loopN_succ_end c es fuel hw e1]
      refine ⟨fun _ => ⟨hk.1, ?_⟩, fun h => by simp at h⟩
      simp only [dotCount_append, hz, hr, zero_add]
      exact e2
    · obtain ⟨e0, e1, e2, e3⟩ := d2 hk
      rw [loopN_succ_cont c es fuel hw e0]
      obtain ⟨i1, i2⟩ := ih (dotLoop c (cpuStep c es hw).cycles (cpuStep c es hw).hw).hw e2
      rw [e3] at i1 i2
      simp only [dotCount_append, hz, hr, zero_add, e1]
      refine ⟨fun h => ?_, fun h => ?_⟩
      · obtain ⟨j1, j2⟩ := i1 h
        refine ⟨by omega, ?_⟩
        push_cast
        omega
      · obtain ⟨j1, j2, j3⟩ := i2 h
        refine ⟨j1, ?_, fun hp => ?_⟩
        · rw [j2]
          push_cast
          ring
        · push_cast
          by_cases hq : 1 ≤ hw.ppu.nmiCounter - ((cpuStep c es hw).cycles : Int)
          · have := j3 hq
            omega
          · exact absurd ⟨hp, by omega⟩ hk

theorem cpuStep_cycles_pos (c : Collab S) (es : Bool) (hw : HW S)
    (hpos : ∀ hw0 : HW S, 1 ≤ (c.emulate hw0).1) : 1 ≤ (cpuStep c es hw).cycles := by
  rw [cpuStep_cycles, cpuStep_cost]
  split_ifs with h
  · have := hpos hw
    omega
  · omega

theorem loopN_dots_ge (c : Collab S) (es : Bool)
    (hpos : ∀ hw0 : HW S, 1 ≤ (c.emulate hw0).1) (fuel : Nat) (hw : HW S)
    (hne : (loopN c es fuel hw).ended = false) :
    fuel ≤ dotCount (loopN c es fuel hw).log := by
  induction fuel generalizing hw with
  | zero => exact Nat.zero_le _
  | succ fuel ih =>
    by_cases hd : (dotLoop c (cpuStep c es hw).cycles (cpuStep c es hw).hw).ended = true
    · rw [loopN_succ_end c es fuel hw hd] at hne
      simp at hne
    · have hd0 : (dotLoop c (cpuStep c es hw).cycles (cpuStep c es hw).hw).ended = false := by
        simpa using hd
      rw [loopN_succ_cont c es fuel hw hd0] at hne ⊢
      obtain ⟨r1, -, r3, -⟩ := dotLoop_ran c (cpuStep c es hw).cycles (cpuStep c es hw).hw
      have := ih _ hne
      have := cpuStep_cycles_pos c es hw hpos
      simp only [dotCount_append, cpuStep_dotCount, r1, r3 hd0, zero_add]
      omega

theorem dot_pending_state (c : Collab S) (hw : HW S)
    (h1 : (spriteZero c hw).hw.ppu.requestEndFrame = true)
    (h2 : (dot c hw).ended = false) :
    (dot c hw).hw =
      if (spriteZero c hw).hw.ppu.curX + 1 = 341 then
        c.endScanline ((spriteZero c hw).hw.setPPU
          { (spriteZero c hw).hw.ppu with
            nmiCounter := (spriteZero c hw).hw.ppu.nmiCounter - 1, curX := 0 })
      else
        (spriteZero c hw).hw.setPPU
          { (spriteZero c hw).hw.ppu with
            nmiCounter := (spriteZero c hw).hw.ppu.nmiCounter - 1,
            curX := (spriteZero c hw).hw.ppu.curX + 1 } := by
  by_cases e2 : (spriteZero c hw).hw.ppu.nmiCounter - 1 = 0
  · rw [dot_of_end c hw h1 e2] at h2
    simp at h2
  · rw [dot_of_pending c hw h1 e2]
    show (advance c _).hw = _
    unfold advance
    simp only [HW.setPPU]
    split_ifs <;> rfl

theorem spriteZero_curX (c : Collab S)
    (hfx : ∀ (f : Nat) (v : Bool) (hw0 : HW S), hw0.ppu.requestEndFrame = true →
      (c.setStatusFlag f v hw0).ppu.curX = hw0.ppu.curX)
    (hw : HW S) (hreq : hw.ppu.requestEndFrame = true) :
    (spriteZero c hw).hw.ppu.curX = hw.ppu.curX := by
  unfold spriteZero
  split_ifs
  · exact hfx _ _ hw hreq
  · rfl

theorem dot_curX (c : Collab S)
    (hflag : ∀ (f : Nat) (v : Bool), KeepsSignal (c.setStatusFlag f v))
    (hfx : ∀ (f : Nat) (v : Bool) (hw0 : HW S), hw0.ppu.requestEndFrame = true →
      (c.setStatusFlag f v hw0).ppu.curX = hw0.ppu.curX)
    (hex : ∀ hw0 : HW S, hw0.ppu.requestEndFrame = true →
      (c.endScanline hw0).ppu.curX = hw0.ppu.curX)
    (hw : HW S) (hreq : hw.ppu.requestEndFrame = true)
    (hne : (dot c hw).ended = false)
    (h0 : 0 ≤ hw.ppu.curX) (h1 : hw.ppu.curX ≤ 340) :
    (dot c hw).hw.ppu.curX = (hw.ppu.curX + 1) % 341 := by
  obtain ⟨s1, -⟩ := spriteZero_signal c hflag hw hreq
  rw [hreq] at s1
  have sx := spriteZero_curX c hfx hw hreq
  rw [dot_pending_state c hw s1 hne, sx]
  split_ifs with h
  · have hx := hex ((spriteZero c hw).hw.setPPU
      { (spriteZero c hw).hw.ppu with
        nmiCounter := (spriteZero c hw).hw.ppu.nmiCounter - 1, curX := 0 }) s1
    rw [hx]
    show (0 : Int) = _
    omega
  · show hw.ppu.curX + 1 = _
    omega

theorem dotLoop_curX (c : Collab S)
    (hflag : ∀ (f : Nat) (v : Bool), KeepsSignal (c.setStatusFlag f v))
    (hend : KeepsSignal c.endScanline)
    (hfx : ∀ (f : Nat) (v : Bool) (hw0 : HW S), hw0.ppu.requestEndFrame = true →
      (c.setStatusFlag f v hw0).ppu.curX = hw0.ppu.curX)
    (hex : ∀ hw0 : HW S, hw0.ppu.requestEndFrame = true →
      (c.endScanline hw0).ppu.curX = hw0.ppu.curX)
    (n : Nat) (hw : HW S) (hreq : hw.ppu.requestEndFrame = true)
    (hn : (n : Int) < hw.ppu.nmiCounter)
    (h0 : 0 ≤ hw.ppu.curX) (h1 : hw.ppu.curX ≤ 340) :
    (dotLoop c n hw).hw.ppu.curX = (hw.ppu.curX + n) % 341 := by
  induction n generalizing hw with
  | zero =>
    show hw.ppu.curX = _
    push_cast
    omega
  | succ n ih =>
    push_cast at hn
    obtain ⟨e0, e1, e2⟩ := (dot_signal c hflag hend hw hreq).2 (by omega)
    have ex := dot_curX c hflag hfx hex hw hreq e0 h0 h1
    rw [dotLoop_succ_cont c n hw e0]
    show (dotLoop c n (dot c hw).hw).hw.ppu.curX = _
    rw [ih (dot c hw).hw e1 (by rw [e2]; omega) (by rw [ex]; omega) (by rw [ex]; omega), ex]
    push_cast
    omega

/-- C19: let `requestEndFrame` be true with `nmiCounter = k` at some dot,
and let no collaborator call made while the signal is raised change
either.  For `k >= 1` the dot loop runs `k - 1` dots that do not end the
frame and ends the frame on the `k`-th; across batches, the frame loop has
ended only when exactly `k` dots were processed, and it does end when
`cpu.emulate()` reports at least one cycle.  For `k <= 0` the counter only
moves further below zero and neither the dot loop nor the frame loop ever
ends.  A dot that finds the signal raised and does not end the frame
writes `curX + 1` to `curX`, or `0` followed by `ppu.endScanline()` when
that is 341; so when `setStatusFlag` and `endScanline` leave `curX` alone
and `curX` starts within 0..340, it is `(curX + n) mod 341` after `n < k`
dots. -/
theorem end_of_frame_position (c : Collab S) (es : Bool)
    (hemu : KeepsSignal (fun hw => (c.emulate hw).2))
    (hclk : ∀ n : Nat, KeepsSignal (c.clockFrameCounter n))
    (hflag : ∀ (f : Nat) (v : Bool), KeepsSignal (c.setStatusFlag f v))
    (hend : KeepsSignal c.endScanline) (hw : HW S)
    (hreq : hw.ppu.requestEndFrame = true) :
    (1 ≤ hw.ppu.nmiCounter →
        (∀ n : Nat, (n : Int) < hw.ppu.nmiCounter →
            (dotLoop c n hw).ended = false ∧ (dotLoop c n hw).ran = n
              ∧ (dotLoop c n hw).hw.ppu.requestEndFrame = true
              ∧ (dotLoop c n hw).hw.ppu.nmiCounter = hw.ppu.nmiCounter - n)
          ∧ (∀ n : Nat, hw.ppu.nmiCounter ≤ n →
              (dotLoop c n hw).ended = true
                ∧ ((dotLoop c n hw).ran : Int) = hw.ppu.nmiCounter)
          ∧ (∀ fuel : Nat, (loopN c es fuel hw).ended = true →
              (dotCount (loopN c es fuel hw).log : Int) = hw.ppu.nmiCounter)
          ∧ (∀ fuel : Nat, (loopN c es fuel hw).ended = false →
              (dotCount (loopN c es fuel hw).log : Int) < hw.ppu.nmiCounter)
          ∧ ((∀ hw0 : HW S, 1 ≤ (c.emulate hw0).1) →
              (loopN c es hw.ppu.nmiCounter.toNat hw).ended = true))
      ∧ (hw.ppu.nmiCounter ≤ 0 →
        (∀ n : Nat, (dotLoop c n hw).ended = false
            ∧ (dotLoop c n hw).hw.ppu.nmiCounter = hw.ppu.nmiCounter - n)
          ∧ (∀ fuel : Nat, (loopN c es fuel hw).ended = false
              ∧ (loopN c es fuel hw).hw.ppu.nmiCounter
                  = hw.ppu.nmiCounter - dotCount (loopN c es fuel hw).log))
      ∧ (∀ hw0 : HW S, (spriteZero c hw0).hw.ppu.requestEndFrame = true →
          (dot c hw0).ended = false →
          (dot c hw0).hw =
            if (spriteZero c hw0).hw.ppu.curX + 1 = 341 then
              c.endScanline ((spriteZero c hw0).hw.setPPU
                { (spriteZero c hw0).hw.ppu with
                  nmiCounter := (spriteZero c hw0).hw.ppu.nmiCounter - 1, curX := 0 })
            else
              (spriteZero c hw0).hw.setPPU
                { (spriteZero c hw0).hw.ppu with
                  nmiCounter := (spriteZero c hw0).hw.ppu.nmiCounter - 1,
                  curX := (spriteZero c hw0).hw.ppu.curX + 1 })
      ∧ ((∀ (f : Nat) (v : Bool) (hw0 : HW S), hw0.ppu.requestEndFrame = true →
            (c.setStatusFlag f v hw0).ppu.curX = hw0.ppu.curX) →
          (∀ hw0 : HW S, hw0.ppu.requestEndFrame = true →
            (c.endScanline hw0).ppu.curX = hw0.ppu.curX) →
          0 ≤ hw.ppu.curX → hw.ppu.curX ≤ 340 →
          ∀ n : Nat, (n : Int) < hw.ppu.nmiCounter →
            (dotLoop c n hw).hw.ppu.curX = (hw.ppu.curX + n) % 341) := by
  refine ⟨fun hk => ⟨fun n hn => ?_, fun n hn => ?_, fun fuel he => ?_, fun fuel hne => ?_,
      fun hpos => ?_⟩,
    fun hk => ⟨fun n => ?_, fun fuel => ?_⟩, dot_pending_state c,
    fun hfx hex h0 h1 n hn => dotLoop_curX c hflag hend hfx hex n hw hreq hn h0 h1⟩
  · exact (dotLoop_signal c hflag hend n hw hreq).2 (fun h => by omega)
  · exact (dotLoop_signal c hflag hend n hw hreq).1 ⟨hk, hn⟩
  · exact ((loopN_signal c es hemu hclk hflag hend fuel hw hreq).1 he).2
  · exact ((loopN_signal c es hemu hclk hflag hend fuel hw hreq).2 hne).2.2 hk
  · by_contra hne
    have hne0 : (loopN c es hw.ppu.nmiCounter.toNat hw).ended = false := by simpa using hne
    have h1 := ((loopN_signal c es hemu hclk hflag hend _ hw hreq).2 hne0).2.2 hk
    have h2 := loopN_dots_ge c es hpos _ hw hne0
    have h3 : ((hw.ppu.nmiCounter.toNat : Nat) : Int) = hw.ppu.nmiCounter :=
      Int.toNat_of_nonneg (by omega)
    omega
  · obtain ⟨j1, -, -, j4⟩ := (dotLoop_signal c hflag hend n hw hreq).2 (fun h => by omega)
    exact ⟨j1, j4⟩
  · have hne : (loopN c es fuel hw).ended = false := by
      by_contra he
      have := ((loopN_signal c es hemu hclk hflag hend fuel hw hreq).1 (by simpa using he)).1
      omega
    exact ⟨hne, ((loopN_signal c es hemu hclk hflag hend fuel hw hreq).2 hne).2.1⟩

theorem toy_endScanline_keeps : KeepsSignal toy.endScanline := by
  intro hw h
  show (if hw.ppu.requestEndFrame = true then _ else _ : HW toySorts).ppu.requestEndFrame = _
    ∧ (if hw.ppu.requestEndFrame = true then _ else _ : HW toySorts).ppu.nmiCounter = _
  rw [if_pos h]
  exact ⟨rfl, rfl⟩

theorem toy_endScanline_curX (hw : HW toySorts) (_h : hw.ppu.requestEndFrame = true) :
    (toy.endScanline hw).ppu.curX = hw.ppu.curX := by
  show (if hw.ppu.requestEndFrame = true then _ else _ : HW toySorts).ppu.curX = _
  split_ifs
  · rfl

theorem end_of_frame_position_witness :
    (hwSignal 339 3).ppu.requestEndFrame = true
      ∧ (dotLoop toy 2 (hwSignal 339 3)).ended = false
      ∧ (dotLoop toy 2 (hwSignal 339 3)).hw.ppu.curX = (339 + 2) % 341
      ∧ (dotLoop toy 6 (hwSignal 339 3)).ended = true
      ∧ ((dotLoop toy 6 (hwSignal 339 3)).ran : Int) = 3
      ∧ (loopN toy true 3 (hwSignal 339 3)).ended = true
      ∧ (loopN toy true 5 (hwSignal 339 0)).ended = false
      ∧ (toy.endScanline (hwSignal 339 3).clearSignal).ppu.requestEndFrame = true :=
  have h := fun (k : Int) (hr : (hwSignal 339 k).ppu.requestEndFrame = true) =>
    end_of_frame_position toy true (fun _ _ => ⟨rfl, rfl⟩) (fun _ _ _ => ⟨rfl, rfl⟩)
      (fun _ _ _ _ => ⟨rfl, rfl⟩) toy_endScanline_keeps (hwSignal 339 k) hr
  ⟨rfl,
   (((h 3 rfl).1 (by decide)).1 2 (by decide)).1,
   (h 3 rfl).2.2.2 (fun _ _ _ _ => rfl) toy_endScanline_curX (by decide) (by decide) 2
     (by decide),
   (((h 3 rfl).1 (by decide)).2.1 6 (by decide)).1,
   (((h 3 rfl).1 (by decide)).2.1 6 (by decide)).2,
   ((h 3 rfl).1 (by decide)).2.2.2.2 (fun _ => by show 1 ≤ 2; omega),
   (((h 0 rfl).2.1 (by decide)).2 5).1,
   rfl⟩

/-! ### Double arithmetic -/

theorem roundHalfEven_eq (x : ℚ) (m : Int) (h1 : (m : ℚ) - 1 / 2 < x)
    (h2 : x < m + 1 / 2) : roundHalfEven x = m := by
  unfold roundHalfEven
  have hf1 : (⌊x⌋ : ℚ) ≤ x := Int.floor_le x
  have hf2 : x < ⌊x⌋ + 1 := Int.lt_floor_add_one x
  split_ifs with a b c
  · have g1 : (m : ℚ) < ((⌊x⌋ + 1 : ℤ) : ℚ) := by push_cast; linarith
    have g2 : ((⌊x⌋ : ℤ) : ℚ) < ((m + 1 : ℤ) : ℚ) := by push_cast; linarith
    have h3 : m < ⌊x⌋ + 1 := by exact_mod_cast g1
    have h4 : ⌊x⌋ < m + 1 := by exact_mod_cast g2
    omega
  · have g1 : ((⌊x⌋ : ℤ) : ℚ) < m := by linarith
    have g2 : (m : ℚ) < ((⌊x⌋ + 2 : ℤ) : ℚ) := by push_cast; linarith
    have h5 : ⌊x⌋ < m := by exact_mod_cast g1
    have h6 : m < ⌊x⌋ + 2 := by exact_mod_cast g2
    omega
  · exfalso
    have e : x - ⌊x⌋ = 1 / 2 := le_antisymm (not_lt.1 b) (not_lt.1 a)
    have g1 : ((m - 1 : ℤ) : ℚ) < ⌊x⌋ := by push_cast; linarith
    have g2 : ((⌊x⌋ : ℤ) : ℚ) < m := by linarith
    have h5 : m - 1 < ⌊x⌋ := by exact_mod_cast g1
    have h6 : ⌊x⌋ < m := by exact_mod_cast g2
    omega
  · exfalso
    have e : x - ⌊x⌋ = 1 / 2 := le_antisymm (not_lt.1 b) (not_lt.1 a)
    have g1 : ((m - 1 : ℤ) : ℚ) < ⌊x⌋ := by push_cast; linarith
    have g2 : ((⌊x⌋ : ℤ) : ℚ) < m := by linarith
    have h5 : m - 1 < ⌊x⌋ := by exact_mod_cast g1
    have h6 : ⌊x⌋ < m := by exact_mod_cast g2
    omega

theorem roundHalfEven_ge_floor (x : ℚ) : ⌊x⌋ ≤ roundHalfEven x := by
  unfold roundHalfEven
  split_ifs <;> omega

theorem log2_eq (q : ℚ) (k : Int) (h0 : 0 < q) (h1 : (2 : ℚ) ^ k ≤ q)
    (h2 : q < (2 : ℚ) ^ (k + 1)) : Int.log 2 q = k := by
  apply le_antisymm
  · have := (Int.lt_zpow_iff_log_lt (b := 2) (by norm_num) h0).1 h2
    omega
  · exact (Int.zpow_le_iff_le_log (b := 2) (by norm_num) h0).1 h1

/-- The double nearest to a positive rational `q` in the binade
`[2 ^ k, 2 ^ (k + 1))` is `m * 2 ^ (k - 52)` for the integer `m` within
1/2 of `q / 2 ^ (k - 52)`. -/
theorem roundDouble_eq (q : ℚ) (k m : Int) (h0 : 0 < q) (h1 : (2 : ℚ) ^ k ≤ q)
    (h2 : q < (2 : ℚ) ^ (k + 1)) (he : -1074 ≤ k - 52)
    (hm1 : (m : ℚ) - 1 / 2 < q / (2 : ℚ) ^ (k - 52))
    (hm2 : q / (2 : ℚ) ^ (k - 52) < m + 1 / 2)
    (hfin : (m : ℚ) * (2 : ℚ) ^ (k - 52) < (2 : ℚ) ^ (1024 : ℤ)) :
    roundDouble q = JSNum.num ((m : ℚ) * (2 : ℚ) ^ (k - 52)) := by
  have hexp : doubleExp q = k - 52 := by
    unfold doubleExp
    rw [log2_eq q k h0 h1 h2]
    exact max_eq_left he
  unfold roundDouble
  rw [if_neg (ne_of_gt h0), if_pos h0]
  unfold roundPos
  rw [hexp, roundHalfEven_eq _ m hm1 hm2, if_neg (not_le.2 hfin)]

/-- A positive rational that is at least the least positive double rounds
to a positive double or to `Infinity`. -/
theorem roundPos_pos (q : ℚ) (h0 : 0 < q) (hq : (2 : ℚ) ^ (-1074 : ℤ) ≤ q) :
    roundPos q = JSNum.posInf ∨ ∃ v : ℚ, 0 < v ∧ roundPos q = JSNum.num v := by
  have hp : (0 : ℚ) < (2 : ℚ) ^ doubleExp q := zpow_pos (by norm_num) _
  have hle : (2 : ℚ) ^ doubleExp q ≤ q := by
    unfold doubleExp
    rcases max_cases (Int.log 2 q - 52) (-1074) with ⟨e, -⟩ | ⟨e, -⟩
    · rw [e]
      calc (2 : ℚ) ^ (Int.log 2 q - 52) ≤ (2 : ℚ) ^ Int.log 2 q :=
            zpow_le_zpow_right₀ (by norm_num) (by omega)
        _ ≤ q := Int.zpow_log_le_self (by norm_num) h0
    · rw [e]
      exact hq
  have hx : (1 : ℚ) ≤ q / (2 : ℚ) ^ doubleExp q := by
    rw [le_div_iff₀ hp]
    simpa using hle
  have hfl : (1 : ℤ) ≤ ⌊q / (2 : ℚ) ^ doubleExp q⌋ := Int.le_floor.2 (by simpa using hx)
  have hm : (1 : ℤ) ≤ roundHalfEven (q / (2 : ℚ) ^ doubleExp q) :=
    le_trans hfl (roundHalfEven_ge_floor _)
  unfold roundPos
  split_ifs
  · exact Or.inl rfl
  · refine Or.inr ⟨_, ?_, rfl⟩
    have : (0 : ℚ) < (roundHalfEven (q / (2 : ℚ) ^ doubleExp q) : ℚ) := by
      exact_mod_cast (by omega : (0 : ℤ) < roundHalfEven (q / (2 : ℚ) ^ doubleExp q))
    positivity

theorem jsDiv_zero_left (b : ℚ) (h : b ≠ 0) : jsDiv 0 b = JSNum.num 0 := by
  unfold jsDiv roundDouble
  rw [if_neg h, if_pos (by simp)]

/-- A positive whole number of milliseconds, divided by 1000, is a positive
double or `Infinity`. -/
theorem jsDiv_millis (k : ℚ) (hk : 1 ≤ k) :
    jsDiv k 1000 = JSNum.posInf ∨ ∃ v : ℚ, 0 < v ∧ jsDiv k 1000 = JSNum.num v := by
  have h0 : (0 : ℚ) < k / 1000 := by positivity
  have h1 : (2 : ℚ) ^ (-1074 : ℤ) ≤ k / 1000 := by
    have h2 : (2 : ℚ) ^ (-1074 : ℤ) ≤ (2 : ℚ) ^ (-10 : ℤ) :=
      zpow_le_zpow_right₀ (by norm_num) (by norm_num)
    have h3 : (2 : ℚ) ^ (-10 : ℤ) ≤ 1 / 1000 := by norm_num
    have h4 : (1 : ℚ) / 1000 ≤ k / 1000 := by
      apply div_le_div_of_nonneg_right hk (by norm_num)
    linarith
  unfold jsDiv roundDouble
  rw [if_neg (by norm_num), if_neg (ne_of_gt h0), if_pos h0]
  exact roundPos_pos _ h0 h1

/-! ### FPS measurement -/

theorem frames_count (c : Collab S) (fuel n : Nat) (s r : NES S)
    (h : frames c fuel n s = some r) :
    r.fpsFrameCount = s.fpsFrameCount + n ∧ r.lastFpsTime = s.lastFpsTime := by
  induction n generalizing s with
  | zero =>
    simp only [frames, Option.some.injEq] at h
    subst h
    exact ⟨rfl, rfl⟩
  | succ n ih =>
    simp only [frames] at h
    cases hf : frame c fuel s with
    | none => rw [hf] at h; simp at h
    | some o =>
      rw [hf] at h
      obtain ⟨-, hn, -, -⟩ := frame_eq_some c fuel s o hf
      obtain ⟨i1, i2⟩ := ih o.nes h
      rw [hn] at i1 i2
      exact ⟨by rw [i1]; simp only; omega, i2⟩

theorem getFPS_of_time (now t : Nat) (s : NES S) (hl : s.lastFpsTime = some t) (ht : t ≠ 0) :
    (getFPS now s).fps
      = some (jsDivN (s.fpsFrameCount : ℚ) (jsDiv ((now : ℚ) - (t : ℚ)) 1000)) := by
  unfold getFPS
  simp only [hl]
  rw [if_pos ht]

theorem getFPS_after_frames (c : Collab S) (fuel F t0 t1 : Nat) (s r : NES S)
    (h0 : t0 ≠ 0) (hf : frames c fuel F (getFPS t0 s).nes = some r) :
    (getFPS t1 r).fps = some (jsDivN (F : ℚ) (jsDiv ((t1 : ℚ) - (t0 : ℚ)) 1000)) := by
  obtain ⟨e1, e2⟩ := frames_count c fuel F _ r hf
  have e3 : r.lastFpsTime = some t0 := e2
  have e4 : r.fpsFrameCount = F := by
    rw [e1]
    show 0 + F = F
    omega
  rw [getFPS_of_time t1 t0 r e3 h0, e4]

theorem jsDivN_7_140 :
    jsDivN ((7 : Nat) : ℚ) (jsDiv (((145 : Nat) : ℚ) - ((5 : Nat) : ℚ)) 1000)
      = JSNum.num (7036874417766399 / 140737488355328) := by
  have h1 : jsDiv (((145 : Nat) : ℚ) - ((5 : Nat) : ℚ)) 1000
      = JSNum.num (1261007895663739 / 9007199254740992) := by
    unfold jsDiv
    rw [if_neg (by norm_num),
      roundDouble_eq _ (-3) 5044031582654956 (by norm_num) (by norm_num) (by norm_num)
        (by norm_num) (by norm_num) (by norm_num) (by norm_num)]
    norm_num
  rw [h1]
  show jsDiv _ _ = _
  unfold jsDiv
  rw [if_neg (by norm_num),
    roundDouble_eq _ 5 7036874417766399 (by norm_num) (by norm_num) (by norm_num)
      (by norm_num) (by norm_num) (by norm_num) (by norm_num)]
  norm_num

/-- C14 as stated fails: a `getFPS()` call, 7 completed `frame()` calls and
a `getFPS()` call 140 ms later: the second call returns the double
49.99999999999999, the rounded quotient of 7 by the double 0.14, not
F / T = 50. -/
theorem getFPS_rounds :
    ∃ r : NES toySorts, frames toy 2 7 (getFPS 5 nes0).nes = some r
      ∧ (getFPS 145 r).fps = some (JSNum.num (7036874417766399 / 140737488355328))
      ∧ (7036874417766399 / 140737488355328 : ℚ)
          ≠ (7 : ℚ) / ((((145 : Nat) : ℚ) - ((5 : Nat) : ℚ)) / 1000) := by
  obtain ⟨r, hr⟩ : ∃ r : NES toySorts, frames toy 2 7 (getFPS 5 nes0).nes = some r :=
    ⟨_, rfl⟩
  refine ⟨r, hr, ?_, by norm_num⟩
  rw [getFPS_after_frames toy 2 7 5 145 nes0 r (by decide) hr, jsDivN_7_140]

/-- C14, amended: `getFPS()` over an explicit clock `now`.  A call on a
console whose `lastFpsTime` is unset, as after construction and after
`reset()`, returns `null`; every call sets `fpsFrameCount` to 0 and
`lastFpsTime` to `now`; and a call at `t1`, made after a call at a nonzero
timestamp `t0 < t1` with `F` completed `frame()` calls in between, returns
the double quotient of `F` by the double quotient `(t1 - t0) / 1000`, which
is a positive double (or `Infinity`). -/
theorem getFPS_window {J : Type} (c : CollabAll S J) (fuel F t0 t1 : Nat) (s r : NES S)
    (h0 : t0 ≠ 0) (hlt : t0 < t1)
    (hf : frames c.toCollab fuel F (getFPS t0 s).nes = some r) :
    (getFPS t1 r).fps = some (jsDivN (F : ℚ) (jsDiv ((t1 : ℚ) - (t0 : ℚ)) 1000))
      ∧ (jsDiv ((t1 : ℚ) - (t0 : ℚ)) 1000 = JSNum.posInf
          ∨ ∃ v : ℚ, 0 < v ∧ jsDiv ((t1 : ℚ) - (t0 : ℚ)) 1000 = JSNum.num v)
      ∧ (∀ (now : Nat) (x : NES S),
          (getFPS now x).nes = { x with fpsFrameCount := 0, lastFpsTime := some now })
      ∧ (∀ (now : Nat) (x : NES S), x.lastFpsTime = none → (getFPS now x).fps = none)
      ∧ (∀ (arg : OptsParam) (o : Sys S), construct c arg = some o →
          o.nes.lastFpsTime = none)
      ∧ (∀ x : NES S, (reset c.toCollab x).nes.lastFpsTime = none) := by
  refine ⟨?_, ?_, fun _ _ => rfl, fun now x hx => ?_, fun arg o ho => ?_, fun x => ?_⟩
  · exact getFPS_after_frames c.toCollab fuel F t0 t1 s r h0 hf
  · apply jsDiv_millis
    have : ((t0 + 1 : Nat) : ℚ) ≤ (t1 : ℚ) := by exact_mod_cast hlt
    push_cast at this
    linarith
  · unfold getFPS
    simp only [hx]
  · unfold construct at ho
    cases arg with
    | null => simp at ho
    | undefined =>
      simp only at ho
      split_ifs at ho
      rw [← Option.some.inj ho]
    | object a =>
      simp only at ho
      split_ifs at ho
      rw [← Option.some.inj ho]
  · rw [(reset_eq c.toCollab x).1]

theorem getFPS_window_witness :
    ∃ r : NES toySorts, frames toyAll.toCollab 2 3 (getFPS 5 nes0).nes = some r
      ∧ (getFPS 2005 r).fps
          = some (jsDivN ((3 : Nat) : ℚ) (jsDiv (((2005 : Nat) : ℚ) - ((5 : Nat) : ℚ)) 1000)) :=
  ⟨_, rfl, (getFPS_window toyAll 2 3 5 2005 nes0 _ (by decide) (by decide) rfl).1⟩

/-- C15 as stated fails: a `getFPS()` call at the very timestamp of a
previous call that returned a measurement divides 0 frames by 0 seconds:
the result is NaN, not 0. -/
theorem getFPS_zero_elapsed :
    (getFPS 5 { nes0 with lastFpsTime := some 3, fpsFrameCount := 7 }).fps
        = some (JSNum.num 3500)
      ∧ (getFPS 5
          (getFPS 5 { nes0 with lastFpsTime := some 3, fpsFrameCount := 7 }).nes).fps
        = some JSNum.nan := by
  refine ⟨?_, ?_⟩
  · rw [getFPS_of_time 5 3 _ rfl (by decide)]
    have h1 : jsDiv (((5 : Nat) : ℚ) - ((3 : Nat) : ℚ)) 1000
        = JSNum.num (4611686018427388 / 2305843009213693952) := by
      unfold jsDiv
      rw [if_neg (by norm_num),
        roundDouble_eq _ (-9) 4611686018427388 (by norm_num) (by norm_num) (by norm_num)
          (by norm_num) (by norm_num) (by norm_num) (by norm_num)]
      norm_num
    rw [h1]
    show some (jsDiv _ _) = _
    unfold jsDiv
    rw [if_neg (by norm_num),
      roundDouble_eq _ 11 7696581394432000 (by norm_num) (by norm_num) (by norm_num)
        (by norm_num) (by norm_num) (by norm_num) (by norm_num)]
    norm_num
  · rw [getFPS_of_time 5 5 _ rfl (by decide)]
    have h2 : jsDiv (((5 : Nat) : ℚ) - ((5 : Nat) : ℚ)) 1000 = JSNum.num 0 := by
      rw [sub_self]
      exact jsDiv_zero_left 1000 (by norm_num)
    rw [h2]
    show some (jsDiv _ 0) = _
    unfold jsDiv
    rw [if_pos rfl, if_pos (by norm_num [getFPS])]

/-- C15, amended: a `getFPS()` call made after a previous `getFPS()` call
at a nonzero timestamp, with no `frame()` in between, returns 0 when clock
time has elapsed, and NaN (0 / 0) when none has. -/
theorem getFPS_immediately (tA tB : Nat) (s : NES S) (h0 : tA ≠ 0) :
    (tA < tB → (getFPS tB (getFPS tA s).nes).fps = some (JSNum.num 0))
      ∧ (tA = tB → (getFPS tB (getFPS tA s).nes).fps = some JSNum.nan) := by
  have h := getFPS_of_time tB tA (getFPS tA s).nes rfl h0
  have hc : (((getFPS tA s).nes.fpsFrameCount : Nat) : ℚ) = 0 := by
    show ((0 : Nat) : ℚ) = 0
    norm_num
  rw [hc] at h
  refine ⟨fun hlt => ?_, fun he => ?_⟩
  · rw [h]
    have hk : (1 : ℚ) ≤ (tB : ℚ) - (tA : ℚ) := by
      have : ((tA + 1 : Nat) : ℚ) ≤ (tB : ℚ) := by exact_mod_cast hlt
      push_cast at this
      linarith
    rcases jsDiv_millis _ hk with e | ⟨v, hv, e⟩
    · rw [e]
      rfl
    · rw [e]
      show some (jsDiv 0 v) = _
      rw [jsDiv_zero_left v (ne_of_gt hv)]
  · rw [h, he, sub_self, jsDiv_zero_left 1000 (by norm_num)]
    show some (jsDiv 0 0) = _
    unfold jsDiv
    rw [if_pos rfl, if_pos rfl]

theorem getFPS_immediately_witness :
    (getFPS 9 (getFPS 5 nes0).nes).fps = some (JSNum.num 0)
      ∧ (getFPS 5 (getFPS 5 nes0).nes).fps = some JSNum.nan :=
  ⟨(getFPS_immediately 5 9 nes0 (by decide)).1 (by decide),
   (getFPS_immediately 5 5 nes0 (by decide)).2 rfl⟩

/-! ### Frame rate -/

theorem jsDiv_1000_30 :
    jsDiv 1000 30 = JSNum.num (4691249611844267 / 140737488355328) := by
  unfold jsDiv
  rw [if_neg (by norm_num),
    roundDouble_eq _ 5 4691249611844267 (by norm_num) (by norm_num) (by norm_num)
      (by norm_num) (by norm_num) (by norm_num) (by norm_num)]
  norm_num

theorem jsDiv_1000_60 :
    jsDiv 1000 60 = JSNum.num (4691249611844267 / 281474976710656) := by
  unfold jsDiv
  rw [if_neg (by norm_num),
    roundDouble_eq _ 4 4691249611844267 (by norm_num) (by norm_num) (by norm_num)
      (by norm_num) (by norm_num) (by norm_num) (by norm_num)]
  norm_num

/-- C13 as stated fails: after `setFramerate(30)` the frame interval is the
double 33.333333333333336, twice the 16.666666666666668 of a console
constructed at the default rate 60, not half of it. -/
theorem setFramerate_30_doubles :
    nesNew.opts.preferredFrameRate = 60
      ∧ nesNew.frameTime = JSNum.num (4691249611844267 / 281474976710656)
      ∧ (setFramerate toyAll 30 nesNew).nes.frameTime
          = JSNum.num (4691249611844267 / 140737488355328)
      ∧ (4691249611844267 / 140737488355328 : ℚ)
          = 2 * (4691249611844267 / 281474976710656)
      ∧ (4691249611844267 / 140737488355328 : ℚ)
          ≠ (4691249611844267 / 281474976710656) / 2 :=
  ⟨rfl, jsDiv_1000_60, jsDiv_1000_30, by norm_num, by norm_num⟩

/-- C13, amended: for every positive rate, `setFramerate(rate)` sets
`opts.preferredFrameRate` to `rate` and `frameTime` to the double quotient
`1000 / rate`, makes exactly one call
`papu.setSampleRate(opts.sampleRate, false)`, whose effect on the APU is
the only other change to the console; `setFramerate(30)` gives
33.333333333333336, twice the interval 16.666666666666668 of rate 60. -/
theorem setFramerate_spec {J : Type} (c : CollabAll S J) (rate : ℚ) (s : NES S)
    (hr : 0 < rate) :
    (setFramerate c rate s).nes =
        { s with
          opts := { s.opts with preferredFrameRate := rate },
          frameTime := roundDouble (1000 / rate),
          hw := { s.hw with
            papu := c.setSampleRate s.opts.sampleRate false
              { s.opts with preferredFrameRate := rate } s.hw.papu } }
      ∧ (setFramerate c rate s).log = [Event.setSampleRate s.opts.sampleRate false]
      ∧ (setFramerate c 30 s).nes.frameTime
          = JSNum.num (2 * (4691249611844267 / 281474976710656))
      ∧ (setFramerate c 60 s).nes.frameTime
          = JSNum.num (4691249611844267 / 281474976710656) := by
  have h1 : jsDiv 1000 rate = roundDouble (1000 / rate) := by
    unfold jsDiv
    rw [if_neg (ne_of_gt hr)]
  refine ⟨?_, rfl, ?_, jsDiv_1000_60⟩
  · unfold setFramerate
    simp only [h1]
  · show jsDiv 1000 30 = _
    rw [jsDiv_1000_30]
    norm_num

theorem setFramerate_spec_witness :
    (0 : ℚ) < 30
      ∧ (setFramerate toyAll 30 nes0).nes.opts.preferredFrameRate = 30
      ∧ (setFramerate toyAll 30 nes0).nes.frameTime = roundDouble (1000 / 30)
      ∧ (setFramerate toyAll 30 nes0).log = [Event.setSampleRate 44100 false] :=
  have h := setFramerate_spec toyAll 30 nes0 (by norm_num)
  ⟨by norm_num, by rw [h.1], by rw [h.1], h.2.1⟩

/-! ### Construction -/

theorem construct_object {J : Type} (c : CollabAll S J) (a : OptsArg)
    (hn : (mergeOpts (some a)).onStatusUpdate ≠ Callback.null) :
    construct c (OptsParam.object a) = some
      { nes :=
          { opts := mergeOpts (some a),
            frameTime := jsDiv 1000 (mergeOpts (some a)).preferredFrameRate,
            ui := { writeFrame := (mergeOpts (some a)).onFrame,
                    writeAudio := (mergeOpts (some a)).onAudio,
                    updateStatus := (mergeOpts (some a)).onStatusUpdate },
            hw := { cpu := c.newCPU (mergeOpts (some a)), ppu := c.newPPU (mergeOpts (some a)),
                    papu := c.newPAPU (mergeOpts (some a)), mmap := none },
            rom := none,
            romData := none,
            lastFpsTime := none,
            fpsFrameCount := 0 },
        log := [Event.updateStatus] } := by
  show (if (mergeOpts (some a)).onStatusUpdate = Callback.null then none else some _) = _
  rw [if_neg hn]
  rfl

/-- C16 as stated fails: for the options object `{onStatusUpdate: null}`
the constructor throws at `this.ui.updateStatus(...)` and no console is
constructed. -/
theorem construct_null_status_throws :
    construct toyAll (OptsParam.object
      { optsExample with onStatusUpdate := some Callback.null }) = none :=
  rfl

/-- C16, amended: for every caller-supplied options object whose
`onStatusUpdate` is not `null`, the constructor returns a console whose
options are merged key by key: each of the six keys takes the caller's
value unless that is `undefined`, and then keeps its default
(`preferredFrameRate` 60, `emulateSound` true, `sampleRate` 44100); keys of
the caller's object that `this.opts` does not have leave no trace;
`frameTime` is the double quotient `1000 / preferredFrameRate` of the
merged options; and without an argument all defaults stay. -/
theorem construct_opts {J : Type} (c : CollabAll S J) (a : OptsArg)
    (hs : a.onStatusUpdate ≠ some Callback.null) :
    (∃ o : Sys S, construct c (OptsParam.object a) = some o
        ∧ o.nes.opts =
          { onFrame := a.onFrame.getD noopFrame,
            onAudio := a.onAudio.getD Callback.null,
            onStatusUpdate := a.onStatusUpdate.getD noopStatus,
            preferredFrameRate := a.preferredFrameRate.getD 60,
            emulateSound := a.emulateSound.getD true,
            sampleRate := a.sampleRate.getD 44100 }
        ∧ o.nes.frameTime = jsDiv 1000 (a.preferredFrameRate.getD 60)
        ∧ (a.preferredFrameRate.getD 60 ≠ 0 →
            o.nes.frameTime = roundDouble (1000 / a.preferredFrameRate.getD 60))
        ∧ ∀ e : List (String × Nat),
            construct c (OptsParam.object { a with extra := e }) = some o)
      ∧ (∃ o : Sys S, construct c OptsParam.undefined = some o
        ∧ o.nes.opts =
          { onFrame := noopFrame, onAudio := Callback.null, onStatusUpdate := noopStatus,
            preferredFrameRate := 60, emulateSound := true, sampleRate := 44100 }
        ∧ o.nes.frameTime = JSNum.num (4691249611844267 / 281474976710656)) := by
  have hk : ∀ {α : Type} (d : α) (v : Option α), mergeKey d v = v.getD d := by
    intro α d v
    cases v <;> rfl
  have hm : mergeOpts (some a) =
      { onFrame := a.onFrame.getD noopFrame,
        onAudio := a.onAudio.getD Callback.null,
        onStatusUpdate := a.onStatusUpdate.getD noopStatus,
        preferredFrameRate := a.preferredFrameRate.getD 60,
        emulateSound := a.emulateSound.getD true,
        sampleRate := a.sampleRate.getD 44100 } := by
    simp only [mergeOpts, hk, defaultOpts]
  have hn : (mergeOpts (some a)).onStatusUpdate ≠ Callback.null := by
    rw [hm]
    cases h : a.onStatusUpdate with
    | none => simp [noopStatus]
    | some v =>
      intro hv
      apply hs
      rw [h]
      simpa using hv
  refine ⟨⟨_, construct_object c a hn, hm, ?_, fun hne => ?_, fun e => ?_⟩,
    ⟨_, rfl, rfl, jsDiv_1000_60⟩⟩
  · show jsDiv 1000 (mergeOpts (some a)).preferredFrameRate = _
    rw [hm]
  · show jsDiv 1000 (mergeOpts (some a)).preferredFrameRate = _
    rw [hm]
    unfold jsDiv
    rw [if_neg hne]
  · exact construct_object c { a with extra := e } hn

theorem construct_opts_witness :
    optsExample.onStatusUpdate ≠ some Callback.null
      ∧ ∃ o : Sys toySorts, construct toyAll (OptsParam.object optsExample) = some o
          ∧ o.nes.opts =
            { onFrame := noopFrame, onAudio := Callback.fn 7, onStatusUpdate := noopStatus,
              preferredFrameRate := 50, emulateSound := false, sampleRate := 44100 }
          ∧ o.nes.frameTime = jsDiv 1000 50 :=
  have h := construct_opts toyAll optsExample (by decide)
  ⟨by decide, by
    obtain ⟨o, e1, e2, e3, -⟩ := h.1
    exact ⟨o, e1, e2, e3⟩⟩

/-! ### Snapshot and restore -/

/-- What a `loadROM` of accepted data leaves behind. -/
theorem loadROM_accepted (c : Collab S) (data : S.Bytes) (s : NES S) (r : S.Rom)
    (h : c.romLoad data c.newROM = Outcome.returned r) :
    loadROM c data s = Outcome.returned
      { nes :=
          { s with
            hw := c.setMirroring (c.getMirroringType r)
              (c.mmapLoadROM
                { cpu := c.cpuReset s.hw.cpu, ppu := c.ppuReset s.hw.ppu,
                  papu := c.papuReset s.hw.papu, mmap := some (c.createMapper r) }),
            rom := some r, romData := some data, lastFpsTime := none, fpsFrameCount := 0 },
        log := Event.romLoad data :: ((reset c { s with rom := some r }).log ++
          [Event.createMapper, Event.mmapLoadROM,
           Event.setMirroring (c.getMirroringType r)]) } := by
  unfold loadROM
  rw [h]
  simp only [(reset_eq c _).1]

theorem overlay_of_mapper {J : Type} (c : CollabAll S J) (j : Snapshot S J) (o : Sys S)
    (m : S.Mapper) (hm : o.nes.hw.mmap = some m) :
    overlay c j o = Outcome.returned
      { nes := { o.nes with
          hw := { cpu := c.cpuFromJSON j.cpu o.nes.hw.cpu,
                  ppu := c.ppuFromJSON j.ppu o.nes.hw.ppu,
                  papu := o.nes.hw.papu,
                  mmap := some (c.mmapFromJSON j.mmap m) } },
        log := o.log ++ [Event.cpuFromJSON, Event.mmapFromJSON, Event.ppuFromJSON] } := by
  unfold overlay
  simp only [hm]

theorem fromJSON_returned {J : Type} (c : CollabAll S J) (j : Snapshot S J) (s : NES S)
    (o : Sys S) (m : S.Mapper) (h : loadROMAny c j.romData s = Outcome.returned o)
    (hm : o.nes.hw.mmap = some m) :
    fromJSON c j s = Outcome.returned
      { nes := { o.nes with
          hw := { cpu := c.cpuFromJSON j.cpu o.nes.hw.cpu,
                  ppu := c.ppuFromJSON j.ppu o.nes.hw.ppu,
                  papu := o.nes.hw.papu,
                  mmap := some (c.mmapFromJSON j.mmap m) } },
        log := o.log ++ [Event.cpuFromJSON, Event.mmapFromJSON, Event.ppuFromJSON] } := by
  unfold fromJSON
  rw [h]
  exact overlay_of_mapper c j o m hm

/-- C20: `toJSON()` on a console with `mmap` null fails (the value `none`);
with a Mapper it returns the record of the four fields `romData`, `cpu`,
`mmap`, `ppu`, which does not depend on the APU, and whose `romData` is the
console's, hence the bytes of the last `loadROM` that completed.  `toJSON`
returns no console: it assigns no field. -/
theorem toJSON_spec {J : Type} (c : CollabAll S J) (s : NES S) :
    (s.hw.mmap = none → toJSON c s = none)
      ∧ (∀ m : S.Mapper, s.hw.mmap = some m →
          toJSON c s = some
            { romData := s.romData, cpu := c.cpuToJSON s.hw.cpu,
              mmap := c.mmapToJSON m, ppu := c.ppuToJSON s.hw.ppu })
      ∧ (∀ p : S.Papu, toJSON c { s with hw := { s.hw with papu := p } } = toJSON c s)
      ∧ (∀ (d : S.Bytes) (o : Sys S) (j : Snapshot S J),
          loadROM c.toCollab d s = Outcome.returned o → toJSON c o.nes = some j →
          j.romData = some d) := by
  refine ⟨fun h => ?_, fun m h => ?_, fun p => ?_, fun d o j h1 h2 => ?_⟩
  · unfold toJSON
    rw [h]
  · unfold toJSON
    rw [h]
  · unfold toJSON
    cases hm : s.hw.mmap <;> simp [hm]
  · have hrd : o.nes.romData = some d := by
      cases hr : c.romLoad d c.newROM with
      | returned r =>
        rw [loadROM_accepted c.toCollab d s r hr] at h1
        have := Outcome.returned.inj h1
        rw [← this]
      | threw r =>
        rw [loadROM_rejected c.toCollab d s r hr] at h1
        exact absurd h1 (by simp)
    unfold toJSON at h2
    cases hm : o.nes.hw.mmap with
    | none => rw [hm] at h2; simp at h2
    | some m =>
      rw [hm] at h2
      have := Option.some.inj h2
      rw [← this]
      exact hrd

theorem toJSON_spec_witness :
    nes0.hw.mmap = none ∧ toJSON toyAll nes0 = none
      ∧ nesLoaded.hw.mmap = some (16 : Nat)
      ∧ (toJSON toyAll nesLoaded).map (fun j => j.romData) = some (some (5 : Nat)) :=
  ⟨rfl, (toJSON_spec toyAll nes0).1 rfl, rfl,
   by rw [(toJSON_spec toyAll nesLoaded).2.1 16 rfl]; rfl⟩

/-- C12: `fromJSON(s)` is `loadROM(s.romData)` followed by
`cpu.fromJSON(s.cpu)`, `mmap.fromJSON(s.mmap)` and `ppu.fromJSON(s.ppu)` in
that order.  If `loadROM` throws, `fromJSON` throws with the console as
`loadROM` left it and no overlay applied.  The Mapper overlay is applied to
the Mapper that `loadROM` left, which for accepted bytes is the one created
from the new ROM and wired in; the result then does not depend on the
Mapper present before the call. -/
theorem fromJSON_spec {J : Type} (c : CollabAll S J) (j : Snapshot S J) (s : NES S) :
    (∀ d : S.Bytes, j.romData = some d →
        loadROMAny c j.romData s = loadROM c.toCollab d s)
      ∧ (∀ o : Sys S, loadROMAny c j.romData s = Outcome.threw o →
          fromJSON c j s = Outcome.threw o)
      ∧ (∀ (o : Sys S) (m : S.Mapper),
          loadROMAny c j.romData s = Outcome.returned o → o.nes.hw.mmap = some m →
          fromJSON c j s = Outcome.returned
            { nes := { o.nes with
                hw := { cpu := c.cpuFromJSON j.cpu o.nes.hw.cpu,
                        ppu := c.ppuFromJSON j.ppu o.nes.hw.ppu,
                        papu := o.nes.hw.papu,
                        mmap := some (c.mmapFromJSON j.mmap m) } },
              log := o.log ++ [Event.cpuFromJSON, Event.mmapFromJSON, Event.ppuFromJSON] })
      ∧ (∀ (d : S.Bytes) (r : S.Rom) (o : Sys S),
          j.romData = some d → c.romLoad d c.newROM = Outcome.returned r →
          loadROMAny c j.romData s = Outcome.returned o →
          o.nes.hw = c.setMirroring (c.getMirroringType r)
            (c.mmapLoadROM
              { cpu := c.cpuReset s.hw.cpu, ppu := c.ppuReset s.hw.ppu,
                papu := c.papuReset s.hw.papu, mmap := some (c.createMapper r) }))
      ∧ (∀ (d : S.Bytes) (r : S.Rom) (m0 : Option S.Mapper),
          j.romData = some d → c.romLoad d c.newROM = Outcome.returned r →
          (fromJSON c j { s with hw := { s.hw with mmap := m0 } }).val.nes
            = (fromJSON c j s).val.nes) := by
  have hany : ∀ (d : S.Bytes) (x : NES S), j.romData = some d →
      loadROMAny c j.romData x = loadROM c.toCollab d x := by
    intro d x hd
    unfold loadROMAny
    rw [hd]
  refine ⟨fun d hd => hany d s hd, fun o h => ?_, fun o m h hm => ?_,
    fun d r o hd hr h => ?_, fun d r m0 hd hr => ?_⟩
  · unfold fromJSON
    rw [h]
  · exact fromJSON_returned c j s o m h hm
  · rw [hany d s hd, loadROM_accepted c.toCollab d s r hr] at h
    have := Outcome.returned.inj h
    rw [← this]
  · unfold fromJSON
    rw [hany d _ hd, hany d s hd]
    rw [loadROM_accepted c.toCollab d _ r hr, loadROM_accepted c.toCollab d s r hr]
    simp only [overlay]
    split <;> rfl

theorem fromJSON_spec_witness :
    snapLoaded.romData = some (5 : Nat)
      ∧ (∃ o : Sys toySorts, fromJSON toyAll snapLoaded nes0 = Outcome.returned o
          ∧ o.nes.hw.cpu = nesLoaded.hw.cpu
          ∧ o.nes.hw.mmap = some (16 : Nat)
          ∧ o.log = [Event.romLoad 5, Event.cpuReset, Event.ppuReset, Event.papuReset,
              Event.createMapper, Event.mmapLoadROM, Event.setMirroring 6,
              Event.cpuFromJSON, Event.mmapFromJSON, Event.ppuFromJSON])
      ∧ (∃ o : Sys toySorts,
          fromJSON toyAll { snapLoaded with romData := some (0 : Nat) } nesLoaded
            = Outcome.threw o
          ∧ o.nes.hw = nesLoaded.hw
          ∧ o.log = [Event.romLoad 0]) :=
  ⟨rfl,
   ⟨_, (fromJSON_spec toyAll snapLoaded nes0).2.2.1 _ 16 rfl rfl, rfl, rfl, rfl⟩,
   ⟨_, (fromJSON_spec toyAll { snapLoaded with romData := some (0 : Nat) } nesLoaded).2.1 _ rfl,
     rfl, rfl⟩⟩

/-- C11: round trip.  Let `s` be a console with a cartridge loaded (a Mapper
in place, `romData` the bytes `rom.load` accepts) and let each
collaborator's `fromJSON` restore what its `toJSON` produced.  Then
`s.toJSON()` returns a snapshot `j`, and `fromJSON(j)` on any console `s0`
returns normally exactly when its `loadROM` leaves `s0` with a Mapper (the
state `loaded`, after `mmap.loadROM()` and `ppu.setMirroring`); it then
returns a console with CPU, Mapper and PPU equal to those of `s`, with the
same `romData`, on which a second `toJSON()` returns `j` again.  Otherwise
it throws at `this.mmap.fromJSON`. -/
theorem snapshot_round_trip {J : Type} (c : CollabAll S J) (s s0 : NES S)
    (m : S.Mapper) (d : S.Bytes) (r : S.Rom)
    (hcpu : ∀ x y : CPU S, c.cpuFromJSON (c.cpuToJSON x) y = x)
    (hmap : ∀ x y : S.Mapper, c.mmapFromJSON (c.mmapToJSON x) y = x)
    (hppu : ∀ x y : PPU S, c.ppuFromJSON (c.ppuToJSON x) y = x)
    (hm : s.hw.mmap = some m) (hd : s.romData = some d)
    (hr : c.romLoad d c.newROM = Outcome.returned r) :
    ∃ (j : Snapshot S J) (loaded : Sys S),
      toJSON c s = some j
        ∧ loadROM c.toCollab d s0 = Outcome.returned loaded
        ∧ (∀ m1 : S.Mapper, loaded.nes.hw.mmap = some m1 →
            ∃ o : Sys S, fromJSON c j s0 = Outcome.returned o
              ∧ o.nes.hw.cpu = s.hw.cpu
              ∧ o.nes.hw.mmap = s.hw.mmap
              ∧ o.nes.hw.ppu = s.hw.ppu
              ∧ o.nes.romData = s.romData
              ∧ toJSON c o.nes = some j)
        ∧ (loaded.nes.hw.mmap = none → ∃ o : Sys S, fromJSON c j s0 = Outcome.threw o)
        ∧ (∀ o : Sys S, fromJSON c j s0 = Outcome.returned o →
            o.nes.hw.cpu = s.hw.cpu ∧ o.nes.hw.mmap = s.hw.mmap ∧ o.nes.hw.ppu = s.hw.ppu
              ∧ o.nes.romData = s.romData ∧ toJSON c o.nes = some j) := by
  have hj : toJSON c s = some
      { romData := s.romData, cpu := c.cpuToJSON s.hw.cpu,
        mmap := c.mmapToJSON m, ppu := c.ppuToJSON s.hw.ppu } := by
    unfold toJSON
    rw [hm]
  have hl := loadROM_accepted c.toCollab d s0 r hr
  have hany : loadROMAny c (some d) s0 = loadROM c.toCollab d s0 := rfl
  have main : ∀ (o1 : Sys S) (m1 : S.Mapper),
      loadROM c.toCollab d s0 = Outcome.returned o1 → o1.nes.hw.mmap = some m1 →
      o1.nes.romData = some d →
      ∃ o : Sys S, fromJSON c
          { romData := s.romData, cpu := c.cpuToJSON s.hw.cpu,
            mmap := c.mmapToJSON m, ppu := c.ppuToJSON s.hw.ppu } s0 = Outcome.returned o
        ∧ o.nes.hw.cpu = s.hw.cpu
        ∧ o.nes.hw.mmap = s.hw.mmap
        ∧ o.nes.hw.ppu = s.hw.ppu
        ∧ o.nes.romData = s.romData
        ∧ toJSON c o.nes = some
            { romData := s.romData, cpu := c.cpuToJSON s.hw.cpu,
              mmap := c.mmapToJSON m, ppu := c.ppuToJSON s.hw.ppu } := by
    intro o1 m1 h1 hm1 hrd
    have hf := fromJSON_returned c
      { romData := s.romData, cpu := c.cpuToJSON s.hw.cpu,
        mmap := c.mmapToJSON m, ppu := c.ppuToJSON s.hw.ppu } s0 o1 m1
      (by rw [hd, hany, h1]) hm1
    refine ⟨_, hf, ?_, ?_, ?_, ?_, ?_⟩
    · exact hcpu _ _
    · show some (c.mmapFromJSON (c.mmapToJSON m) m1) = s.hw.mmap
      rw [hmap, hm]
    · exact hppu _ _
    · show o1.nes.romData = s.romData
      rw [hrd, hd]
    · unfold toJSON
      simp only [hcpu, hppu, hmap, hd, hrd]
  have hret : ∀ o : Sys S, fromJSON c
        { romData := s.romData, cpu := c.cpuToJSON s.hw.cpu,
          mmap := c.mmapToJSON m, ppu := c.ppuToJSON s.hw.ppu } s0 = Outcome.returned o →
      (c.setMirroring (c.getMirroringType r)
        (c.mmapLoadROM
          { cpu := c.cpuReset s0.hw.cpu, ppu := c.ppuReset s0.hw.ppu,
            papu := c.papuReset s0.hw.papu, mmap := some (c.createMapper r) })).mmap
        ≠ none := by
    intro o ho hx
    unfold fromJSON at ho
    rw [hd, hany, hl] at ho
    unfold overlay at ho
    simp only [hx] at ho
    exact absurd ho (by simp)
  refine ⟨_, _, hj, hl, fun m1 hm1 => main _ m1 hl hm1 rfl, fun hnone => ?_, fun o ho => ?_⟩
  · cases hf : fromJSON c
        { romData := s.romData, cpu := c.cpuToJSON s.hw.cpu,
          mmap := c.mmapToJSON m, ppu := c.ppuToJSON s.hw.ppu } s0 with
    | threw o => exact ⟨o, rfl⟩
    | returned o => exact absurd hnone (hret o hf)
  · cases hx : (c.setMirroring (c.getMirroringType r)
        (c.mmapLoadROM
          { cpu := c.cpuReset s0.hw.cpu, ppu := c.ppuReset s0.hw.ppu,
            papu := c.papuReset s0.hw.papu, mmap := some (c.createMapper r) })).mmap with
    | none => exact absurd hx (hret o ho)
    | some m1 =>
      obtain ⟨o2, h2, rest⟩ := main _ m1 hl hx rfl
      rw [h2] at ho
      have := Outcome.returned.inj ho
      rw [← this]
      exact rest

theorem snapshot_round_trip_witness :
    nesPlayed.hw.mmap = some (99 : Nat) ∧ nesPlayed.romData = some (5 : Nat)
      ∧ nesPlayed.hw.cpu.st ≠ nesLoaded.hw.cpu.st
      ∧ nesPlayed.hw.ppu.curX ≠ nesLoaded.hw.ppu.curX
      ∧ nesPlayed.hw.mmap ≠ nesLoaded.hw.mmap
      ∧ loadROM toy (5 : Nat) nes0
          = Outcome.returned
              { nes := nesLoaded,
                log := [Event.romLoad 5, Event.cpuReset, Event.ppuReset, Event.papuReset,
                  Event.createMapper, Event.mmapLoadROM, Event.setMirroring 6] }
      ∧ ∃ (j : Snapshot toySorts ToyJSON) (o : Sys toySorts),
          toJSON toyAll nesPlayed = some j
            ∧ fromJSON toyAll j nes0 = Outcome.returned o
            ∧ o.nes.hw.cpu = nesPlayed.hw.cpu
            ∧ o.nes.hw.mmap = nesPlayed.hw.mmap
            ∧ o.nes.hw.ppu = nesPlayed.hw.ppu
            ∧ o.nes.romData = nesPlayed.romData
            ∧ toJSON toyAll o.nes = some j := by
  obtain ⟨j, loaded, h1, h2, h3, -, -⟩ :=
    snapshot_round_trip toyAll nesPlayed nes0 99 5 6 (fun _ _ => rfl) (fun _ _ => rfl)
      (fun _ _ => rfl) rfl rfl rfl
  have hl : loaded.nes.hw.mmap = some (16 : Nat) := by
    have h4 : loadROM toy (5 : Nat) nes0 = Outcome.returned loaded := h2
    have h5 : loadROM toy (5 : Nat) nes0 = Outcome.returned
        { nes := nesLoaded,
          log := [Event.romLoad 5, Event.cpuReset, Event.ppuReset, Event.papuReset,
            Event.createMapper, Event.mmapLoadROM, Event.setMirroring 6] } := rfl
    rw [h5] at h4
    rw [← Outcome.returned.inj h4]
    rfl
  obtain ⟨o, e⟩ := h3 16 hl
  exact ⟨rfl, rfl, by decide, by decide, by decide, rfl, j, o, h1, e⟩

end JSNES
